import Mathlib

/-! Air Quality PCAP analyzer: embedding of `air-quality.c`

The C program keeps a global table `en[MAX_ENTITIES]` of radio entities, a count `nent`
and a packet counter `pcount`.  `handle_packet` is called once per captured frame.

Conventions of the embedding.

* A pointer `struct entity*` is the index of the slot in `en`; `NULL` is `none`.
* The live part of the table (slots `0 .. nent-1`) is a `List entity`, so `nent` is its
  length.  Slots at and above `nent` are still zero (static storage, written only by
  `add_unknown` and `add_ap`, which then increment `nent`).
* Packet bytes are natural numbers, reduced modulo 256 when read (`u_char`).
* Unsigned counters wrap at their width (`% 2 ^ 64`, `% 256`).  The signed member `beacons`
  (an `int`) is incremented in two's complement (`wrap_int`): at 2^31 - 1 the increment
  instruction wraps to -2^31, where the C standard leaves the overflow undefined.  The
  statement about the beacon count assumes that the count stays below 2^31.
* Dereferencing `NULL` and reading or writing outside the object that is accessed are an
  explicit `Fault`.  A `Fault` ends the run.
* The single-precision computation `ttot *= rssi_coeff` of `analyze_channels` is a parameter
  `atten` of the model.
* `find_any` followed by `add_unknown` (or `add_ap`) when it returned `NULL` is written as
  one function, `find_or_add_unknown` (`find_or_add_ap`); lines 222-237 of `handle_packet`
  are `frame_fields`, its three branches `handle_no_sa`, `handle_beacon` and `handle_other`.
-/

namespace AirQuality

/-- The ways the C code can leave defined behaviour.  `out_of_fuel` is not one of them: it
marks a loop of the model that was cut off by its fuel, and `find_tag`, the one function with
such a loop, never returns it (`find_tag_never_out_of_fuel`). -/
inductive Fault where
  | null_deref
  | out_of_bounds_read
  | out_of_bounds_write
  | out_of_fuel
  deriving DecidableEq, Repr

abbrev MAX_ENTITIES : Nat := 250
abbrev SSID_LENGTH : Nat := 255
abbrev TYPE_UNKNOWN : Int := 0
abbrev TYPE_AP : Int := 1
abbrev TYPE_USER : Int := 2

/-- The `struct entity` of the source, one field per member. `ssid` is the 255-byte array. -/
structure entity where
  mac : Nat
  apmac : Nat
  channel : Int
  nusers : Int
  rxtraffic : Nat
  txtraffic : Nat
  beacons : Int
  ssid : List Nat
  type : Int
  rssi : Int
  pktidx : Nat
  deriving DecidableEq, Repr

/-- A slot of the global table before its first use: static storage is zero-initialised. -/
def zero_entity : entity :=
  { mac := 0, apmac := 0, channel := 0, nusers := 0, rxtraffic := 0, txtraffic := 0,
    beacons := 0, ssid := List.replicate SSID_LENGTH 0, type := 0, rssi := 0, pktidx := 0 }

/-- The globals `en` (its first `nent` slots) and `pcount`. -/
structure state where
  en : List entity
  pcount : Nat
  deriving DecidableEq, Repr

/-- The global `nent`. -/
def state.nent (s : state) : Nat := s.en.length

/-- The globals at program start. -/
def init : state := { en := [], pcount := 0 }

/-- Read the entity a pointer designates. -/
def deref (en : List entity) (p : Nat) : entity := en[p]?.getD zero_entity

/-- Assign through a pointer: replace the entity in slot `p` by `f` of it. -/
def modify_at (f : entity → entity) : List entity → Nat → List entity
  | [], _ => []
  | e :: es, 0 => f e :: es
  | e :: es, p + 1 => e :: modify_at f es p

/-- The loop of `_find`, with `i` the index of the head of the remaining slots. -/
def _find_loop (mac : Nat) (type : Int) : List entity → Nat → Option Nat
  | [], _ => none
  | wrk :: rest, i =>
    if (wrk.type = type ∨ type = -1) ∧ wrk.mac = mac then some i
    else _find_loop mac type rest (i + 1)

/-- Function `_find(mac, type)`: first of the `nent` slots with this address and type (-1: any type). -/
def _find (en : List entity) (mac : Nat) (type : Int) : Option Nat :=
  _find_loop mac type en 0

def find_any (en : List entity) (mac : Nat) : Option Nat := _find en mac (-1)
def find_ap (en : List entity) (mac : Nat) : Option Nat := _find en mac TYPE_AP
def find_user (en : List entity) (mac : Nat) : Option Nat := _find en mac TYPE_USER

/-- Read `buf[i]` as a `u_char`; outside the captured bytes the read is a fault. -/
def read_byte (buf : List Nat) (i : Nat) : Except Fault Nat :=
  match buf[i]? with
  | some b => .ok (b % 256)
  | none => .error .out_of_bounds_read

/-- Function `get_two(data)`: two bytes, most significant first, as a `u_int16_t`. -/
def get_two (buf : List Nat) (data : Nat) : Except Fault Nat :=
  match read_byte buf data with
  | .error e => .error e
  | .ok b0 =>
    match read_byte buf (data + 1) with
    | .error e => .error e
    | .ok b1 => .ok (((b0 <<< 8) ||| b1) % 65536)

/-- Function `get_mac(data)`: three `get_two` halves shifted into a `u_int64_t`. -/
def get_mac (buf : List Nat) (data : Nat) : Except Fault Nat :=
  match get_two buf data with
  | .error e => .error e
  | .ok t0 =>
    let out := ((0 ||| t0) <<< 16) % 2 ^ 64
    match get_two buf (data + 2) with
    | .error e => .error e
    | .ok t1 =>
      let out := ((out ||| t1) <<< 16) % 2 ^ 64
      match get_two buf (data + 4) with
      | .error e => .error e
      | .ok t2 => .ok (out ||| t2)

/-- The `while` loop of `find_tag` on the loop state (`data`, `tag_type`, `tag_length`); `fuel`
bounds the number of iterations.  Every iteration moves `data` forward by at least 2 and a
read outside the buffer is a fault, so `fuel` above the buffer length is never used up
(`find_tag_never_out_of_fuel`, `find_tag_loop_fuel`). -/
def find_tag_loop (buf : List Nat) (tag_id : Nat) :
    Nat → Nat → Nat → Nat → Except Fault (Nat × Nat)
  | 0, _, _, _ => .error .out_of_fuel
  | fuel + 1, data, tag_type, tag_length =>
    if tag_type ≠ tag_id then
      match read_byte buf data with
      | .error e => .error e
      | .ok t =>
        match read_byte buf (data + 1) with
        | .error e => .error e
        | .ok l =>
          if t ≠ tag_id then find_tag_loop buf tag_id fuel (data + (l + 2)) t l
          else find_tag_loop buf tag_id fuel (data + 2) t l
    else .ok (data, tag_length)

/-- Function `find_tag(data, tag_id, &size)`: the returned pointer (an offset into `buf`) and `*size`.
`tag_type` starts as `(u_int8_t) -1 = 255`. -/
def find_tag (buf : List Nat) (data : Nat) (tag_id : Nat) : Except Fault (Nat × Nat) :=
  find_tag_loop buf tag_id (buf.length + 2) data 255 0

/-- Function `add_unknown(mac)`: the new table and the returned pointer. -/
def add_unknown (en : List entity) (mac : Nat) : List entity × Option Nat :=
  if en.length < MAX_ENTITIES then
    (en ++ [{ zero_entity with mac := mac, type := TYPE_UNKNOWN, rxtraffic := 0,
                               txtraffic := 0 }], some en.length)
  else (en, none)

/-- Function `add_ap(mac)`: the new table and the returned pointer. -/
def add_ap (en : List entity) (mac : Nat) : List entity × Option Nat :=
  if en.length < MAX_ENTITIES then
    (en ++ [{ zero_entity with mac := mac, channel := 0, rxtraffic := 0, txtraffic := 0,
                               type := TYPE_AP }], some en.length)
  else (en, none)

/-- Function `confirm_ap(ap)`: the type becomes access point unless `ap` is `NULL`. -/
def confirm_ap (en : List entity) (ap : Option Nat) : List entity :=
  match ap with
  | some p => modify_at (fun e => { e with type := TYPE_AP }) en p
  | none => en

/-- Function `confirm_user(user)`: the type becomes user unless `user` is `NULL`. -/
def confirm_user (en : List entity) (user : Option Nat) : List entity :=
  match user with
  | some p => modify_at (fun e => { e with type := TYPE_USER }) en p
  | none => en

/-- The bytes `strncpy(dst, src, n)` stores into `dst[0 .. n-1]`: the source bytes up to its
first zero byte, then zeros. -/
def strncpy_bytes (buf : List Nat) : Nat → Nat → Except Fault (List Nat)
  | _, 0 => .ok []
  | src, n + 1 =>
    match read_byte buf src with
    | .error e => .error e
    | .ok c =>
      if c = 0 then .ok (List.replicate (n + 1) 0)
      else
        match strncpy_bytes buf (src + 1) n with
        | .error e => .error e
        | .ok rest => .ok (c :: rest)

/-- Store into one element of a character array; outside the array the store is a fault. -/
def write_byte (arr : List Nat) (i : Nat) (v : Nat) : Except Fault (List Nat) :=
  if i < arr.length then .ok (arr.set i v) else .error .out_of_bounds_write

/-- Function `set_ap_ssid(ap, pkt)` on the `ssid` array of the entity: `find_tag` for tag 0, `strncpy`
of `ssid_size` bytes, then `ap->ssid[ssid_size] = 0`. -/
def set_ap_ssid (ssid : List Nat) (buf : List Nat) (pkt : Nat) : Except Fault (List Nat) :=
  match find_tag buf pkt 0 with
  | .error e => .error e
  | .ok (ssid_ptr, ssid_size) =>
    match strncpy_bytes buf ssid_ptr ssid_size with
    | .error e => .error e
    | .ok bytes =>
      if ssid_size ≤ ssid.length then
        write_byte (bytes ++ ssid.drop ssid_size) ssid_size 0
      else .error .out_of_bounds_write

/-- The value an `int` holds after an arithmetic result `x`: two's complement on 32 bits. -/
def wrap_int (x : Int) : Int := (x + 2 ^ 31) % 2 ^ 32 - 2 ^ 31

/-- The conversion of a byte to `int8_t`. -/
def to_int8 (b : Nat) : Int := if b % 256 < 128 then (b % 256 : Nat) else ((b % 256 : Nat) : Int) - 256

/-- The first two statements of `handle_beacon`:
`ap = find_any(mac); if (ap == NULL) { ap = add_ap(mac); }`. -/
def find_or_add_ap (en : List entity) (mac : Nat) : List entity × Option Nat :=
  match find_any en mac with
  | some p => (en, some p)
  | none => add_ap en mac

/-- Function `handle_beacon(pkt, mac, rssi)`; `pkt` is the offset of the MAC header in `buf`.  The test
`ap->type != TYPE_AP` dereferences `ap` even when `add_ap` returned `NULL`. -/
def handle_beacon (en : List entity) (buf : List Nat) (pkt : Nat) (mac : Nat) (rssi : Int) :
    Except Fault (List entity) :=
  match find_or_add_ap en mac with
  | (_, none) => .error .null_deref
  | (en1, some p) =>
    let en2 := if (deref en1 p).type ≠ TYPE_AP then confirm_ap en1 (some p) else en1
    if (deref en2 p).channel = 0 then
      let pkt := pkt + 36
      match set_ap_ssid (deref en2 p).ssid buf pkt with
      | .error e => .error e
      | .ok ssid =>
        match find_tag buf pkt 3 with
        | .error e => .error e
        | .ok (tag_ptr, _) =>
          match read_byte buf tag_ptr with
          | .error e => .error e
          | .ok ch =>
            .ok (modify_at (fun e => { e with ssid := ssid, channel := (ch : Int), rssi := rssi,
                                              beacons := wrap_int (e.beacons + 1) }) en2 p)
    else
      .ok (modify_at (fun e => { e with beacons := wrap_int (e.beacons + 1) }) en2 p)

/-- The `struct pcap_pkthdr` members (the time stamp is left out; only `len` is used). -/
structure pcap_pkthdr where
  caplen : Nat
  len : Nat
  deriving DecidableEq, Repr

/-- What lines 222-237 of `handle_packet` read from the frame. -/
structure fields where
  rssi : Int
  pkt_ptr : Nat
  wtype : Nat
  wsubtype : Nat
  no_sa : Bool
  da : Nat
  sa : Nat
  deriving DecidableEq, Repr

/-- Lines 222-237 of `handle_packet`: radiotap length from byte 2, RSSI from byte 22, then
type, subtype and the two addresses from the MAC header. -/
def frame_fields (packet : List Nat) : Except Fault fields :=
  match read_byte packet 2 with
  | .error e => .error e
  | .ok len_rthead =>
    match read_byte packet 22 with
    | .error e => .error e
    | .ok b22 =>
      let pkt_ptr := len_rthead
      match read_byte packet pkt_ptr with
      | .error e => .error e
      | .ok b0 =>
        let wtype := ((b0 >>> 2) &&& 3) % 256
        let wsubtype := (b0 >>> 4) % 256
        let no_sa := decide (wtype = 1 ∧ (wsubtype = 12 ∨ wsubtype = 13))
        match get_mac packet (pkt_ptr + 4) with
        | .error e => .error e
        | .ok da =>
          match get_mac packet (pkt_ptr + 10) with
          | .error e => .error e
          | .ok sa =>
            .ok { rssi := to_int8 b22, pkt_ptr := pkt_ptr, wtype := wtype,
                  wsubtype := wsubtype, no_sa := no_sa, da := da, sa := sa }

/-- The source's idiom `p = find_any(mac); if (p == NULL) { p = add_unknown(mac); }`. -/
def find_or_add_unknown (en : List entity) (mac : Nat) : List entity × Option Nat :=
  match find_any en mac with
  | some p => (en, some p)
  | none => add_unknown en mac

/-- The value of `header->len`, a 32-bit unsigned member. -/
def hdr_len (header : pcap_pkthdr) : Nat := header.len % 2 ^ 32

/-- The branch of `handle_packet` for frames without a source address (lines 240-247). -/
def handle_no_sa (en : List entity) (len : Nat) (da : Nat) : List entity :=
  match find_or_add_unknown en da with
  | (en1, none) => en1
  | (en1, some dst) =>
    modify_at (fun e => { e with rxtraffic := (e.rxtraffic + len) % 2 ^ 64 }) en1 dst

/-- The role update of lines 260-274, for non-null `src` and `dst`. -/
def classify (en : List entity) (pcount : Nat) (src dst : Nat) : List entity :=
  let st := (deref en src).type
  let dt := (deref en dst).type
  if st = dt ∨ st = TYPE_AP ∨ st = TYPE_USER then en
  else if st = TYPE_AP ∧ dt = TYPE_UNKNOWN then
    let en1 := confirm_user en (some dst)
    let srcmac := (deref en1 src).mac
    modify_at (fun e => { e with apmac := srcmac, pktidx := pcount % 256 }) en1 dst
  else if st = TYPE_UNKNOWN ∧ dt = TYPE_AP then
    let en1 := confirm_user en (some src)
    let dstmac := (deref en1 dst).mac
    modify_at (fun e => { e with apmac := dstmac, pktidx := pcount % 256 }) en1 src
  else en

/-- The branch of `handle_packet` for the other frames (lines 250-279). -/
def handle_other (en : List entity) (pcount : Nat) (len : Nat) (sa da : Nat) : List entity :=
  match find_or_add_unknown en sa with
  | (en1, src) =>
    match find_or_add_unknown en1 da with
    | (en2, dst) =>
      match src, dst with
      | some src, some dst =>
        let en3 := classify en2 pcount src dst
        let en4 := modify_at (fun e => { e with txtraffic := (e.txtraffic + len) % 2 ^ 64 }) en3 src
        modify_at (fun e => { e with rxtraffic := (e.rxtraffic + len) % 2 ^ 64 }) en4 dst
      | _, _ => en2

/-- Function `handle_packet(args, header, packet)`: the fields of the frame are read, `pcount` is
incremented and the frame is handled as a control frame without source, a beacon or another
frame. -/
def handle_packet (s : state) (header : pcap_pkthdr) (packet : List Nat) : Except Fault state :=
  match frame_fields packet with
  | .error e => .error e
  | .ok f =>
    let pcount := (s.pcount + 1) % 2 ^ 64
    if f.no_sa then
      .ok { en := handle_no_sa s.en (hdr_len header) f.da, pcount := pcount }
    else if f.wtype = 0 ∧ f.wsubtype = 8 then
      match handle_beacon s.en packet f.pkt_ptr f.sa f.rssi with
      | .error e => .error e
      | .ok en => .ok { en := en, pcount := pcount }
    else
      .ok { en := handle_other s.en pcount (hdr_len header) f.sa f.da, pcount := pcount }

/-- One captured frame as `pcap_loop` hands it to the callback. -/
structure frame where
  header : pcap_pkthdr
  packet : List Nat
  deriving DecidableEq, Repr

/-- The calls `pcap_loop` makes: `handle_packet` on every frame in capture order. -/
def run (s : state) : List frame → Except Fault state
  | [] => .ok s
  | f :: fs =>
    match handle_packet s f.header f.packet with
    | .error e => .error e
    | .ok s1 => run s1 fs

/-- The lower-case hexadecimal digit `printf` prints for `d < 16`, as a character code. -/
def hex_digit (d : Nat) : Nat := if d < 10 then 48 + d else 87 + d

/-- The call `sprintf(out + pos, "%02x:", v)` for a `u_int8_t` value `v`: two hexadecimal
digits, a colon and the terminating zero byte are stored from `pos` on, in this order, into
the block `out`. -/
def sprintf_02x_colon (out : List Nat) (pos : Nat) (v : Nat) : Except Fault (List Nat) :=
  match write_byte out pos (hex_digit (v % 256 / 16)) with
  | .error e => .error e
  | .ok out1 =>
    match write_byte out1 (pos + 1) (hex_digit (v % 256 % 16)) with
    | .error e => .error e
    | .ok out2 =>
      match write_byte out2 (pos + 2) 58 with
      | .error e => .error e
      | .ok out3 => write_byte out3 (pos + 3) 0

/-- Byte `k` of the object representation of a `u_int64_t` (little-endian target). -/
def byte_of (mac : Nat) (k : Nat) : Nat := (mac >>> (8 * k)) % 256

/-- The loop of `decode_mac`, iterations `i`, `i + 1`, ... (`n` of them). -/
def decode_mac_loop (mac : Nat) : Nat → Nat → List Nat → Except Fault (List Nat)
  | 0, _, out => .ok out
  | n + 1, i, out =>
    match sprintf_02x_colon out (i * 3) (byte_of mac (5 - i)) with
    | .error e => .error e
    | .ok out1 => decode_mac_loop mac n (i + 1) out1

/-- The block `decode_mac(mac)` returns: `calloc` of 18 bytes, six `sprintf` calls, then
`out[17] = 0`. -/
def decode_mac_block (mac : Nat) : Except Fault (List Nat) :=
  match decode_mac_loop mac 6 0 (List.replicate 18 0) with
  | .error e => .error e
  | .ok out => write_byte out 17 0

/-- The C string held by a character array: the bytes before the first zero byte. -/
def c_string (arr : List Nat) : String :=
  String.mk ((arr.takeWhile (fun c => c ≠ 0)).map Char.ofNat)

/-- Function `decode_mac(mac)` as the string it returns. -/
def decode_mac (mac : Nat) : Except Fault String :=
  match decode_mac_block mac with
  | .error e => .error e
  | .ok out => .ok (c_string out)

/-- The `struct channel` of the source.  The member `channel` is never assigned or read and
is left out.  `aps` is the array of 20 pointers; `none` is a slot not yet assigned. -/
structure channel where
  traffic : Nat
  usage : Nat
  aps : List (Option Nat)
  naps : Nat
  deriving DecidableEq, Repr

/-- The local `chans[12]` after the initialisation loop of `analyze_channels`. -/
def chans_init : List channel :=
  List.replicate 12 { traffic := 0, usage := 0, aps := List.replicate 20 none, naps := 0 }

/-- Replace the channel record at index `k` by `f` of it. -/
def chan_modify (f : channel → channel) : List channel → Nat → List channel
  | [], _ => []
  | c :: cs, 0 => f c :: cs
  | c :: cs, k + 1 => c :: chan_modify f cs k

/-- An update `chans[idx].member = ...`; an index outside the twelve records is a fault. -/
def chan_update (chans : List channel) (idx : Int) (f : channel → channel) :
    Except Fault (List channel) :=
  if 0 ≤ idx ∧ idx < chans.length then
    .ok (chan_modify f chans idx.toNat)
  else .error .out_of_bounds_write

/-- A read of `chans[idx]`; an index outside the twelve records is a fault. -/
def chan_read (chans : List channel) (idx : Int) : Except Fault channel :=
  if 0 ≤ idx then
    match chans[idx.toNat]? with
    | some c => .ok c
    | none => .error .out_of_bounds_read
  else .error .out_of_bounds_read

/-- The bleed loop `for (j = 1; j <= 3; ++j)` of `analyze_channels`, from iteration `j` on
(`n` iterations left), with the current `factor`. -/
def bleed_loop (chan : Int) (ttot : Nat) : Nat → Int → Nat → List channel →
    Except Fault (List channel)
  | 0, _, _, chans => .ok chans
  | n + 1, j, factor, chans =>
    let down :=
      if chan - j ≥ 0 then
        chan_update chans (chan - j) (fun c => { c with usage := (c.usage + ttot / factor) % 2 ^ 64 })
      else .ok chans
    match down with
    | .error e => .error e
    | .ok chans1 =>
      let up :=
        if chan + j ≤ 12 then
          chan_update chans1 (chan + j)
            (fun c => { c with usage := (c.usage + ttot / factor) % 2 ^ 64 })
        else .ok chans1
      match up with
      | .error e => .error e
      | .ok chans2 => bleed_loop chan ttot n (j + 1) (factor * factor) chans2

/-- The locals `chans` and `maxtot` of `analyze_channels`. -/
structure chan_state where
  chans : List channel
  maxtot : Nat
  deriving DecidableEq, Repr

/-- The body of the entity loop of `analyze_channels` (lines 388-415) for entity `i`.
`atten ttot rssi` stands for the value of `ttot` after `ttot *= rssi_coeff`, a
single-precision floating point computation that is not embedded. -/
def analyze_entity (atten : Nat → Int → Nat) (i : Nat) (e : entity) (st : chan_state) :
    Except Fault chan_state :=
  if e.type ≠ TYPE_AP then .ok st
  else
    let chan : Int := e.channel - 1
    if chan ≤ 12 then
      let ttot := (e.rxtraffic + e.txtraffic) % 2 ^ 64
      match chan_update st.chans chan (fun c => { c with traffic := (c.traffic + ttot) % 2 ^ 64 }) with
      | .error err => .error err
      | .ok chans1 =>
        let ttot := atten ttot e.rssi % 2 ^ 64
        match chan_update chans1 chan (fun c => { c with usage := (c.usage + ttot) % 2 ^ 64 }) with
        | .error err => .error err
        | .ok chans2 =>
          match chan_read chans2 chan with
          | .error err => .error err
          | .ok c =>
            if c.naps < c.aps.length then
              match chan_update chans2 chan
                  (fun c => { c with aps := c.aps.set c.naps (some i), naps := c.naps + 1 }) with
              | .error err => .error err
              | .ok chans3 =>
                match bleed_loop chan ttot 3 1 2 chans3 with
                | .error err => .error err
                | .ok chans4 =>
                  match chan_read chans4 chan with
                  | .error err => .error err
                  | .ok c =>
                    let ttot := c.usage
                    .ok { chans := chans4, maxtot := if ttot > st.maxtot then ttot else st.maxtot }
            else .error .out_of_bounds_write
    else .ok st

/-- The entity loop of `analyze_channels` over the slots from index `i` on. -/
def analyze_loop (atten : Nat → Int → Nat) : List entity → Nat → chan_state →
    Except Fault chan_state
  | [], _, st => .ok st
  | e :: es, i, st =>
    match analyze_entity atten i e st with
    | .error err => .error err
    | .ok st1 => analyze_loop atten es (i + 1) st1

/-- Function `analyze_channels()` up to the end of the entity loop: the twelve channel records and
`maxtot` that the printing loop then reads. -/
def analyze_channels (atten : Nat → Int → Nat) (en : List entity) : Except Fault chan_state :=
  analyze_loop atten en 0 { chans := chans_init, maxtot := 1 }

/-! ## Concrete frames -/

/-- A 24-byte radiotap header: its length in byte 2 and the signal strength in byte 22. -/
def radiotap (rssi : Nat) : List Nat := [0, 0, 24, 0] ++ List.replicate 18 0 ++ [rssi, 0]

/-- A 24-byte MAC header: frame control byte, destination at offset 4, source at offset 10. -/
def mac_header (fc : Nat) (da sa : List Nat) : List Nat :=
  [fc, 0, 0, 0] ++ da ++ sa ++ List.replicate 8 0

def addr_X : List Nat := [0x00, 0x11, 0x22, 0x33, 0x44, 0x55]
def addr_Y : List Nat := [0xaa, 0xbb, 0xcc, 0xdd, 0xee, 0xff]
def addr_broadcast : List Nat := [255, 255, 255, 255, 255, 255]

/-- A beacon (type 0, subtype 8) from `sa` with the given tagged parameters, RSSI -60,
100 bytes on the air. -/
def beacon_frame (sa : List Nat) (tags : List Nat) : frame :=
  { header := { caplen := 0, len := 100 },
    packet := radiotap 196 ++ mac_header 0x80 addr_broadcast sa ++ List.replicate 12 0 ++ tags }

/-- A data frame (type 2, subtype 0) from `sa` to `da`, 60 bytes on the air. -/
def data_frame (sa da : List Nat) : frame :=
  { header := { caplen := 0, len := 60 }, packet := radiotap 196 ++ mac_header 0x08 da sa }

/-- A clear-to-send frame (type 1, subtype 12) to `da`, 14 bytes on the air. -/
def cts_frame (da : List Nat) : frame :=
  { header := { caplen := 0, len := 14 }, packet := radiotap 196 ++ mac_header 0xc4 da addr_broadcast }

/-- Tagged parameters: SSID "Home" (tag 0) and channel 11 (tag 3). -/
def home_tags : List Nat := [0, 4, 72, 111, 109, 101, 3, 1, 11]

/-- The members of an entity the classification claims speak about. -/
def view (e : entity) : Nat × Int × Int × String × Nat :=
  (e.mac, e.type, e.channel, c_string e.ssid, e.apmac)

/-- The table after one beacon from X: X is an access point on channel 11. -/
def state_ap_X : state :=
  { en := [{ zero_entity with mac := 0x001122334455, type := TYPE_AP, channel := 11, beacons := 1 }],
    pcount := 1 }

/-- The table after a beacon from X and a data frame from Y to X: Y is a user of X. -/
def state_X_user_Y : state :=
  { en := [{ zero_entity with mac := 0x001122334455, type := TYPE_AP, channel := 11, beacons := 1,
                              rxtraffic := 60 },
           { zero_entity with mac := 0xaabbccddeeff, type := TYPE_USER, apmac := 0x001122334455,
                              txtraffic := 60, pktidx := 2 }],
    pcount := 2 }

/-- Four frames: a beacon from X, a data frame from Y to X, a clear-to-send frame to Y and a
data frame from X to X. -/
def four_frames : List frame :=
  [beacon_frame addr_X home_tags, data_frame addr_Y addr_X, cts_frame addr_Y,
   data_frame addr_X addr_X]

/-- The state after `four_frames`. -/
def state_four : state :=
  { en := [{ zero_entity with mac := 0x001122334455, type := TYPE_AP, channel := 11, beacons := 1,
                              rssi := -60, ssid := [72, 111, 109, 101] ++ List.replicate 251 0,
                              rxtraffic := 120, txtraffic := 60 },
           { zero_entity with mac := 0xaabbccddeeff, type := TYPE_USER, apmac := 0x001122334455,
                              rxtraffic := 14, txtraffic := 60, pktidx := 2 }],
    pcount := 4 }

/-- A full table: 250 entities of type Unknown with the addresses 1, 2, ..., 250. -/
def full_table : List entity :=
  (List.range MAX_ENTITIES).map (fun i => { zero_entity with mac := i + 1 })

/-! ## Tagged parameters -/

/-- The bytes of a sequence of tagged-parameter records (type, value): one type byte, one
length byte, then the value. -/
def encode_tags : List (Nat × List Nat) → List Nat
  | [] => []
  | (t, v) :: rs => t :: v.length :: (v ++ encode_tags rs)

/-- Type and length of every record fit in a byte. -/
def tags_wf (rs : List (Nat × List Nat)) : Prop :=
  ∀ r, r ∈ rs → r.1 < 256 ∧ r.2.length < 256

/-! ## Formatting of addresses, in the words of the specification -/

/-- In the words of the specification: an octet as two lower-case hexadecimal digits. -/
def spec_octet (b : Nat) : String :=
  String.mk (List.replicate (2 - (Nat.toDigits 16 b).length) '0' ++ Nat.toDigits 16 b)

/-- In the words of the specification: six two-digit hexadecimal octets separated by colons. -/
def spec_format_mac (bs : List Nat) : String := ":".intercalate (bs.map spec_octet)

/-! ## Channel usage -/

/-- An access point on channel `c` with `rx` bytes received, nothing sent, RSSI -40. -/
def ap_on_channel (c : Int) (rx : Nat) : entity :=
  { zero_entity with type := TYPE_AP, channel := c, rxtraffic := rx, rssi := -40 }

/-- Attenuation with coefficient 1 (the value of `rssi_coeff` for an RSSI of -40 and above) on
values that single precision represents exactly. -/
def atten_one (ttot : Nat) (_rssi : Int) : Nat := ttot

/-- The sum of `rxtraffic` over the table. -/
def sum_rx (en : List entity) : Nat := (en.map (fun e => e.rxtraffic)).sum

/-- The sum of `txtraffic` over the table. -/
def sum_tx (en : List entity) : Nat := (en.map (fun e => e.txtraffic)).sum

/-- The bytes the frame credits to a receiver as a control frame without source address when
it is processed in state `s`: its length if the frame takes the first branch of
`handle_packet` and the receiver is found or created, otherwise 0. -/
def control_credit (s : state) (fr : frame) : Nat :=
  match frame_fields fr.packet with
  | .ok f =>
    if f.no_sa then
      if (find_or_add_unknown s.en f.da).2.isSome then hdr_len fr.header else 0
    else 0
  | .error _ => 0

/-- The total of `control_credit` along the run of `frames` from `s`. -/
def control_total : state → List frame → Nat
  | _, [] => 0
  | s, fr :: frs =>
    control_credit s fr +
      match handle_packet s fr.header fr.packet with
      | .ok s1 => control_total s1 frs
      | .error _ => 0

/-- The frame is a control frame without source address (type 1, subtype 12 or 13). -/
def is_no_sa (fr : frame) : Prop := ∃ f, frame_fields fr.packet = .ok f ∧ f.no_sa = true

/-- The total of `header->len` over the frames. -/
def total_len (frames : List frame) : Nat := (frames.map (fun fr => hdr_len fr.header)).sum

/-! ## Predicates used in the statements -/

/-- The addresses in the table, in slot order. -/
def macs (en : List entity) : List Nat := en.map (fun e => e.mac)

/-- The table `en1` extends `en` and every entity of `en` keeps its address, and its role when
that is access point or user. -/
def keeps (en en1 : List entity) : Prop :=
  en.length ≤ en1.length ∧ ∀ i, i < en.length →
    (deref en1 i).mac = (deref en i).mac ∧
    ((deref en i).type = TYPE_AP → (deref en1 i).type = TYPE_AP) ∧
    ((deref en i).type = TYPE_USER → (deref en1 i).type = TYPE_USER)

/-- The frame is a beacon (type 0, subtype 8, not a control frame without source) whose source
address is `mac`. -/
def is_beacon_from (fr : frame) (mac : Nat) : Prop :=
  ∃ f, frame_fields fr.packet = .ok f ∧ f.no_sa = false ∧ f.wtype = 0 ∧ f.wsubtype = 8 ∧
    f.sa = mac

/-! ## Channel records -/

/-- The `usage` members of the twelve channel records. -/
def usages (chans : List channel) : List Nat := chans.map (fun c => c.usage)

/-- Tagged parameters: SSID "Home" (tag 0) and channel 13 (tag 3). -/
def home_tags_13 : List Nat := [0, 4, 72, 111, 109, 101, 3, 1, 13]

/-! ## Short frames -/

/-- A frame of 48 captured bytes whose byte 2 declares a radiotap header of 200 bytes. -/
def truncated_frame : frame :=
  { header := { caplen := 48, len := 48 },
    packet := [0, 0, 200, 0] ++ List.replicate 44 0 }

/-- A frame of 30 captured bytes with a 24-byte radiotap header: 6 bytes of MAC header. -/
def short_mac_frame : frame :=
  { header := { caplen := 30, len := 30 },
    packet := radiotap 196 ++ [0x08, 0, 0, 0, 1, 2] }

/-! ## Promotion to user -/

/-- Every entity that is a user in `en1` either was a user in `en` with the same `pktidx`, or
its `pktidx` satisfies `P`. -/
def users_from (P : Nat → Prop) (en en1 : List entity) : Prop :=
  ∀ i, (deref en1 i).type = TYPE_USER →
    ((deref en i).type = TYPE_USER ∧ (deref en1 i).pktidx = (deref en i).pktidx) ∨
    P (deref en1 i).pktidx

/-! ## Ranking by signal strength -/

/-- The signal strength `en[out[k]].rssi` that `grade_aps_by_rssi` compares. -/
def rssi_at (en : List entity) (out : List Nat) (k : Nat) : Int :=
  (deref en (out[k]?.getD 0)).rssi

/-- The inner loop `for (j = i+1; j < nent; ++j)` of `grade_aps_by_rssi`, from `j` on with `n`
iterations left; the result is the final `maxidx`. -/
def grade_inner (en : List entity) (out : List Nat) : Nat → Nat → Nat → Nat
  | 0, _, maxidx => maxidx
  | n + 1, j, maxidx =>
    grade_inner en out n (j + 1) (if rssi_at en out j > rssi_at en out maxidx then j else maxidx)

/-- The body of the outer loop of `grade_aps_by_rssi` for index `i`: the position `maxidx` of
the greatest signal strength from `i` on is found, then `out[maxidx]` and `out[i]` are
exchanged through `swp`.  The elements of `out` are `u_int8_t`. -/
def grade_body (en : List entity) (i : Nat) (out : List Nat) : List Nat :=
  let maxidx := grade_inner en out (en.length - (i + 1)) (i + 1) i
  let swp := out[maxidx]?.getD 0
  let out1 := out.set maxidx (out[i]?.getD 0)
  out1.set i (swp % 256)

/-- The outer loop of `grade_aps_by_rssi`, from `i` on with `n` iterations left. -/
def grade_outer (en : List entity) : Nat → Nat → List Nat → List Nat
  | 0, _, out => out
  | n + 1, i, out => grade_outer en n (i + 1) (grade_body en i out)

/-- Function `grade_aps_by_rssi()`: `out[i] = i` for the `nent` entities, then the selection
sort.  Every index used lies inside the block of `nent` bytes (`grade_inner_spec`). -/
def grade_aps_by_rssi (en : List entity) : List Nat :=
  grade_outer en en.length 0 ((List.range en.length).map (fun i => i % 256))

/-- A table of entities with the given signal strengths, in registration order. -/
def table_of_rssi (rs : List Int) : List entity := rs.map (fun r => { zero_entity with rssi := r })

/-- The list `out` holds every index below `nent` once, and from each of its first `i` positions
on the signal strength does not increase. -/
def graded_upto (en : List entity) (i : Nat) (out : List Nat) : Prop :=
  out.length = en.length ∧ out.Perm (List.range en.length) ∧
  ∀ a b, a < i → a < b → b < en.length → rssi_at en out b ≤ rssi_at en out a

/-! ## Network names -/

/-- The network name an entity holds, as the C string in its `ssid` array: the bytes before the
first zero byte. -/
def ssid_bytes (e : entity) : List Nat := e.ssid.takeWhile (fun c => c ≠ 0)

/-- Tagged parameters: an SSID of the three bytes 65, 0, 66 (tag 0) and channel 11 (tag 3). -/
def nul_ssid_tags : List Nat := [0, 3, 65, 0, 66, 3, 1, 11]

/-- Tagged parameters: an SSID of 255 bytes 65 (tag 0) and channel 11 (tag 3). -/
def long_ssid_tags : List Nat := [0, 255] ++ List.replicate 255 65 ++ [3, 1, 11]

/-! ## The access points of a channel -/

/-- The channel record with number `c` (index `c - 1` of `chans`). -/
def chan_record (st : chan_state) (c : Nat) : channel :=
  st.chans.getD (c - 1) { traffic := 0, usage := 0, aps := [], naps := 0 }

/-! ## First records -/

/-- The tagged parameters `rs` hold a record of type `t`, and the first such record has the
value `v`. -/
def first_value (rs : List (Nat × List Nat)) (t : Nat) (v : List Nat) : Prop :=
  ∃ pre post, rs = pre ++ (t, v) :: post ∧ ∀ r, r ∈ pre → r.1 ≠ t

/-! ## Properties of the table operations -/

theorem getElem?_modify_at (f : entity → entity) (en : List entity) (p q : Nat) :
    (modify_at f en p)[q]? = if q = p then (en[q]?).map f else en[q]? := by
  induction en generalizing p q with
  | nil => simp [modify_at]
  | cons e es ih =>
    cases p with
    | zero =>
      cases q with
      | zero => simp [modify_at]
      | succ q => simp [modify_at]
    | succ p =>
      cases q with
      | zero => simp [modify_at]
      | succ q => simp [modify_at, ih]

theorem length_modify_at (f : entity → entity) (en : List entity) (p : Nat) :
    (modify_at f en p).length = en.length := by
  induction en generalizing p with
  | nil => simp [modify_at]
  | cons e es ih => cases p <;> simp [modify_at, ih]

theorem deref_modify_at_same (f : entity → entity) (en : List entity) (p : Nat)
    (hp : p < en.length) : deref (modify_at f en p) p = f (deref en p) := by
  simp [deref, getElem?_modify_at, List.getElem?_eq_getElem hp]

theorem deref_modify_at_ne (f : entity → entity) (en : List entity) (p q : Nat)
    (h : q ≠ p) : deref (modify_at f en p) q = deref en q := by
  simp [deref, getElem?_modify_at, h]

theorem map_modify_at (g : entity → Nat) (f : entity → entity) (hf : ∀ e, g (f e) = g e)
    (en : List entity) (p : Nat) : (modify_at f en p).map g = en.map g := by
  induction en generalizing p with
  | nil => simp [modify_at]
  | cons e es ih => cases p <;> simp [modify_at, ih, hf]

theorem _find_loop_some (mac : Nat) (type : Int) (l : List entity) (i p : Nat)
    (h : _find_loop mac type l i = some p) :
    i ≤ p ∧ p - i < l.length ∧ (l[p - i]?.getD zero_entity).mac = mac := by
  induction l generalizing i with
  | nil => simp [_find_loop] at h
  | cons e es ih =>
    simp only [_find_loop] at h
    split at h
    · rename_i hc
      simp at h
      subst h
      simp [hc.2]
    · obtain ⟨h1, h2, h3⟩ := ih (i + 1) h
      refine ⟨by omega, ?_, ?_⟩
      · simp; omega
      · have : p - i = (p - (i + 1)) + 1 := by omega
        rw [this]
        simpa using h3

theorem _find_loop_none (mac : Nat) (l : List entity) (i : Nat) :
    _find_loop mac (-1) l i = none ↔ ∀ e ∈ l, e.mac ≠ mac := by
  induction l generalizing i with
  | nil => simp [_find_loop]
  | cons e es ih =>
    simp only [_find_loop]
    split
    · rename_i hc
      simp [hc.2]
    · rename_i hc
      simp at hc
      simp [ih, hc]

theorem _find_loop_append (mac : Nat) (type : Int) (l l2 : List entity) (i : Nat) :
    _find_loop mac type (l ++ l2) i =
      match _find_loop mac type l i with
      | some p => some p
      | none => _find_loop mac type l2 (i + l.length) := by
  induction l generalizing i with
  | nil => simp [_find_loop]
  | cons e es ih =>
    rw [List.cons_append]
    simp only [_find_loop]
    split
    · rfl
    · rw [ih]
      simp [Nat.add_assoc, Nat.add_comm 1]

theorem find_any_some (en : List entity) (mac p : Nat) (h : find_any en mac = some p) :
    p < en.length ∧ (deref en p).mac = mac := by
  have := _find_loop_some mac (-1) en 0 p h
  simpa [deref] using this.2

theorem find_any_none (en : List entity) (mac : Nat) :
    find_any en mac = none ↔ ∀ e ∈ en, e.mac ≠ mac := _find_loop_none mac en 0

theorem find_any_append_of_some (en l2 : List entity) (mac p : Nat)
    (h : find_any en mac = some p) : find_any (en ++ l2) mac = some p := by
  unfold find_any _find at *
  rw [_find_loop_append, h]

theorem find_any_append_singleton_of_none (en : List entity) (e : entity) (mac : Nat)
    (h : find_any en mac = none) :
    find_any (en ++ [e]) mac = if e.mac = mac then some en.length else none := by
  unfold find_any _find at *
  rw [_find_loop_append, h]
  simp [_find_loop]

/-! ## Classification of data frames (C1, C2) -/

/-- When the source entity is an access point, the role update of `handle_packet` changes
nothing: the first test `st == dt || st == TYPE_AP || st == TYPE_USER` already holds, so the
branch `st == TYPE_AP && dt == TYPE_UNKNOWN` behind it is never taken. -/
theorem classify_of_src_ap (en : List entity) (pcount src dst : Nat)
    (h : (deref en src).type = TYPE_AP) : classify en pcount src dst = en := by
  simp [classify, h]

set_option maxRecDepth 100000 in
/-- C1 (evaluation at the failing input): a beacon from X (channel 11, SSID "Home") followed
by a data frame from X to the unseen Y leaves X an access point on channel 11 with SSID
"Home", but Y is still of type Unknown and its `apmac` is still 0. -/
theorem C1_data_from_ap_leaves_destination_unknown :
    (run init [beacon_frame addr_X home_tags, data_frame addr_X addr_Y]).toOption.map
        (fun s => s.en.map view)
      = some [(0x001122334455, TYPE_AP, 11, "Home", 0),
              (0xaabbccddeeff, TYPE_UNKNOWN, 0, "", 0)] := by
  decide

theorem handle_packet_other (s : state) (header : pcap_pkthdr) (packet : List Nat) (f : fields)
    (hf : frame_fields packet = .ok f) (hno : f.no_sa = false)
    (hnb : ¬(f.wtype = 0 ∧ f.wsubtype = 8)) :
    handle_packet s header packet =
      .ok { en := handle_other s.en ((s.pcount + 1) % 2 ^ 64) (hdr_len header) f.sa f.da,
            pcount := (s.pcount + 1) % 2 ^ 64 } := by
  simp only [handle_packet, hf, hno]
  simp [hnb]

theorem deref_append_left (en l2 : List entity) (i : Nat) (hi : i < en.length) :
    deref (en ++ l2) i = deref en i := by
  simp [deref, List.getElem?_append_left hi]

theorem deref_append_length (en : List entity) (e : entity) :
    deref (en ++ [e]) en.length = e := by
  simp [deref]

theorem deref_type_ne_zero_lt (en : List entity) (i : Nat) (h : (deref en i).type ≠ 0) :
    i < en.length := by
  by_contra hc
  have : deref en i = zero_entity := by
    simp [deref, List.getElem?_eq_none (Nat.le_of_not_lt hc)]
  rw [this] at h
  simp [zero_entity] at h

/-- The role update when the source is Unknown and the destination an access point. -/
theorem classify_unknown_to_ap (en : List entity) (pcount src dst : Nat)
    (hs : (deref en src).type = TYPE_UNKNOWN) (hd : (deref en dst).type = TYPE_AP) :
    classify en pcount src dst =
      modify_at (fun e => { e with apmac := (deref en dst).mac, pktidx := pcount % 256 })
        (modify_at (fun e => { e with type := TYPE_USER }) en src) src := by
  have hne : dst ≠ src := by
    intro h; rw [h, hs] at hd; simp at hd
  simp [classify, hs, hd, confirm_user, deref_modify_at_ne _ _ _ _ hne]

theorem handle_other_unknown_to_ap (en en1 : List entity) (pcount len sa da src dst : Nat)
    (hsrc : find_or_add_unknown en sa = (en1, some src))
    (hdst : find_or_add_unknown en1 da = (en1, some dst))
    (hsl : src < en1.length)
    (hs : (deref en1 src).type = TYPE_UNKNOWN) (hd : (deref en1 dst).type = TYPE_AP) :
    (deref (handle_other en pcount len sa da) src).mac = (deref en1 src).mac ∧
    (deref (handle_other en pcount len sa da) src).type = TYPE_USER ∧
    (deref (handle_other en pcount len sa da) src).apmac = (deref en1 dst).mac ∧
    (deref (handle_other en pcount len sa da) dst).mac = (deref en1 dst).mac ∧
    (deref (handle_other en pcount len sa da) dst).type = TYPE_AP := by
  have hne : dst ≠ src := by
    intro h; rw [h, hs] at hd; simp at hd
  have hdl : dst < en1.length := deref_type_ne_zero_lt en1 dst (by rw [hd]; decide)
  simp only [handle_other, hsrc, hdst, classify_unknown_to_ap _ _ _ _ hs hd]
  rw [deref_modify_at_ne _ _ _ _ hne.symm,
    deref_modify_at_same _ _ _ (by simpa [length_modify_at] using hsl),
    deref_modify_at_same _ _ _ (by simpa [length_modify_at] using hsl),
    deref_modify_at_same _ _ _ hsl,
    deref_modify_at_same _ _ _ (by simpa [length_modify_at] using hdl),
    deref_modify_at_ne _ _ _ _ hne, deref_modify_at_ne _ _ _ _ hne,
    deref_modify_at_ne _ _ _ _ hne]
  exact ⟨rfl, rfl, rfl, rfl, hd⟩

/-- C2: a data/other frame whose destination is a registered access point and whose source is
Unknown (already registered, or registered by this frame while the table has room) leaves the
source a User whose `apmac` is the destination's address, and the destination an access
point. -/
theorem C2_unknown_source_to_ap_becomes_user (s : state) (header : pcap_pkthdr)
    (packet : List Nat) (f : fields) (src dst : Nat)
    (hf : frame_fields packet = .ok f) (hno : f.no_sa = false)
    (hnb : ¬(f.wtype = 0 ∧ f.wsubtype = 8))
    (hdst : find_any s.en f.da = some dst) (hdt : (deref s.en dst).type = TYPE_AP)
    (hsrc : (find_any s.en f.sa = some src ∧ (deref s.en src).type = TYPE_UNKNOWN) ∨
            (find_any s.en f.sa = none ∧ s.en.length < MAX_ENTITIES ∧ src = s.en.length)) :
    ∃ s1, handle_packet s header packet = .ok s1 ∧
      (deref s1.en src).mac = f.sa ∧
      (deref s1.en src).type = TYPE_USER ∧
      (deref s1.en src).apmac = (deref s1.en dst).mac ∧
      (deref s1.en dst).mac = f.da ∧
      (deref s1.en dst).type = TYPE_AP := by
  refine ⟨_, handle_packet_other s header packet f hf hno hnb, ?_⟩
  simp only []
  obtain ⟨hdl, hdm⟩ := find_any_some _ _ _ hdst
  rcases hsrc with ⟨hfs, hst⟩ | ⟨hfs, hroom, rfl⟩
  · obtain ⟨hsl, hsm⟩ := find_any_some _ _ _ hfs
    have h := handle_other_unknown_to_ap s.en s.en ((s.pcount + 1) % 2 ^ 64) (hdr_len header)
      f.sa f.da src dst (by simp [find_or_add_unknown, hfs]) (by simp [find_or_add_unknown, hdst])
      hsl hst hdt
    obtain ⟨h1, h2, h3, h4, h5⟩ := h
    exact ⟨by rw [h1, hsm], h2, by rw [h3, h4], by rw [h4, hdm], h5⟩
  · have h := handle_other_unknown_to_ap s.en
      (s.en ++ [{ zero_entity with mac := f.sa, type := TYPE_UNKNOWN, rxtraffic := 0,
                                   txtraffic := 0 }])
      ((s.pcount + 1) % 2 ^ 64) (hdr_len header)
      f.sa f.da s.en.length dst
      (by simp [find_or_add_unknown, hfs, add_unknown, hroom])
      (by simp [find_or_add_unknown, find_any_append_of_some _ _ _ _ hdst])
      (by simp)
      (by rw [deref_append_length])
      (by rw [deref_append_left _ _ _ hdl]; exact hdt)
    obtain ⟨h1, h2, h3, h4, h5⟩ := h
    rw [deref_append_length] at h1
    rw [deref_append_left _ _ _ hdl] at h3 h4
    exact ⟨h1, h2, by rw [h3, h4], by rw [h4, hdm], h5⟩

set_option maxRecDepth 100000 in
/-- Witness for C2: with X a registered access point, a data frame from the unseen Y to X. -/
theorem C2_unknown_source_to_ap_becomes_user_witness :
    ∃ s1, handle_packet state_ap_X (data_frame addr_Y addr_X).header
        (data_frame addr_Y addr_X).packet = .ok s1 ∧
      (deref s1.en 1).mac = 0xaabbccddeeff ∧
      (deref s1.en 1).type = TYPE_USER ∧
      (deref s1.en 1).apmac = (deref s1.en 0).mac ∧
      (deref s1.en 0).mac = 0x001122334455 ∧
      (deref s1.en 0).type = TYPE_AP :=
  C2_unknown_source_to_ap_becomes_user state_ap_X (data_frame addr_Y addr_X).header
    (data_frame addr_Y addr_X).packet
    { rssi := -60, pkt_ptr := 24, wtype := 2, wsubtype := 0, no_sa := false,
      da := 0x001122334455, sa := 0xaabbccddeeff } 1 0
    rfl (by decide) (by decide) (by decide) (by decide) (Or.inr (by decide))

/-! ## What one frame does to the table -/

theorem deref_modify_at (f : entity → entity) (en : List entity) (p i : Nat)
    (hi : i < en.length) :
    deref (modify_at f en p) i = if i = p then f (deref en i) else deref en i := by
  by_cases h : i = p
  · subst h
    simp [deref_modify_at_same _ _ _ hi]
  · simp [h, deref_modify_at_ne _ _ _ _ h]

/-- The three outcomes of the idiom `find_any` / `add_unknown`. -/
theorem find_or_add_unknown_cases (en : List entity) (mac : Nat) :
    (∃ p, find_any en mac = some p ∧ find_or_add_unknown en mac = (en, some p)) ∨
    (find_any en mac = none ∧ en.length < MAX_ENTITIES ∧
      find_or_add_unknown en mac =
        (en ++ [{ zero_entity with mac := mac, type := TYPE_UNKNOWN, rxtraffic := 0,
                                   txtraffic := 0 }], some en.length)) ∨
    (find_any en mac = none ∧ ¬ en.length < MAX_ENTITIES ∧
      find_or_add_unknown en mac = (en, none)) := by
  unfold find_or_add_unknown
  cases h : find_any en mac with
  | some p => exact Or.inl ⟨p, rfl, rfl⟩
  | none =>
    by_cases hr : en.length < MAX_ENTITIES
    · exact Or.inr (Or.inl ⟨rfl, hr, by simp [add_unknown, hr]⟩)
    · exact Or.inr (Or.inr ⟨rfl, hr, by simp [add_unknown, hr]⟩)

/-- A pointer returned by `find_or_add_unknown` designates a slot of the new table. -/
theorem find_or_add_unknown_lt (en en1 : List entity) (mac p : Nat)
    (h : find_or_add_unknown en mac = (en1, some p)) :
    p < en1.length ∧ (deref en1 p).mac = mac := by
  rcases find_or_add_unknown_cases en mac with ⟨q, hq, he⟩ | ⟨_, _, he⟩ | ⟨_, _, he⟩
  · rw [he] at h
    simp only [Prod.mk.injEq, Option.some.injEq] at h
    obtain ⟨rfl, rfl⟩ := h
    exact find_any_some _ _ _ hq
  · rw [he] at h
    simp only [Prod.mk.injEq, Option.some.injEq] at h
    obtain ⟨rfl, rfl⟩ := h
    simp [deref]
  · rw [he] at h
    simp at h

/-- Composition of two assignments through the same pointer. -/
theorem modify_at_modify_at (f g : entity → entity) (en : List entity) (p : Nat) :
    modify_at g (modify_at f en p) p = modify_at (fun e => g (f e)) en p := by
  induction en generalizing p with
  | nil => simp [modify_at]
  | cons e es ih => cases p <;> simp [modify_at, ih]

/-- An assignment through a pointer depends on the function only at the entity designated. -/
theorem modify_at_congr (f g : entity → entity) (en : List entity) (p : Nat)
    (h : f (deref en p) = g (deref en p)) : modify_at f en p = modify_at g en p := by
  induction en generalizing p with
  | nil => simp [modify_at]
  | cons e es ih =>
    cases p with
    | zero => simpa [modify_at, deref] using h
    | succ p =>
      simp only [modify_at, List.cons.injEq, true_and]
      apply ih
      simpa [deref] using h

/-- What a beacon does to the table when `handle_beacon` returns: the sender is looked up or
appended as an access point, and its slot `p` is rewritten by a function that sets the type
to access point and keeps address, peer address and byte counters. -/
theorem handle_beacon_ok (en en2 : List entity) (buf : List Nat) (pkt mac : Nat) (rssi : Int)
    (h : handle_beacon en buf pkt mac rssi = .ok en2) :
    ∃ en1 p g,
      ((find_any en mac = some p ∧ en1 = en) ∨
       (find_any en mac = none ∧ en.length < MAX_ENTITIES ∧ p = en.length ∧
         en1 = en ++ [{ zero_entity with mac := mac, channel := 0, rxtraffic := 0,
                                         txtraffic := 0, type := TYPE_AP }])) ∧
      p < en1.length ∧ (deref en1 p).mac = mac ∧
      en2 = modify_at g en1 p ∧
      ∀ e, (g e).mac = e.mac ∧ (g e).type = TYPE_AP ∧ (g e).apmac = e.apmac ∧
        (g e).rxtraffic = e.rxtraffic ∧ (g e).txtraffic = e.txtraffic ∧
        (g e).pktidx = e.pktidx ∧ (g e).beacons = wrap_int (e.beacons + 1) := by
  unfold handle_beacon at h
  -- the lookup
  have hlook : ∃ en1 p,
      find_or_add_ap en mac = (en1, some p) ∧
      ((find_any en mac = some p ∧ en1 = en) ∨
       (find_any en mac = none ∧ en.length < MAX_ENTITIES ∧ p = en.length ∧
         en1 = en ++ [{ zero_entity with mac := mac, channel := 0, rxtraffic := 0,
                                         txtraffic := 0, type := TYPE_AP }])) ∧
      p < en1.length ∧ (deref en1 p).mac = mac := by
    unfold find_or_add_ap at h ⊢
    cases hf : find_any en mac with
    | some p =>
      exact ⟨en, p, rfl, Or.inl ⟨rfl, rfl⟩, find_any_some _ _ _ hf⟩
    | none =>
      by_cases hr : en.length < MAX_ENTITIES
      · refine ⟨_, en.length, by simp [add_ap, hr], Or.inr ⟨rfl, hr, rfl, rfl⟩, by simp, ?_⟩
        simp [deref]
      · rw [hf] at h
        simp [add_ap, hr] at h
  obtain ⟨en1, p, hl, hcase, hp, hmac⟩ := hlook
  rw [hl] at h
  simp only [] at h
  refine ⟨en1, p, ?_⟩
  -- the table after `confirm_ap`
  have hen2 : (if (deref en1 p).type ≠ TYPE_AP then confirm_ap en1 (some p) else en1)
      = modify_at (fun e => { e with type := TYPE_AP }) en1 p := by
    split
    · rfl
    · rename_i ht
      simp only [ne_eq, Decidable.not_not] at ht
      have : modify_at (fun e => { e with type := TYPE_AP }) en1 p = modify_at id en1 p := by
        apply modify_at_congr
        simp only [id]
        rw [← ht]
      rw [this]
      clear h hl hcase hmac hp this ht
      induction en1 generalizing p with
      | nil => simp [modify_at]
      | cons e es ih => cases p <;> simp [modify_at, ← ih]
  rw [hen2] at h
  split at h
  · split at h
    · simp at h
    · split at h
      · simp at h
      · split at h
        · simp at h
        · rename_i ssid _ _ tag_ptr _ _ _ ch _
          simp only [Except.ok.injEq] at h
          rw [modify_at_modify_at] at h
          exact ⟨_, hcase, hp, hmac, h.symm, fun e => by simp⟩
  · simp only [Except.ok.injEq] at h
    rw [modify_at_modify_at] at h
    exact ⟨_, hcase, hp, hmac, h.symm, fun e => by simp⟩

/-! ## A data frame sent by an access point (C1) -/

/-- A data frame from an access point to an Unknown entity, both present in the table after the
two lookups: the destination is still Unknown afterwards and its `apmac` is what it was. -/
theorem handle_other_ap_to_unknown (en en1 en2 : List entity) (pcount len sa da src dst : Nat)
    (hsrc : find_or_add_unknown en sa = (en1, some src))
    (hdst : find_or_add_unknown en1 da = (en2, some dst))
    (hs : (deref en2 src).type = TYPE_AP) (hd : (deref en2 dst).type = TYPE_UNKNOWN) :
    (deref (handle_other en pcount len sa da) dst).type = TYPE_UNKNOWN ∧
    (deref (handle_other en pcount len sa da) dst).apmac = (deref en2 dst).apmac ∧
    (deref (handle_other en pcount len sa da) src).type = TYPE_AP := by
  have hne : dst ≠ src := by
    intro h; rw [h, hs] at hd; simp at hd
  have hsl : src < en2.length := deref_type_ne_zero_lt en2 src (by rw [hs]; decide)
  obtain ⟨hdl, _⟩ := find_or_add_unknown_lt _ _ _ _ hdst
  simp only [handle_other, hsrc, hdst, classify_of_src_ap _ _ _ _ hs]
  rw [deref_modify_at_same _ _ _ (by simpa [length_modify_at] using hdl),
    deref_modify_at_ne _ _ _ _ hne, deref_modify_at_ne _ _ _ _ hne.symm,
    deref_modify_at_same _ _ _ hsl]
  exact ⟨hd, rfl, hs⟩

/-! ## Roles (C3) -/

theorem keeps_refl (en : List entity) : keeps en en :=
  ⟨Nat.le_refl _, fun _ _ => ⟨rfl, id, id⟩⟩

theorem keeps_trans {a b c : List entity} (h1 : keeps a b) (h2 : keeps b c) : keeps a c := by
  refine ⟨Nat.le_trans h1.1 h2.1, fun i hi => ?_⟩
  obtain ⟨m1, a1, u1⟩ := h1.2 i hi
  obtain ⟨m2, a2, u2⟩ := h2.2 i (Nat.lt_of_lt_of_le hi h1.1)
  exact ⟨by rw [m2, m1], fun h => a2 (a1 h), fun h => u2 (u1 h)⟩

theorem keeps_append (en l2 : List entity) : keeps en (en ++ l2) := by
  refine ⟨by simp, fun i hi => ?_⟩
  rw [deref_append_left _ _ _ hi]
  exact ⟨rfl, id, id⟩

/-- An assignment that keeps the address, and the role unless the entity is Unknown. -/
theorem keeps_modify_at (f : entity → entity) (en : List entity) (p : Nat)
    (hm : ∀ e, (f e).mac = e.mac)
    (ht : (f (deref en p)).type = (deref en p).type ∨ (deref en p).type = TYPE_UNKNOWN) :
    keeps en (modify_at f en p) := by
  refine ⟨by rw [length_modify_at], fun i hi => ?_⟩
  rw [deref_modify_at _ _ _ _ hi]
  split
  · rename_i h
    subst h
    refine ⟨hm _, ?_, ?_⟩
    · intro h
      rcases ht with ht | ht
      · rw [ht, h]
      · rw [ht] at h; simp at h
    · intro h
      rcases ht with ht | ht
      · rw [ht, h]
      · rw [ht] at h; simp at h
  · exact ⟨rfl, id, id⟩

theorem keeps_find_or_add_unknown (en en1 : List entity) (mac : Nat) (r : Option Nat)
    (h : find_or_add_unknown en mac = (en1, r)) : keeps en en1 := by
  rcases find_or_add_unknown_cases en mac with ⟨q, _, he⟩ | ⟨_, _, he⟩ | ⟨_, _, he⟩ <;>
    rw [he] at h <;> simp only [Prod.mk.injEq] at h <;> obtain ⟨rfl, _⟩ := h
  · exact keeps_refl _
  · exact keeps_append _ _
  · exact keeps_refl _

theorem keeps_handle_no_sa (en : List entity) (len da : Nat) : keeps en (handle_no_sa en len da) := by
  cases h : find_or_add_unknown en da with
  | mk en1 r =>
    have hk := keeps_find_or_add_unknown _ _ _ _ h
    cases r with
    | none => simpa only [handle_no_sa, h] using hk
    | some dst =>
      simp only [handle_no_sa, h]
      exact keeps_trans hk (keeps_modify_at _ _ _ (fun _ => rfl) (Or.inl rfl))

theorem keeps_classify (en : List entity) (pcount src dst : Nat) :
    keeps en (classify en pcount src dst) := by
  unfold classify
  simp only [confirm_user]
  split
  · exact keeps_refl _
  · rename_i h1
    split
    · rename_i h2
      exact absurd (Or.inr (Or.inl h2.1)) h1
    · split
      · rename_i h3
        refine keeps_trans (b := modify_at (fun e => { e with type := TYPE_USER }) en src) ?_ ?_
        · exact keeps_modify_at _ _ _ (fun _ => rfl) (Or.inr h3.1)
        · exact keeps_modify_at _ _ _ (fun _ => rfl) (Or.inl rfl)
      · exact keeps_refl _

theorem keeps_handle_other (en : List entity) (pcount len sa da : Nat) :
    keeps en (handle_other en pcount len sa da) := by
  cases h1 : find_or_add_unknown en sa with
  | mk en1 src =>
    cases h2 : find_or_add_unknown en1 da with
    | mk en2 dst =>
      have hk := keeps_trans (keeps_find_or_add_unknown _ _ _ _ h1)
        (keeps_find_or_add_unknown _ _ _ _ h2)
      cases src with
      | none => simpa only [handle_other, h1, h2] using hk
      | some src =>
        cases dst with
        | none => simpa only [handle_other, h1, h2] using hk
        | some dst =>
          simp only [handle_other, h1, h2]
          refine keeps_trans hk (keeps_trans (keeps_classify _ pcount src dst) ?_)
          refine keeps_trans (b := modify_at (fun e =>
            { e with txtraffic := (e.txtraffic + len) % 2 ^ 64 }) (classify en2 pcount src dst) src) ?_ ?_
          · exact keeps_modify_at _ _ _ (fun _ => rfl) (Or.inl rfl)
          · exact keeps_modify_at _ _ _ (fun _ => rfl) (Or.inl rfl)

/-- One frame: every entity keeps its address; an access point stays one; a user stays a user
unless the frame is a beacon sent from its address, which makes it an access point. -/
theorem handle_packet_roles (s s1 : state) (fr : frame)
    (h : handle_packet s fr.header fr.packet = .ok s1) :
    s.en.length ≤ s1.en.length ∧ ∀ i, i < s.en.length →
      (deref s1.en i).mac = (deref s.en i).mac ∧
      ((deref s.en i).type = TYPE_AP → (deref s1.en i).type = TYPE_AP) ∧
      ((deref s.en i).type = TYPE_USER → (deref s1.en i).type = TYPE_USER ∨
        ((deref s1.en i).type = TYPE_AP ∧ is_beacon_from fr (deref s.en i).mac)) := by
  unfold handle_packet at h
  cases hf : frame_fields fr.packet with
  | error e => rw [hf] at h; simp at h
  | ok f =>
    rw [hf] at h
    simp only [] at h
    have weaken : ∀ en1, keeps s.en en1 → s.en.length ≤ en1.length ∧ ∀ i, i < s.en.length →
        (deref en1 i).mac = (deref s.en i).mac ∧
        ((deref s.en i).type = TYPE_AP → (deref en1 i).type = TYPE_AP) ∧
        ((deref s.en i).type = TYPE_USER → (deref en1 i).type = TYPE_USER ∨
          ((deref en1 i).type = TYPE_AP ∧ is_beacon_from fr (deref s.en i).mac)) :=
      fun en1 hk => ⟨hk.1, fun i hi => ⟨(hk.2 i hi).1, (hk.2 i hi).2.1,
        fun hu => Or.inl ((hk.2 i hi).2.2 hu)⟩⟩
    by_cases hno : f.no_sa = true
    · simp only [hno, if_true, Except.ok.injEq] at h
      subst h
      exact weaken _ (keeps_handle_no_sa _ _ _)
    · simp only [hno] at h
      by_cases hb : f.wtype = 0 ∧ f.wsubtype = 8
      · simp only [hb, and_self, if_true, Bool.false_eq_true, if_false] at h
        cases hhb : handle_beacon s.en fr.packet f.pkt_ptr f.sa f.rssi with
        | error e => rw [hhb] at h; simp at h
        | ok en2 =>
          rw [hhb] at h
          simp only [Except.ok.injEq] at h
          subst h
          obtain ⟨en1, p, g, hcase, hp, hmac, rfl, hg⟩ := handle_beacon_ok _ _ _ _ _ _ hhb
          have hk1 : keeps s.en en1 := by
            rcases hcase with ⟨_, rfl⟩ | ⟨_, _, _, rfl⟩
            · exact keeps_refl _
            · exact keeps_append _ _
          refine ⟨by simpa [length_modify_at] using hk1.1, fun i hi => ?_⟩
          have hi1 : i < en1.length := Nat.lt_of_lt_of_le hi hk1.1
          obtain ⟨m1, a1, u1⟩ := hk1.2 i hi
          simp only []
          rw [deref_modify_at _ _ _ _ hi1]
          split
          · rename_i hip
            subst hip
            refine ⟨by rw [(hg _).1, m1], fun _ => (hg _).2.1, fun _ => Or.inr ⟨(hg _).2.1, ?_⟩⟩
            refine ⟨f, hf, by simpa using hno, hb.1, hb.2, ?_⟩
            rw [← m1, hmac]
          · exact ⟨m1, a1, fun hu => Or.inl (u1 hu)⟩
      · simp only [hb, if_false, Bool.false_eq_true, Except.ok.injEq] at h
        subst h
        exact weaken _ (keeps_handle_other _ _ _ _ _)

set_option maxRecDepth 100000 in
/-- C3 (counterexample): after a beacon from X and a data frame from Y to X the entity Y is a
User; a later beacon sent by Y changes its role to AccessPoint. -/
theorem C3_user_becomes_ap_counterexample :
    (run init [beacon_frame addr_X home_tags, data_frame addr_Y addr_X]).toOption.map
        (fun s => ((deref s.en 1).mac, (deref s.en 1).type)) = some (0xaabbccddeeff, TYPE_USER) ∧
    (run init [beacon_frame addr_X home_tags, data_frame addr_Y addr_X,
               beacon_frame addr_Y home_tags]).toOption.map
        (fun s => ((deref s.en 1).mac, (deref s.en 1).type)) = some (0xaabbccddeeff, TYPE_AP) := by
  decide

/-! ## Byte accounting (C4) -/

/-- Replacing one summand. -/
theorem sum_map_modify_at (g : entity → Nat) (f : entity → entity) (en : List entity) (p : Nat)
    (hp : p < en.length) :
    ((modify_at f en p).map g).sum + g (deref en p) = (en.map g).sum + g (f (deref en p)) := by
  induction en generalizing p with
  | nil => simp at hp
  | cons e es ih =>
    cases p with
    | zero => simp [modify_at, deref]; omega
    | succ p =>
      have := ih p (by simpa using hp)
      simp only [deref, List.getElem?_cons_succ, modify_at, List.map_cons, List.sum_cons] at this ⊢
      omega

/-- A wrapping addition to one counter: the sum grows by at most `len`, and by `len` modulo
the counter width. -/
theorem sum_modify_at_add (g : entity → Nat) (f : entity → entity) (en : List entity)
    (p len : Nat) (hp : p < en.length) (hf : ∀ e, g (f e) = (g e + len) % 2 ^ 64) :
    ((modify_at f en p).map g).sum ≤ (en.map g).sum + len ∧
    ((modify_at f en p).map g).sum ≡ (en.map g).sum + len [MOD 2 ^ 64] := by
  have h := sum_map_modify_at g f en p hp
  rw [hf] at h
  constructor
  · have := Nat.mod_le (g (deref en p) + len) (2 ^ 64)
    omega
  · have h2 : ((modify_at f en p).map g).sum + g (deref en p)
        ≡ (en.map g).sum + len + g (deref en p) [MOD 2 ^ 64] := by
      rw [h]
      have : (g (deref en p) + len) % 2 ^ 64 ≡ g (deref en p) + len [MOD 2 ^ 64] :=
        Nat.mod_modEq _ _
      calc (en.map g).sum + (g (deref en p) + len) % 2 ^ 64
          ≡ (en.map g).sum + (g (deref en p) + len) [MOD 2 ^ 64] := Nat.ModEq.add_left _ this
        _ = (en.map g).sum + len + g (deref en p) := by omega
    exact Nat.ModEq.add_right_cancel' _ h2

theorem sums_find_or_add_unknown (en en1 : List entity) (mac : Nat) (r : Option Nat)
    (h : find_or_add_unknown en mac = (en1, r)) :
    sum_rx en1 = sum_rx en ∧ sum_tx en1 = sum_tx en := by
  rcases find_or_add_unknown_cases en mac with ⟨q, _, he⟩ | ⟨_, _, he⟩ | ⟨_, _, he⟩ <;>
    rw [he] at h <;> simp only [Prod.mk.injEq] at h <;> obtain ⟨rfl, _⟩ := h
  · exact ⟨rfl, rfl⟩
  · simp [sum_rx, sum_tx]
  · exact ⟨rfl, rfl⟩

/-- The role update leaves every member other than `type`, `apmac` and `pktidx` alone. -/
theorem map_classify (g : entity → Nat) (hg1 : ∀ e t, g { e with type := t } = g e)
    (hg2 : ∀ e a k, g { e with apmac := a, pktidx := k } = g e)
    (en : List entity) (pcount src dst : Nat) :
    (classify en pcount src dst).map g = en.map g := by
  unfold classify
  simp only [confirm_user]
  split
  · rfl
  · split
    · rw [map_modify_at g _ (fun e => hg2 e _ _), map_modify_at g _ (fun e => hg1 e _)]
    · split
      · rw [map_modify_at g _ (fun e => hg2 e _ _), map_modify_at g _ (fun e => hg1 e _)]
      · rfl

theorem length_classify (en : List entity) (pcount src dst : Nat) :
    (classify en pcount src dst).length = en.length := by
  have := congrArg List.length
    (map_classify (fun e => e.mac) (fun _ _ => rfl) (fun _ _ _ => rfl) en pcount src dst)
  simpa using this

theorem sums_classify (en : List entity) (pcount src dst : Nat) :
    sum_rx (classify en pcount src dst) = sum_rx en ∧
    sum_tx (classify en pcount src dst) = sum_tx en := by
  unfold sum_rx sum_tx
  rw [map_classify (fun e => e.rxtraffic) (fun _ _ => rfl) (fun _ _ _ => rfl),
    map_classify (fun e => e.txtraffic) (fun _ _ => rfl) (fun _ _ _ => rfl)]
  exact ⟨rfl, rfl⟩

/-- Byte accounting of the branch for frames without source address. -/
theorem sums_handle_no_sa (en : List entity) (len da : Nat) :
    sum_tx (handle_no_sa en len da) = sum_tx en ∧
    ∃ k, (k = if (find_or_add_unknown en da).2.isSome then len else 0) ∧
      sum_rx (handle_no_sa en len da) ≤ sum_rx en + k ∧
      sum_rx (handle_no_sa en len da) ≡ sum_rx en + k [MOD 2 ^ 64] := by
  cases h : find_or_add_unknown en da with
  | mk en1 r =>
    obtain ⟨hr, ht⟩ := sums_find_or_add_unknown _ _ _ _ h
    cases r with
    | none =>
      simp only [handle_no_sa, h]
      exact ⟨ht, 0, by simp, by omega, by rw [hr]; exact Nat.ModEq.refl _⟩
    | some dst =>
      simp only [handle_no_sa, h]
      obtain ⟨hlt, _⟩ := find_or_add_unknown_lt _ _ _ _ h
      refine ⟨?_, len, by simp, ?_⟩
      · rw [← ht]
        exact congrArg List.sum (map_modify_at _ _ (by intro _; rfl) _ _)
      · have := sum_modify_at_add (fun e => e.rxtraffic)
          (fun e => { e with rxtraffic := (e.rxtraffic + len) % 2 ^ 64 }) en1 dst len hlt
          (fun _ => rfl)
        rw [← hr]
        exact this

/-- Byte accounting of the branch for the other frames: both sums grow by the same amount,
the frame length or 0. -/
theorem sums_handle_other (en : List entity) (pcount len sa da : Nat) :
    ∃ c, c ≤ len ∧
      sum_tx (handle_other en pcount len sa da) ≤ sum_tx en + c ∧
      sum_tx (handle_other en pcount len sa da) ≡ sum_tx en + c [MOD 2 ^ 64] ∧
      sum_rx (handle_other en pcount len sa da) ≤ sum_rx en + c ∧
      sum_rx (handle_other en pcount len sa da) ≡ sum_rx en + c [MOD 2 ^ 64] := by
  cases h1 : find_or_add_unknown en sa with
  | mk en1 src =>
    cases h2 : find_or_add_unknown en1 da with
    | mk en2 dst =>
      obtain ⟨hr1, ht1⟩ := sums_find_or_add_unknown _ _ _ _ h1
      obtain ⟨hr2, ht2⟩ := sums_find_or_add_unknown _ _ _ _ h2
      have hnone : sum_tx en2 ≤ sum_tx en + 0 ∧ sum_tx en2 ≡ sum_tx en + 0 [MOD 2 ^ 64] ∧
          sum_rx en2 ≤ sum_rx en + 0 ∧ sum_rx en2 ≡ sum_rx en + 0 [MOD 2 ^ 64] := by
        rw [ht2, ht1, hr2, hr1]
        exact ⟨Nat.le_refl _, Nat.ModEq.refl _, Nat.le_refl _, Nat.ModEq.refl _⟩
      cases src with
      | none =>
        simp only [handle_other, h1, h2]
        exact ⟨0, Nat.zero_le _, hnone⟩
      | some src =>
        cases dst with
        | none =>
          simp only [handle_other, h1, h2]
          exact ⟨0, Nat.zero_le _, hnone⟩
        | some dst =>
          simp only [handle_other, h1, h2]
          obtain ⟨hsl1, _⟩ := find_or_add_unknown_lt _ _ _ _ h1
          obtain ⟨hdl, _⟩ := find_or_add_unknown_lt _ _ _ _ h2
          have hsl : src < en2.length :=
            Nat.lt_of_lt_of_le hsl1 (keeps_find_or_add_unknown _ _ _ _ h2).1
          obtain ⟨hrc, htc⟩ := sums_classify en2 pcount src dst
          have hlc : (classify en2 pcount src dst).length = en2.length := length_classify _ _ _ _
          have htx := sum_modify_at_add (fun e => e.txtraffic)
            (fun e => { e with txtraffic := (e.txtraffic + len) % 2 ^ 64 })
            (classify en2 pcount src dst) src len (by rw [hlc]; exact hsl) (fun _ => rfl)
          have hrx := sum_modify_at_add (fun e => e.rxtraffic)
            (fun e => { e with rxtraffic := (e.rxtraffic + len) % 2 ^ 64 })
            (modify_at (fun e => { e with txtraffic := (e.txtraffic + len) % 2 ^ 64 })
              (classify en2 pcount src dst) src) dst len
            (by rw [length_modify_at, hlc]; exact hdl) (fun _ => rfl)
          have e1 : (List.map (fun e => e.txtraffic)
              (modify_at (fun e => { e with rxtraffic := (e.rxtraffic + len) % 2 ^ 64 })
                (modify_at (fun e => { e with txtraffic := (e.txtraffic + len) % 2 ^ 64 })
                  (classify en2 pcount src dst) src) dst))
              = List.map (fun e => e.txtraffic)
                (modify_at (fun e => { e with txtraffic := (e.txtraffic + len) % 2 ^ 64 })
                  (classify en2 pcount src dst) src) :=
            map_modify_at (fun e => e.txtraffic) _ (by intro _; rfl) _ _
          have e2 : (List.map (fun e => e.rxtraffic)
                (modify_at (fun e => { e with txtraffic := (e.txtraffic + len) % 2 ^ 64 })
                  (classify en2 pcount src dst) src))
              = List.map (fun e => e.rxtraffic) (classify en2 pcount src dst) :=
            map_modify_at (fun e => e.rxtraffic) _ (by intro _; rfl) _ _
          rw [e2] at hrx
          refine ⟨len, Nat.le_refl _, ?_, ?_, ?_, ?_⟩
          · unfold sum_tx
            rw [e1]
            have := htx.1
            unfold sum_tx at htc ht1 ht2
            rw [htc, ht2, ht1] at this
            exact this
          · unfold sum_tx
            rw [e1]
            have := htx.2
            unfold sum_tx at htc ht1 ht2
            rw [htc, ht2, ht1] at this
            exact this
          · have := hrx.1
            unfold sum_rx at hrc hr1 hr2 ⊢
            rw [hrc, hr2, hr1] at this
            exact this
          · have := hrx.2
            unfold sum_rx at hrc hr1 hr2 ⊢
            rw [hrc, hr2, hr1] at this
            exact this

/-- Byte accounting of a beacon: no counter changes. -/
theorem sums_handle_beacon (en en2 : List entity) (buf : List Nat) (pkt mac : Nat) (rssi : Int)
    (h : handle_beacon en buf pkt mac rssi = .ok en2) :
    sum_rx en2 = sum_rx en ∧ sum_tx en2 = sum_tx en := by
  obtain ⟨en1, p, g, hcase, hp, hmac, rfl, hg⟩ := handle_beacon_ok _ _ _ _ _ _ h
  have h1 : sum_rx en1 = sum_rx en ∧ sum_tx en1 = sum_tx en := by
    rcases hcase with ⟨_, rfl⟩ | ⟨_, _, _, rfl⟩
    · exact ⟨rfl, rfl⟩
    · simp [sum_rx, sum_tx]
  unfold sum_rx sum_tx at h1 ⊢
  rw [map_modify_at (fun e => e.rxtraffic) g (fun e => (hg e).2.2.2.1),
    map_modify_at (fun e => e.txtraffic) g (fun e => (hg e).2.2.2.2.1)]
  exact h1

/-- Byte accounting of one frame: both sums grow by the same amount `c` (modulo the counter
width), and `rxtraffic` in addition by the control credit of the frame. -/
theorem handle_packet_sums (s s1 : state) (fr : frame)
    (h : handle_packet s fr.header fr.packet = .ok s1) :
    ∃ c, c + control_credit s fr ≤ hdr_len fr.header ∧
      sum_tx s1.en ≤ sum_tx s.en + c ∧
      sum_tx s1.en ≡ sum_tx s.en + c [MOD 2 ^ 64] ∧
      sum_rx s1.en ≤ sum_rx s.en + c + control_credit s fr ∧
      sum_rx s1.en ≡ sum_rx s.en + c + control_credit s fr [MOD 2 ^ 64] := by
  unfold handle_packet at h
  unfold control_credit
  cases hf : frame_fields fr.packet with
  | error e => rw [hf] at h; simp at h
  | ok f =>
    rw [hf] at h
    simp only [] at h ⊢
    by_cases hno : f.no_sa = true
    · simp only [hno, if_true, Except.ok.injEq] at h ⊢
      subst h
      obtain ⟨ht, k, hk, hle, hmod⟩ := sums_handle_no_sa s.en (hdr_len fr.header) f.da
      refine ⟨0, ?_, by rw [ht]; omega, by rw [ht]; exact Nat.ModEq.refl _, ?_, ?_⟩
      · split <;> simp
      · rw [← hk]; simpa using hle
      · rw [← hk]; simpa using hmod
    · simp only [hno, Bool.false_eq_true, if_false] at h ⊢
      by_cases hb : f.wtype = 0 ∧ f.wsubtype = 8
      · simp only [hb, and_self, if_true] at h
        cases hhb : handle_beacon s.en fr.packet f.pkt_ptr f.sa f.rssi with
        | error e => rw [hhb] at h; simp at h
        | ok en2 =>
          rw [hhb] at h
          simp only [Except.ok.injEq] at h
          subst h
          obtain ⟨hr, ht⟩ := sums_handle_beacon _ _ _ _ _ _ hhb
          simp only []
          rw [hr, ht]
          exact ⟨0, Nat.zero_le _, Nat.le_refl _, Nat.ModEq.refl _, Nat.le_refl _, Nat.ModEq.refl _⟩
      · simp only [hb, if_false, Except.ok.injEq] at h
        subst h
        obtain ⟨c, hc, h1, h2, h3, h4⟩ :=
          sums_handle_other s.en ((s.pcount + 1) % 2 ^ 64) (hdr_len fr.header) f.sa f.da
        exact ⟨c, by simpa using hc, h1, h2, by simpa using h3, by simpa using h4⟩


/-- Byte accounting of a run, from any state. -/
theorem run_sums (s s1 : state) (frames : List frame) (h : run s frames = .ok s1) :
    sum_rx s1.en + sum_tx s.en ≡ sum_tx s1.en + sum_rx s.en + control_total s frames
      [MOD 2 ^ 64] ∧
    sum_rx s1.en ≤ sum_rx s.en + total_len frames ∧
    sum_tx s1.en + control_total s frames ≤ sum_tx s.en + total_len frames := by
  induction frames generalizing s with
  | nil =>
    simp only [run, Except.ok.injEq] at h
    subst h
    simp only [control_total, total_len, List.map_nil, List.sum_nil, Nat.add_zero]
    exact ⟨by rw [Nat.add_comm], Nat.le_refl _, Nat.le_refl _⟩
  | cons fr frs ih =>
    simp only [run] at h
    cases hp : handle_packet s fr.header fr.packet with
    | error e => rw [hp] at h; simp at h
    | ok s2 =>
      rw [hp] at h
      simp only [] at h
      obtain ⟨c, hc, htle, htmod, hrle, hrmod⟩ := handle_packet_sums s s2 fr hp
      obtain ⟨imod, irle, itle⟩ := ih s2 h
      simp only [control_total, hp, total_len, List.map_cons, List.sum_cons]
      unfold total_len at irle itle
      refine ⟨?_, by omega, by omega⟩
      rw [← ZMod.eq_iff_modEq_nat] at imod htmod hrmod ⊢
      push_cast at imod htmod hrmod ⊢
      linear_combination imod - htmod + hrmod

/-- Without a control frame without source address nothing is credited to a receiver only. -/
theorem control_total_eq_zero (s : state) (frames : List frame)
    (h : ∀ fr, fr ∈ frames → ¬ is_no_sa fr) : control_total s frames = 0 := by
  induction frames generalizing s with
  | nil => rfl
  | cons fr frs ih =>
    have h0 : control_credit s fr = 0 := by
      unfold control_credit
      cases hf : frame_fields fr.packet with
      | error e => rfl
      | ok f =>
        have : f.no_sa = false := by
          by_contra hc
          exact h fr (List.mem_cons_self _ _) ⟨f, hf, by simpa using hc⟩
        simp [this]
    simp only [control_total, h0, Nat.zero_add]
    cases hp : handle_packet s fr.header fr.packet with
    | error e => rfl
    | ok s2 => exact ih s2 (fun fr2 hm => h fr2 (List.mem_cons_of_mem _ hm))

/-- C4: after any sequence of frames processed from the empty table, the sum of `rxtraffic`
equals the sum of `txtraffic` plus the lengths of the control frames without source that were
credited to a receiver, modulo the counter width 2^64; the two sums are congruent when the
sequence has no such control frame; and the equality is exact when the frame lengths total
less than 2^64 (no counter wraps). -/
theorem C4_rx_equals_tx_plus_control (frames : List frame) (s : state)
    (h : run init frames = .ok s) :
    sum_rx s.en ≡ sum_tx s.en + control_total init frames [MOD 2 ^ 64] ∧
    ((∀ fr, fr ∈ frames → ¬ is_no_sa fr) → sum_rx s.en ≡ sum_tx s.en [MOD 2 ^ 64]) ∧
    (total_len frames < 2 ^ 64 → sum_rx s.en = sum_tx s.en + control_total init frames) := by
  obtain ⟨hmod, hrle, htle⟩ := run_sums init s frames h
  have hmod1 : sum_rx s.en ≡ sum_tx s.en + control_total init frames [MOD 2 ^ 64] := by
    simpa [init, sum_rx, sum_tx] using hmod
  refine ⟨hmod1, fun hno => ?_, fun hlt => ?_⟩
  · rw [control_total_eq_zero init frames hno] at hmod1
    simpa using hmod1
  · have h1 : sum_rx s.en < 2 ^ 64 := by
      have : sum_rx init.en = 0 := rfl
      omega
    have h2 : sum_tx s.en + control_total init frames < 2 ^ 64 := by
      have : sum_tx init.en = 0 := rfl
      omega
    exact Nat.ModEq.eq_of_lt_of_lt hmod1 h1 h2

set_option maxRecDepth 100000 in
/-- Witness for C4: a beacon, a data frame, a clear-to-send frame and a data frame whose source
and destination are the same address; 134 bytes received, 120 sent, 14 credited to a receiver
only. -/
theorem C4_rx_equals_tx_plus_control_witness :
    run init four_frames = .ok state_four ∧
    sum_rx state_four.en = 134 ∧ sum_tx state_four.en = 120 ∧
    control_total init four_frames = 14 ∧
    sum_rx state_four.en = sum_tx state_four.en + control_total init four_frames :=
  ⟨by rfl, by decide, by decide, by decide,
    (C4_rx_equals_tx_plus_control four_frames state_four (by rfl)).2.2 (by decide)⟩

/-! ## Uniqueness of addresses (C5) -/

theorem nodup_find_or_add_unknown (en en1 : List entity) (mac : Nat) (r : Option Nat)
    (h : find_or_add_unknown en mac = (en1, r)) (hn : (macs en).Nodup) : (macs en1).Nodup := by
  rcases find_or_add_unknown_cases en mac with ⟨q, _, he⟩ | ⟨hf, _, he⟩ | ⟨_, _, he⟩ <;>
    rw [he] at h <;> simp only [Prod.mk.injEq] at h <;> obtain ⟨rfl, _⟩ := h
  · exact hn
  · rw [find_any_none] at hf
    unfold macs at hn ⊢
    rw [List.map_append, List.nodup_append]
    refine ⟨hn, by simp, ?_⟩
    intro a ha hb
    simp only [List.map_cons, List.map_nil, List.mem_singleton] at hb
    rw [List.mem_map] at ha
    obtain ⟨e, he1, he2⟩ := ha
    exact hf e he1 (by rw [he2, hb])
  · exact hn

theorem macs_classify (en : List entity) (pcount src dst : Nat) :
    macs (classify en pcount src dst) = macs en :=
  map_classify (fun e => e.mac) (fun _ _ => rfl) (fun _ _ _ => rfl) en pcount src dst

theorem macs_handle_no_sa (en : List entity) (len da : Nat) (hn : (macs en).Nodup) :
    (macs (handle_no_sa en len da)).Nodup := by
  cases h : find_or_add_unknown en da with
  | mk en1 r =>
    have hk := nodup_find_or_add_unknown _ _ _ _ h hn
    cases r with
    | none => simpa only [handle_no_sa, h] using hk
    | some dst =>
      simp only [handle_no_sa, h]
      unfold macs at hk ⊢
      rw [map_modify_at (fun e => e.mac) _ (by intro _; rfl)]
      exact hk

theorem macs_handle_other (en : List entity) (pcount len sa da : Nat) (hn : (macs en).Nodup) :
    (macs (handle_other en pcount len sa da)).Nodup := by
  cases h1 : find_or_add_unknown en sa with
  | mk en1 src =>
    cases h2 : find_or_add_unknown en1 da with
    | mk en2 dst =>
      have hk := nodup_find_or_add_unknown _ _ _ _ h2 (nodup_find_or_add_unknown _ _ _ _ h1 hn)
      cases src with
      | none => simpa only [handle_other, h1, h2] using hk
      | some src =>
        cases dst with
        | none => simpa only [handle_other, h1, h2] using hk
        | some dst =>
          simp only [handle_other, h1, h2]
          rw [← macs_classify en2 pcount src dst] at hk
          unfold macs at hk ⊢
          rw [map_modify_at (fun e => e.mac) _ (by intro _; rfl),
            map_modify_at (fun e => e.mac) _ (by intro _; rfl)]
          exact hk

theorem macs_handle_beacon (en en2 : List entity) (buf : List Nat) (pkt mac : Nat) (rssi : Int)
    (h : handle_beacon en buf pkt mac rssi = .ok en2) (hn : (macs en).Nodup) :
    (macs en2).Nodup := by
  obtain ⟨en1, p, g, hcase, hp, hmac, rfl, hg⟩ := handle_beacon_ok _ _ _ _ _ _ h
  unfold macs at hn ⊢
  rw [map_modify_at (fun e => e.mac) g (fun e => (hg e).1)]
  rcases hcase with ⟨_, rfl⟩ | ⟨hf, _, _, rfl⟩
  · exact hn
  · rw [find_any_none] at hf
    rw [List.map_append, List.nodup_append]
    refine ⟨hn, by simp, ?_⟩
    intro a ha hb
    simp only [List.map_cons, List.map_nil, List.mem_singleton] at hb
    rw [List.mem_map] at ha
    obtain ⟨e, he1, he2⟩ := ha
    exact hf e he1 (by rw [he2, hb])

/-- One frame keeps the addresses in the table pairwise different. -/
theorem handle_packet_nodup (s s1 : state) (header : pcap_pkthdr) (packet : List Nat)
    (h : handle_packet s header packet = .ok s1) (hn : (macs s.en).Nodup) :
    (macs s1.en).Nodup := by
  unfold handle_packet at h
  cases hf : frame_fields packet with
  | error e => rw [hf] at h; simp at h
  | ok f =>
    rw [hf] at h
    simp only [] at h
    by_cases hno : f.no_sa = true
    · simp only [hno, if_true, Except.ok.injEq] at h
      subst h
      exact macs_handle_no_sa _ _ _ hn
    · simp only [hno, Bool.false_eq_true, if_false] at h
      by_cases hb : f.wtype = 0 ∧ f.wsubtype = 8
      · simp only [hb, and_self, if_true] at h
        cases hhb : handle_beacon s.en packet f.pkt_ptr f.sa f.rssi with
        | error e => rw [hhb] at h; simp at h
        | ok en2 =>
          rw [hhb] at h
          simp only [Except.ok.injEq] at h
          subst h
          exact macs_handle_beacon _ _ _ _ _ _ hhb hn
      · simp only [hb, if_false, Except.ok.injEq] at h
        subst h
        exact macs_handle_other _ _ _ _ _ hn

theorem run_nodup (s s1 : state) (frames : List frame) (h : run s frames = .ok s1)
    (hn : (macs s.en).Nodup) : (macs s1.en).Nodup := by
  induction frames generalizing s with
  | nil =>
    simp only [run, Except.ok.injEq] at h
    subst h
    exact hn
  | cons fr frs ih =>
    simp only [run] at h
    cases hp : handle_packet s fr.header fr.packet with
    | error e => rw [hp] at h; simp at h
    | ok s2 =>
      rw [hp] at h
      exact ih s2 h (handle_packet_nodup _ _ _ _ hp hn)

/-- Looking the same address up twice: the second lookup changes nothing and returns the
same pointer. -/
theorem find_or_add_unknown_twice (en : List entity) (mac : Nat) :
    find_or_add_unknown (find_or_add_unknown en mac).1 mac = find_or_add_unknown en mac ∧
    (find_or_add_unknown en mac).1.length ≤ en.length + 1 := by
  rcases find_or_add_unknown_cases en mac with ⟨q, hq, he⟩ | ⟨hf, hr, he⟩ | ⟨_, _, he⟩
  · rw [he]
    exact ⟨he, by simp⟩
  · rw [he]
    refine ⟨?_, by simp⟩
    simp only [find_or_add_unknown]
    rw [find_any_append_singleton_of_none _ _ _ hf]
    simp
  · rw [he]
    exact ⟨he, by simp⟩

/-- C5: after any sequence of frames processed from the empty table no two of the `nent`
entities have the same address (also when a frame's source and destination are equal); and
looking an address up with `find_any`, creating it with `add_unknown` when absent, twice in
a row gives the same slot and the same table both times, which is at most one entity longer
than before. -/
theorem C5_addresses_unique :
    (∀ (frames : List frame) (s : state), run init frames = .ok s →
      ∀ i j, i < j → j < s.en.length → (deref s.en i).mac ≠ (deref s.en j).mac) ∧
    (∀ (en : List entity) (mac : Nat),
      find_or_add_unknown (find_or_add_unknown en mac).1 mac = find_or_add_unknown en mac ∧
      (find_or_add_unknown en mac).1.length ≤ en.length + 1) := by
  refine ⟨fun frames s h i j hij hj => ?_, find_or_add_unknown_twice⟩
  have hn := run_nodup init s frames h (by simp [macs, init])
  unfold macs at hn
  intro heq
  have hi : i < s.en.length := Nat.lt_trans hij hj
  have h1 : (s.en.map (fun e => e.mac))[i]? = (s.en.map (fun e => e.mac))[j]? := by
    simp only [deref, List.getElem?_eq_getElem hi, List.getElem?_eq_getElem hj,
      Option.getD_some] at heq
    simp [List.getElem?_eq_getElem hi, List.getElem?_eq_getElem hj, heq]
  exact List.nodup_iff_getElem?_ne_getElem?.mp hn i j hij (by simpa using hj) h1

set_option maxRecDepth 100000 in
/-- Witness for C5: the table after `four_frames`, whose last frame has equal source and
destination, holds two entities with different addresses. -/
theorem C5_addresses_unique_witness :
    run init four_frames = .ok state_four ∧
    (deref state_four.en 0).mac ≠ (deref state_four.en 1).mac :=
  ⟨by rfl, C5_addresses_unique.1 four_frames state_four (by rfl) 0 1 (by decide) (by decide)⟩

/-! ## The full table (C6) -/

/-- When the table is full, `add_unknown` and `add_ap` return `NULL` and leave it unchanged. -/
theorem add_full (en : List entity) (mac : Nat) (h : ¬ en.length < MAX_ENTITIES) :
    add_unknown en mac = (en, none) ∧ add_ap en mac = (en, none) := by
  simp [add_unknown, add_ap, h]

/-- A control frame without source for an address that is not in the full table changes
nothing. -/
theorem handle_no_sa_full (en : List entity) (len da : Nat) (h : ¬ en.length < MAX_ENTITIES)
    (hda : find_any en da = none) : handle_no_sa en len da = en := by
  simp [handle_no_sa, find_or_add_unknown, hda, add_unknown, h]

/-- A data frame that names an address that is not in the full table changes nothing. -/
theorem handle_other_full (en : List entity) (pcount len sa da : Nat)
    (h : ¬ en.length < MAX_ENTITIES)
    (hnew : find_any en sa = none ∨ find_any en da = none) :
    handle_other en pcount len sa da = en := by
  rcases hnew with hs | hd
  · cases hd : find_any en da <;>
      simp [handle_other, find_or_add_unknown, hs, hd, add_unknown, h]
  · cases hs : find_any en sa <;>
      simp [handle_other, find_or_add_unknown, hs, hd, add_unknown, h]

/-- A beacon from an address that is not in the full table: `add_ap` returns `NULL` and the
next statement reads `ap->type`. -/
theorem handle_beacon_full (en : List entity) (buf : List Nat) (pkt mac : Nat) (rssi : Int)
    (h : ¬ en.length < MAX_ENTITIES) (hmac : find_any en mac = none) :
    handle_beacon en buf pkt mac rssi = .error .null_deref := by
  simp [handle_beacon, find_or_add_ap, hmac, add_ap, h]

set_option maxRecDepth 100000 in
/-- C6 (evaluation at the failing input): with 250 entities registered, a beacon from an
address that is not in the table makes `handle_packet` dereference the null pointer that
`add_ap` returned. -/
theorem C6_beacon_at_capacity_null_deref :
    full_table.length = 250 ∧ find_any full_table 0x001122334455 = none ∧
    handle_packet { en := full_table, pcount := 250 } (beacon_frame addr_X home_tags).header
      (beacon_frame addr_X home_tags).packet = .error .null_deref := by
  refine ⟨by decide, by decide, by rfl⟩

/-! ## The scan of tagged parameters (C7, C8) -/

theorem read_byte_append (front rest : List Nat) (x : Nat) :
    read_byte (front ++ x :: rest) front.length = .ok (x % 256) := by
  have : (front ++ x :: rest)[front.length]? = some x := by
    rw [List.getElem?_append_right (Nat.le_refl _)]
    simp
  simp only [read_byte, this]

theorem read_byte_append_succ (front rest : List Nat) (x y : Nat) :
    read_byte (front ++ x :: y :: rest) (front.length + 1) = .ok (y % 256) := by
  have : front ++ x :: y :: rest = (front ++ [x]) ++ y :: rest := by simp
  rw [this]
  have h := read_byte_append (front ++ [x]) rest y
  simpa using h

theorem read_byte_end (buf : List Nat) : read_byte buf buf.length = .error .out_of_bounds_read := by
  simp [read_byte]

/-- With tag id 255 the loop of `find_tag` is not entered: the initial `tag_type`, `(u_int8_t) -1`,
already equals the tag id. -/
theorem find_tag_255 (buf : List Nat) (data : Nat) : find_tag buf data 255 = .ok (data, 0) := by
  simp [find_tag, find_tag_loop]

/-- The scan over records of other types up to the first record of type `tag_id`. -/
theorem find_tag_loop_found (tag_id : Nat) (v : List Nat) (post : List (Nat × List Nat))
    (pre : List (Nat × List Nat)) (front : List Nat) (fuel tt tl : Nat)
    (htt : tt ≠ tag_id) (hpre : ∀ r, r ∈ pre → r.1 ≠ tag_id)
    (hwf : tags_wf (pre ++ (tag_id, v) :: post)) (hfuel : pre.length + 2 ≤ fuel) :
    find_tag_loop (front ++ encode_tags (pre ++ (tag_id, v) :: post)) tag_id fuel front.length
      tt tl = .ok (front.length + (encode_tags pre).length + 2, v.length) := by
  induction pre generalizing front fuel tt tl with
  | nil =>
    obtain ⟨f, rfl⟩ : ∃ f, fuel = f + 2 := ⟨fuel - 2, by simp at hfuel; omega⟩
    have hw := hwf (tag_id, v) (by simp)
    simp only [List.nil_append, encode_tags, find_tag_loop, htt, ne_eq, not_false_eq_true,
      if_true, read_byte_append, read_byte_append_succ, Nat.mod_eq_of_lt hw.1,
      Nat.mod_eq_of_lt hw.2, not_true_eq_false, if_false, List.length_nil, Nat.add_zero]
  | cons r pre ih =>
    obtain ⟨t, w⟩ := r
    obtain ⟨f, rfl⟩ : ∃ f, fuel = f + 1 := ⟨fuel - 1, by simp at hfuel; omega⟩
    have hw := hwf (t, w) (by simp)
    have ht : t ≠ tag_id := hpre (t, w) (by simp)
    rw [List.cons_append]
    simp only [encode_tags, find_tag_loop, htt, ne_eq, not_false_eq_true,
      if_true, read_byte_append, read_byte_append_succ, Nat.mod_eq_of_lt hw.1,
      Nat.mod_eq_of_lt hw.2, ht]
    have hbuf : front ++ t :: w.length :: (w ++ encode_tags (pre ++ (tag_id, v) :: post))
        = (front ++ t :: w.length :: w) ++ encode_tags (pre ++ (tag_id, v) :: post) := by simp
    have hlen : front.length + (w.length + 2) = (front ++ t :: w.length :: w).length := by
      simp only [List.length_append, List.length_cons]
    rw [hbuf, hlen, ih (front ++ t :: w.length :: w) f t w.length ht
      (fun r hr => hpre r (List.mem_cons_of_mem _ hr))
      (fun r hr => hwf r (by simp at hr ⊢; right; exact hr))
      (by simp only [List.length_cons] at hfuel; omega)]
    simp only [List.length_append, List.length_cons]
    congr 2
    omega

/-- The scan over a buffer that ends after records of other types: with one unit of fuel for
every record and one more, the loop steps over every record and then reads the byte at the
end of the buffer. -/
theorem find_tag_loop_absent (tag_id : Nat) (rs : List (Nat × List Nat)) (front : List Nat)
    (fuel tt tl : Nat) (htt : tt ≠ tag_id) (hrs : ∀ r, r ∈ rs → r.1 ≠ tag_id)
    (hwf : tags_wf rs) (hfuel : rs.length + 1 ≤ fuel) :
    find_tag_loop (front ++ encode_tags rs) tag_id fuel front.length tt tl
      = .error .out_of_bounds_read := by
  induction rs generalizing front fuel tt tl with
  | nil =>
    obtain ⟨f, rfl⟩ : ∃ f, fuel = f + 1 := ⟨fuel - 1, by simp at hfuel; omega⟩
    simp only [encode_tags, List.append_nil, find_tag_loop, htt, ne_eq, not_false_eq_true,
      if_true, read_byte_end]
  | cons r rs ih =>
    obtain ⟨t, w⟩ := r
    obtain ⟨f, rfl⟩ : ∃ f, fuel = f + 1 := ⟨fuel - 1, by simp at hfuel; omega⟩
    have hw := hwf (t, w) (by simp)
    have ht : t ≠ tag_id := hrs (t, w) (by simp)
    simp only [encode_tags, find_tag_loop, htt, ne_eq, not_false_eq_true,
      if_true, read_byte_append, read_byte_append_succ, Nat.mod_eq_of_lt hw.1,
      Nat.mod_eq_of_lt hw.2, ht]
    have hbuf : front ++ t :: w.length :: (w ++ encode_tags rs)
        = (front ++ t :: w.length :: w) ++ encode_tags rs := by simp
    have hlen : front.length + (w.length + 2) = (front ++ t :: w.length :: w).length := by
      simp only [List.length_append, List.length_cons]
    rw [hbuf, hlen]
    exact ih (front ++ t :: w.length :: w) f t w.length ht
      (fun r hr => hrs r (List.mem_cons_of_mem _ hr))
      (fun r hr => hwf r (List.mem_cons_of_mem _ hr))
      (by simp only [List.length_cons] at hfuel; omega)

/-- The scan cut off after as many iterations as there are records has read inside the buffer
only: the read that leaves the buffer is the one of the next iteration. -/
theorem find_tag_loop_inside (tag_id : Nat) (rs : List (Nat × List Nat)) (front : List Nat)
    (tt tl : Nat) (htt : tt ≠ tag_id) (hrs : ∀ r, r ∈ rs → r.1 ≠ tag_id)
    (hwf : tags_wf rs) :
    find_tag_loop (front ++ encode_tags rs) tag_id rs.length front.length tt tl
      = .error .out_of_fuel := by
  induction rs generalizing front tt tl with
  | nil => rfl
  | cons r rs ih =>
    obtain ⟨t, w⟩ := r
    have hw := hwf (t, w) (by simp)
    have ht : t ≠ tag_id := hrs (t, w) (by simp)
    simp only [List.length_cons, encode_tags, find_tag_loop, htt, ne_eq, not_false_eq_true,
      if_true, read_byte_append, read_byte_append_succ, Nat.mod_eq_of_lt hw.1,
      Nat.mod_eq_of_lt hw.2, ht]
    have hbuf : front ++ t :: w.length :: (w ++ encode_tags rs)
        = (front ++ t :: w.length :: w) ++ encode_tags rs := by simp
    have hlen : front.length + (w.length + 2) = (front ++ t :: w.length :: w).length := by
      simp only [List.length_append, List.length_cons]
    rw [hbuf, hlen]
    exact ih (front ++ t :: w.length :: w) t w.length ht
      (fun r hr => hrs r (List.mem_cons_of_mem _ hr))
      (fun r hr => hwf r (List.mem_cons_of_mem _ hr))

theorem length_encode_tags (rs : List (Nat × List Nat)) :
    2 * rs.length ≤ (encode_tags rs).length := by
  induction rs with
  | nil => simp [encode_tags]
  | cons r rs ih =>
    obtain ⟨t, w⟩ := r
    simp [encode_tags]
    omega

/-- For a tag id other than 255 that is the type of a record, `find_tag` returns the position
of the value of the first such record and sets the size to its length. -/
theorem find_tag_first_match (tag_id : Nat) (htag : tag_id ≠ 255) (v : List Nat)
    (pre post : List (Nat × List Nat)) (front : List Nat)
    (hpre : ∀ r, r ∈ pre → r.1 ≠ tag_id)
    (hwf : tags_wf (pre ++ (tag_id, v) :: post)) :
    find_tag (front ++ encode_tags (pre ++ (tag_id, v) :: post)) front.length tag_id
      = .ok (front.length + (encode_tags pre).length + 2, v.length) := by
  unfold find_tag
  apply find_tag_loop_found tag_id v post pre front _ 255 0 (Ne.symm htag) hpre hwf
  have := length_encode_tags (pre ++ (tag_id, v) :: post)
  simp at this ⊢
  omega

/-- Fuel adequacy: above `buf.length - data + 2` one more unit of fuel changes nothing, so
the fuel `find_tag` passes is never used up. -/
theorem find_tag_loop_fuel (buf : List Nat) (tag_id : Nat) (fuel data tt tl : Nat)
    (h : buf.length - data + 2 ≤ fuel) :
    find_tag_loop buf tag_id (fuel + 1) data tt tl = find_tag_loop buf tag_id fuel data tt tl := by
  induction fuel generalizing data tt tl with
  | zero => omega
  | succ f ih =>
    rw [find_tag_loop, find_tag_loop]
    split
    · cases h0 : read_byte buf data with
      | error e => rfl
      | ok t =>
        cases h1 : read_byte buf (data + 1) with
        | error e => rfl
        | ok l =>
          have hlt : data + 1 < buf.length := by
            unfold read_byte at h1
            by_contra hc
            rw [List.getElem?_eq_none (Nat.le_of_not_lt hc)] at h1
            simp at h1
          simp only []
          split
          · exact ih _ _ _ (by omega)
          · exact ih _ _ _ (by omega)
    · rfl

/-- The loop of `find_tag` is not cut off by the fuel that `find_tag` passes: whatever the
buffer, the start and the tag id, `find_tag` returns a position or a fault of the C code. -/
theorem find_tag_loop_never_out_of_fuel (buf : List Nat) (tag_id : Nat) (fuel : Nat) :
    ∀ data tt tl, 1 ≤ fuel → buf.length < fuel + data →
      find_tag_loop buf tag_id fuel data tt tl ≠ .error .out_of_fuel := by
  induction fuel with
  | zero => intro _ _ _ h; omega
  | succ f ih =>
    intro data tt tl _ hlen
    rw [find_tag_loop]
    split
    · cases h0 : read_byte buf data with
      | error e =>
        simp only []
        have : e = .out_of_bounds_read := by
          unfold read_byte at h0
          split at h0 <;> simp at h0
          exact h0.symm
        rw [this]
        simp
      | ok t =>
        cases h1 : read_byte buf (data + 1) with
        | error e =>
          simp only []
          have : e = .out_of_bounds_read := by
            unfold read_byte at h1
            split at h1 <;> simp at h1
            exact h1.symm
          rw [this]
          simp
        | ok l =>
          have hlt : data + 1 < buf.length := by
            unfold read_byte at h1
            by_contra hc
            rw [List.getElem?_eq_none (Nat.le_of_not_lt hc)] at h1
            simp at h1
          simp only []
          split
          · exact ih _ _ _ (by omega) (by omega)
          · exact ih _ _ _ (by omega) (by omega)
    · simp

theorem find_tag_never_out_of_fuel (buf : List Nat) (data tag_id : Nat) :
    find_tag buf data tag_id ≠ .error .out_of_fuel :=
  find_tag_loop_never_out_of_fuel buf tag_id _ data 255 0 (by omega) (by omega)

/-- On a buffer that ends after well-formed records none of which has the requested tag id
(other than 255), `find_tag` steps over every record and reads at the end of the buffer. -/
theorem find_tag_absent (tag_id : Nat) (htag : tag_id ≠ 255)
    (rs : List (Nat × List Nat)) (front : List Nat)
    (hrs : ∀ r, r ∈ rs → r.1 ≠ tag_id) (hwf : tags_wf rs) :
    find_tag (front ++ encode_tags rs) front.length tag_id = .error .out_of_bounds_read := by
  unfold find_tag
  apply find_tag_loop_absent tag_id rs front _ 255 0 (Ne.symm htag) hrs hwf
  have := length_encode_tags rs
  simp only [List.length_append]
  omega

/-! ## Addresses (C9) -/

theorem get_two_append (front rest : List Nat) (b0 b1 : Nat) (h0 : b0 < 256) (h1 : b1 < 256) :
    get_two (front ++ b0 :: b1 :: rest) front.length = .ok (b0 * 256 + b1) := by
  simp only [get_two, read_byte_append, read_byte_append_succ, Nat.mod_eq_of_lt h0,
    Nat.mod_eq_of_lt h1]
  congr 1
  rw [Nat.shiftLeft_eq]
  have : b0 * 2 ^ 8 ||| b1 = b0 * 2 ^ 8 + b1 := by
    rw [Nat.mul_comm]
    exact (Nat.mul_add_lt_is_or h1 b0).symm
  rw [this]
  omega

/-- The value of `get_mac` on six bytes. -/
theorem get_mac_append (front rest : List Nat) (b0 b1 b2 b3 b4 b5 : Nat)
    (h0 : b0 < 256) (h1 : b1 < 256) (h2 : b2 < 256) (h3 : b3 < 256) (h4 : b4 < 256)
    (h5 : b5 < 256) :
    get_mac (front ++ b0 :: b1 :: b2 :: b3 :: b4 :: b5 :: rest) front.length =
      .ok (b0 * 2 ^ 40 + b1 * 2 ^ 32 + b2 * 2 ^ 24 + b3 * 2 ^ 16 + b4 * 2 ^ 8 + b5) := by
  have e2 : front ++ b0 :: b1 :: b2 :: b3 :: b4 :: b5 :: rest
      = (front ++ [b0, b1]) ++ b2 :: b3 :: b4 :: b5 :: rest := by simp
  have e4 : front ++ b0 :: b1 :: b2 :: b3 :: b4 :: b5 :: rest
      = (front ++ [b0, b1, b2, b3]) ++ b4 :: b5 :: rest := by simp
  have l2 : front.length + 2 = (front ++ [b0, b1]).length := by simp
  have l4 : front.length + 4 = (front ++ [b0, b1, b2, b3]).length := by simp
  have g0 := get_two_append front (b2 :: b3 :: b4 :: b5 :: rest) b0 b1 h0 h1
  have g2 : get_two (front ++ b0 :: b1 :: b2 :: b3 :: b4 :: b5 :: rest) (front.length + 2)
      = .ok (b2 * 256 + b3) := by
    rw [e2, l2]; exact get_two_append _ _ b2 b3 h2 h3
  have g4 : get_two (front ++ b0 :: b1 :: b2 :: b3 :: b4 :: b5 :: rest) (front.length + 4)
      = .ok (b4 * 256 + b5) := by
    rw [e4, l4]; exact get_two_append _ _ b4 b5 h4 h5
  simp only [get_mac, g0, g2, g4, Nat.zero_or]
  congr 1
  have s1 : ((b0 * 256 + b1) <<< 16) % 2 ^ 64 = 2 ^ 16 * (b0 * 256 + b1) := by
    rw [Nat.shiftLeft_eq]; omega
  rw [s1, ← Nat.mul_add_lt_is_or (by omega : b2 * 256 + b3 < 2 ^ 16)]
  have s2 : ((2 ^ 16 * (b0 * 256 + b1) + (b2 * 256 + b3)) <<< 16) % 2 ^ 64
      = 2 ^ 16 * (2 ^ 16 * (b0 * 256 + b1) + (b2 * 256 + b3)) := by
    rw [Nat.shiftLeft_eq]; omega
  rw [s2, ← Nat.mul_add_lt_is_or (by omega : b4 * 256 + b5 < 2 ^ 16)]
  omega

theorem byte_of_mac (b0 b1 b2 b3 b4 b5 : Nat)
    (h0 : b0 < 256) (h1 : b1 < 256) (h2 : b2 < 256) (h3 : b3 < 256) (h4 : b4 < 256)
    (h5 : b5 < 256) :
    byte_of (b0 * 2 ^ 40 + b1 * 2 ^ 32 + b2 * 2 ^ 24 + b3 * 2 ^ 16 + b4 * 2 ^ 8 + b5) 5 = b0 ∧
    byte_of (b0 * 2 ^ 40 + b1 * 2 ^ 32 + b2 * 2 ^ 24 + b3 * 2 ^ 16 + b4 * 2 ^ 8 + b5) 4 = b1 ∧
    byte_of (b0 * 2 ^ 40 + b1 * 2 ^ 32 + b2 * 2 ^ 24 + b3 * 2 ^ 16 + b4 * 2 ^ 8 + b5) 3 = b2 ∧
    byte_of (b0 * 2 ^ 40 + b1 * 2 ^ 32 + b2 * 2 ^ 24 + b3 * 2 ^ 16 + b4 * 2 ^ 8 + b5) 2 = b3 ∧
    byte_of (b0 * 2 ^ 40 + b1 * 2 ^ 32 + b2 * 2 ^ 24 + b3 * 2 ^ 16 + b4 * 2 ^ 8 + b5) 1 = b4 ∧
    byte_of (b0 * 2 ^ 40 + b1 * 2 ^ 32 + b2 * 2 ^ 24 + b3 * 2 ^ 16 + b4 * 2 ^ 8 + b5) 0 = b5 := by
  simp only [byte_of, Nat.shiftRight_eq_div_pow]
  refine ⟨?_, ?_, ?_, ?_, ?_, ?_⟩ <;> omega

set_option maxRecDepth 100000 in
theorem spec_octet_eq : ∀ b : Fin 256,
    spec_octet b.val = String.mk [Char.ofNat (hex_digit (b.val / 16)),
      Char.ofNat (hex_digit (b.val % 16))] := by
  decide

theorem hex_digit_ne_zero (d : Nat) : hex_digit d ≠ 0 := by
  unfold hex_digit; split <;> omega

theorem write_byte_inside (arr : List Nat) (i v : Nat) (h : i < arr.length) :
    write_byte arr i v = .ok (arr.set i v) := by
  unfold write_byte
  rw [if_pos h]

theorem write_byte_outside (arr : List Nat) (i v : Nat) (h : arr.length ≤ i) :
    write_byte arr i v = .error .out_of_bounds_write := by
  unfold write_byte
  rw [if_neg (by omega)]

/-- A `sprintf` whose four bytes fit into the block. -/
theorem sprintf_02x_colon_inside (out : List Nat) (pos v : Nat) (h : pos + 3 < out.length) :
    sprintf_02x_colon out pos v =
      .ok ((((out.set pos (hex_digit (v % 256 / 16))).set (pos + 1)
        (hex_digit (v % 256 % 16))).set (pos + 2) 58).set (pos + 3) 0) := by
  unfold sprintf_02x_colon
  rw [write_byte_inside _ _ _ (by omega)]
  simp only []
  rw [write_byte_inside _ _ _ (by rw [List.length_set]; omega)]
  simp only []
  rw [write_byte_inside _ _ _ (by rw [List.length_set, List.length_set]; omega)]
  simp only []
  rw [write_byte_inside _ _ _ (by rw [List.length_set, List.length_set, List.length_set]; omega)]

/-- A `sprintf` whose digits and colon fit into the block and whose terminating zero does
not. -/
theorem sprintf_02x_colon_outside (out : List Nat) (pos v : Nat) (h : out.length = pos + 3) :
    sprintf_02x_colon out pos v = .error .out_of_bounds_write := by
  unfold sprintf_02x_colon
  rw [write_byte_inside _ _ _ (by omega)]
  simp only []
  rw [write_byte_inside _ _ _ (by rw [List.length_set]; omega)]
  simp only []
  rw [write_byte_inside _ _ _ (by rw [List.length_set, List.length_set]; omega)]
  simp only []
  rw [write_byte_outside _ _ _ (by rw [List.length_set, List.length_set, List.length_set]; omega)]

/-- The first five `sprintf` calls of `decode_mac` fit into a block of 18 bytes; the sixth
stores its terminating zero at `out[18]`. -/
theorem decode_mac_loop_18 (mac : Nat) :
    decode_mac_loop mac 6 0 (List.replicate 18 0) = .error .out_of_bounds_write := by
  have step : ∀ (out : List Nat) (i n : Nat), out.length = 18 → i < 5 →
      ∃ out1, out1.length = 18 ∧
        decode_mac_loop mac (n + 1) i out = decode_mac_loop mac n (i + 1) out1 := by
    intro out i n hl hi
    have h := sprintf_02x_colon_inside out (i * 3) (byte_of mac (5 - i)) (by omega)
    refine ⟨(((out.set (i * 3) (hex_digit (byte_of mac (5 - i) % 256 / 16))).set (i * 3 + 1)
      (hex_digit (byte_of mac (5 - i) % 256 % 16))).set (i * 3 + 2) 58).set (i * 3 + 3) 0,
      ?_, ?_⟩
    · simp only [List.length_set]
      exact hl
    · rw [decode_mac_loop, h]
  obtain ⟨o1, l1, e1⟩ := step (List.replicate 18 0) 0 5 (by simp) (by omega)
  obtain ⟨o2, l2, e2⟩ := step o1 1 4 l1 (by omega)
  obtain ⟨o3, l3, e3⟩ := step o2 2 3 l2 (by omega)
  obtain ⟨o4, l4, e4⟩ := step o3 3 2 l3 (by omega)
  obtain ⟨o5, l5, e5⟩ := step o4 4 1 l4 (by omega)
  rw [e1, e2, e3, e4, e5, decode_mac_loop, sprintf_02x_colon_outside o5 (5 * 3) _ (by omega)]

/-- C9 (evaluation at every input): `decode_mac` obtains 18 bytes from `calloc` and its sixth
`sprintf(out + 15, "%02x:", ...)` stores four bytes, the last of them, the terminating zero,
at `out[18]`, outside the block.  This holds for every address. -/
theorem C9_decode_mac_stores_past_block (mac : Nat) :
    decode_mac_loop mac 6 0 (List.replicate 18 0) = .error .out_of_bounds_write ∧
    decode_mac mac = .error .out_of_bounds_write := by
  refine ⟨decode_mac_loop_18 mac, ?_⟩
  unfold decode_mac decode_mac_block
  rw [decode_mac_loop_18]

/-- With one more byte in the block (19 instead of 18) the six `sprintf` calls of `decode_mac`
stay inside it and leave the twelve digits and six colons. -/
theorem decode_mac_loop_19 (mac : Nat) :
    decode_mac_loop mac 6 0 (List.replicate 19 0) = .ok
      [hex_digit (byte_of mac 5 / 16), hex_digit (byte_of mac 5 % 16), 58,
       hex_digit (byte_of mac 4 / 16), hex_digit (byte_of mac 4 % 16), 58,
       hex_digit (byte_of mac 3 / 16), hex_digit (byte_of mac 3 % 16), 58,
       hex_digit (byte_of mac 2 / 16), hex_digit (byte_of mac 2 % 16), 58,
       hex_digit (byte_of mac 1 / 16), hex_digit (byte_of mac 1 % 16), 58,
       hex_digit (byte_of mac 0 / 16), hex_digit (byte_of mac 0 % 16), 58, 0] := by
  have hb : ∀ k, byte_of mac k % 256 = byte_of mac k := fun k => by
    unfold byte_of; exact Nat.mod_mod _ _
  have hr : List.replicate 19 (0 : Nat) =
      [0, 0, 0, 0, 0, 0, 0, 0, 0, 0, 0, 0, 0, 0, 0, 0, 0, 0, 0] := by
    decide
  rw [hr]
  simp only [decode_mac_loop]
  rw [sprintf_02x_colon_inside _ _ _ (by simp)]
  simp only [Nat.zero_mul, Nat.zero_add, Nat.reduceAdd, Nat.reduceMul, Nat.reduceSub,
    Nat.sub_zero, List.set_cons_zero, List.set_cons_succ, List.set_nil]
  rw [sprintf_02x_colon_inside _ _ _ (by simp)]
  simp only [Nat.zero_mul, Nat.zero_add, Nat.reduceAdd, Nat.reduceMul, Nat.reduceSub,
    Nat.sub_zero, List.set_cons_zero, List.set_cons_succ, List.set_nil]
  rw [sprintf_02x_colon_inside _ _ _ (by simp)]
  simp only [Nat.zero_mul, Nat.zero_add, Nat.reduceAdd, Nat.reduceMul, Nat.reduceSub,
    Nat.sub_zero, List.set_cons_zero, List.set_cons_succ, List.set_nil]
  rw [sprintf_02x_colon_inside _ _ _ (by simp)]
  simp only [Nat.zero_mul, Nat.zero_add, Nat.reduceAdd, Nat.reduceMul, Nat.reduceSub,
    Nat.sub_zero, List.set_cons_zero, List.set_cons_succ, List.set_nil]
  rw [sprintf_02x_colon_inside _ _ _ (by simp)]
  simp only [Nat.zero_mul, Nat.zero_add, Nat.reduceAdd, Nat.reduceMul, Nat.reduceSub,
    Nat.sub_zero, List.set_cons_zero, List.set_cons_succ, List.set_nil]
  rw [sprintf_02x_colon_inside _ _ _ (by simp)]
  simp only [Nat.zero_mul, Nat.zero_add, Nat.reduceAdd, Nat.reduceMul, Nat.reduceSub,
    Nat.sub_zero, List.set_cons_zero, List.set_cons_succ, List.set_nil, hb]

theorem takeWhile_hex (d : Nat) (rest : List Nat) :
    (hex_digit d :: rest).takeWhile (fun c => decide (c ≠ 0))
      = hex_digit d :: rest.takeWhile (fun c => decide (c ≠ 0)) := by
  simp [List.takeWhile, hex_digit_ne_zero]

/-- What the claim says of `decode_mac` holds of its statements in a block of 19 bytes: after
the six `sprintf` calls and `out[17] = 0` the block holds the 17-character string of the six
bytes as two-digit lower-case hexadecimal octets separated by colons. -/
theorem decode_mac_in_19_bytes (b0 b1 b2 b3 b4 b5 : Nat)
    (h0 : b0 < 256) (h1 : b1 < 256) (h2 : b2 < 256) (h3 : b3 < 256) (h4 : b4 < 256)
    (h5 : b5 < 256) :
    ∃ out, decode_mac_loop (b0 * 2 ^ 40 + b1 * 2 ^ 32 + b2 * 2 ^ 24 + b3 * 2 ^ 16 + b4 * 2 ^ 8 + b5)
        6 0 (List.replicate 19 0) = .ok out ∧
      c_string (out.set 17 0) = spec_format_mac [b0, b1, b2, b3, b4, b5] ∧
      (c_string (out.set 17 0)).length = 17 := by
  obtain ⟨e5, e4, e3, e2, e1, e0⟩ := byte_of_mac b0 b1 b2 b3 b4 b5 h0 h1 h2 h3 h4 h5
  refine ⟨_, decode_mac_loop_19 _, ?_⟩
  rw [e5, e4, e3, e2, e1, e0]
  have h58 : ∀ rest : List Nat, (58 :: rest).takeWhile (fun c => decide (c ≠ 0))
      = 58 :: rest.takeWhile (fun c => decide (c ≠ 0)) := fun rest => by simp [List.takeWhile]
  have hz : ∀ rest : List Nat, (0 :: rest).takeWhile (fun c => decide (c ≠ 0)) = [] :=
    fun rest => by simp [List.takeWhile]
  have hs : c_string ([hex_digit (b0 / 16), hex_digit (b0 % 16), 58,
       hex_digit (b1 / 16), hex_digit (b1 % 16), 58,
       hex_digit (b2 / 16), hex_digit (b2 % 16), 58,
       hex_digit (b3 / 16), hex_digit (b3 % 16), 58,
       hex_digit (b4 / 16), hex_digit (b4 % 16), 58,
       hex_digit (b5 / 16), hex_digit (b5 % 16), 58, 0].set 17 0) = String.mk
      [Char.ofNat (hex_digit (b0 / 16)), Char.ofNat (hex_digit (b0 % 16)), Char.ofNat 58,
       Char.ofNat (hex_digit (b1 / 16)), Char.ofNat (hex_digit (b1 % 16)), Char.ofNat 58,
       Char.ofNat (hex_digit (b2 / 16)), Char.ofNat (hex_digit (b2 % 16)), Char.ofNat 58,
       Char.ofNat (hex_digit (b3 / 16)), Char.ofNat (hex_digit (b3 % 16)), Char.ofNat 58,
       Char.ofNat (hex_digit (b4 / 16)), Char.ofNat (hex_digit (b4 % 16)), Char.ofNat 58,
       Char.ofNat (hex_digit (b5 / 16)), Char.ofNat (hex_digit (b5 % 16))] := by
    unfold c_string
    simp only [List.set_cons_zero, List.set_cons_succ, takeWhile_hex, h58, hz, List.map_cons,
      List.map_nil]
  rw [hs]
  constructor
  · have o0 := spec_octet_eq ⟨b0, h0⟩
    have o1 := spec_octet_eq ⟨b1, h1⟩
    have o2 := spec_octet_eq ⟨b2, h2⟩
    have o3 := spec_octet_eq ⟨b3, h3⟩
    have o4 := spec_octet_eq ⟨b4, h4⟩
    have o5 := spec_octet_eq ⟨b5, h5⟩
    simp only [] at o0 o1 o2 o3 o4 o5
    simp only [spec_format_mac, List.map_cons, List.map_nil, o0, o1, o2, o3, o4, o5]
    rfl
  · rfl

/-! ## Channel usage (C10) -/

theorem analyze_loop_skip (atten : Nat → Int → Nat) (l : List entity) (i : Nat)
    (st : chan_state) (h : ∀ e, e ∈ l → e.type ≠ TYPE_AP) :
    analyze_loop atten l i st = .ok st := by
  induction l generalizing i with
  | nil => rfl
  | cons e es ih =>
    have he : e.type ≠ TYPE_AP := h e (List.mem_cons_self _ _)
    simp only [analyze_loop, analyze_entity, he, ne_eq, not_false_eq_true, if_true]
    exact ih (i + 1) (fun x hx => h x (List.mem_cons_of_mem _ hx))

theorem analyze_loop_append (atten : Nat → Int → Nat) (l1 l2 : List entity) (i : Nat)
    (st : chan_state) :
    analyze_loop atten (l1 ++ l2) i st =
      match analyze_loop atten l1 i st with
      | .error err => .error err
      | .ok st1 => analyze_loop atten l2 (i + l1.length) st1 := by
  induction l1 generalizing i st with
  | nil => simp [analyze_loop]
  | cons e es ih =>
    rw [List.cons_append]
    simp only [analyze_loop]
    cases analyze_entity atten i e st with
    | error err => rfl
    | ok st1 =>
      simp only []
      rw [ih]
      simp [Nat.add_assoc, Nat.add_comm 1]

/-- The upward bleed from channels 10, 11 and 12 reaches `chans[12]`. -/
theorem analyze_entity_high (atten : Nat → Int → Nat) (i : Nat) (e : entity)
    (he : e.type = TYPE_AP) (h1 : 10 ≤ e.channel) (h2 : e.channel ≤ 12) :
    analyze_entity atten i e { chans := chans_init, maxtot := 1 }
      = .error .out_of_bounds_write := by
  generalize hc : e.channel = c at h1 h2
  interval_cases c <;>
    simp [analyze_entity, he, hc, chan_update, chan_read, chans_init, chan_modify, bleed_loop]

/-- A table whose first access point is on one of the channels 10, 11 and 12. -/
theorem analyze_channels_single_ap_high (atten : Nat → Int → Nat) (pre post : List entity)
    (e : entity) (hpre : ∀ x, x ∈ pre → x.type ≠ TYPE_AP)
    (he : e.type = TYPE_AP) (h1 : 10 ≤ e.channel) (h2 : e.channel ≤ 12) :
    analyze_channels atten (pre ++ e :: post) = .error .out_of_bounds_write := by
  unfold analyze_channels
  rw [analyze_loop_append, analyze_loop_skip atten pre 0 _ hpre]
  simp only [analyze_loop, analyze_entity_high atten _ e he h1 h2]

/-- C11 (evaluation at the failing input): an access point on channel 5 with attenuated traffic
1000 followed by one on channel 6 with attenuated traffic 100.  The second bleeds 50 into
channel 5, whose usage ends at 1050, while `maxtot` stays 1000: the comparison after the bleed
loop looks at the usage of channel 6 only (600). -/
theorem C11_maxtot_misses_bleed :
    (analyze_channels atten_one [ap_on_channel 5 1000, ap_on_channel 6 100]).toOption.map
        (fun st => (usages st.chans, st.maxtot))
      = some ([0, 62, 256, 525, 1050, 600, 300, 87, 6, 0, 0, 0], 1000) := by
  decide

/-- An entity that is no access point, or whose channel is 14 or more, is passed over. -/
theorem analyze_entity_skipped (atten : Nat → Int → Nat) (i : Nat) (e : entity) (st : chan_state)
    (h : e.type ≠ TYPE_AP ∨ 14 ≤ e.channel) : analyze_entity atten i e st = .ok st := by
  unfold analyze_entity
  rcases h with h | h
  · simp [h]
  · have : ¬ (e.channel - 1 ≤ 12) := by omega
    simp [this]

/-- An access point whose channel is 0 (or negative) or 13 passes the test `chan <= 12` and its
first statement, `chans[chan].traffic += ttot`, is outside the twelve records. -/
theorem analyze_entity_channel_0_or_13 (atten : Nat → Int → Nat) (i : Nat) (e : entity)
    (st : chan_state) (he : e.type = TYPE_AP) (hl : st.chans.length = 12)
    (hc : e.channel ≤ 0 ∨ e.channel = 13) :
    analyze_entity atten i e st = .error .out_of_bounds_write := by
  unfold analyze_entity
  have h12 : e.channel - 1 ≤ 12 := by omega
  have hout : ¬ (0 ≤ e.channel - 1 ∧ e.channel - 1 < (st.chans.length : Int)) := by
    rw [hl]; omega
  have hu : ∀ f, chan_update st.chans (e.channel - 1) f = .error .out_of_bounds_write :=
    fun f => by unfold chan_update; rw [if_neg hout]
  simp only [he, ne_eq, not_true_eq_false, if_false, h12, if_true, hu]

set_option maxRecDepth 100000 in
/-- C12 (evaluation at the failing input): a beacon whose tag 3 carries channel 13 registers an
access point on channel 13, and `analyze_channels` then accesses `chans[12]`, outside the twelve
records; an access point on channel 0 makes it access `chans[-1]`.  The bleed loop for these two
values of `chan` (12 and -1) adds usage to the channels 12, 11, 10 and 1, 2, 3.  An access point
on channel 14 is passed over. -/
theorem C12_channel_0_and_13_are_not_skipped :
    (run init [beacon_frame addr_X home_tags_13]).toOption.map (fun s => s.en.map view)
      = some [(0x001122334455, TYPE_AP, 13, "Home", 0)] ∧
    analyze_channels atten_one [ap_on_channel 13 1200] = .error .out_of_bounds_write ∧
    analyze_channels atten_one [ap_on_channel 0 1200] = .error .out_of_bounds_write ∧
    (bleed_loop 12 1200 3 1 2 chans_init).toOption.map usages
      = some [0, 0, 0, 0, 0, 0, 0, 0, 0, 75, 300, 600] ∧
    (bleed_loop (-1) 1200 3 1 2 chans_init).toOption.map usages
      = some [600, 300, 75, 0, 0, 0, 0, 0, 0, 0, 0, 0] ∧
    (analyze_channels atten_one [ap_on_channel 14 1200]).toOption.map (fun st => usages st.chans)
      = some [0, 0, 0, 0, 0, 0, 0, 0, 0, 0, 0, 0] :=
  ⟨by decide, by rfl, by rfl, by decide, by decide, by decide⟩

/-- C20 (evaluation at the failing input): for an access point on channel 12 the first round of
the bleed loop (`chan = 11`, `j = 1`) passes `chan+j <= 12` and updates `chans[12]`; for channel
11 the second round does.  Both are outside the records `chans[0] .. chans[11]`. -/
theorem C20_bleed_from_channel_12_and_11_leaves_array :
    chans_init.length = 12 ∧
    chan_update chans_init 12 (fun c => c) = .error .out_of_bounds_write ∧
    bleed_loop 11 1200 3 1 2 chans_init = .error .out_of_bounds_write ∧
    bleed_loop 10 1200 3 1 2 chans_init = .error .out_of_bounds_write ∧
    analyze_channels atten_one [ap_on_channel 12 1200] = .error .out_of_bounds_write ∧
    analyze_channels atten_one [ap_on_channel 11 1200] = .error .out_of_bounds_write :=
  ⟨by decide, by rfl, by rfl, by rfl, by rfl, by rfl⟩

/-! ## Frames shorter than their headers (C19) -/

theorem read_byte_of_le (buf : List Nat) (i : Nat) (h : buf.length ≤ i) :
    read_byte buf i = .error .out_of_bounds_read := by
  simp [read_byte, List.getElem?_eq_none h]

theorem read_byte_of_lt (buf : List Nat) (i : Nat) (h : i < buf.length) :
    read_byte buf i = .ok (buf[i] % 256) := by
  simp [read_byte, List.getElem?_eq_getElem h]

theorem get_two_of_le (buf : List Nat) (d : Nat) (h : buf.length ≤ d + 1) :
    get_two buf d = .error .out_of_bounds_read := by
  unfold get_two
  by_cases h0 : d < buf.length
  · rw [read_byte_of_lt buf d h0, read_byte_of_le buf (d + 1) h]
  · rw [read_byte_of_le buf d (Nat.le_of_not_lt h0)]

theorem get_two_of_lt (buf : List Nat) (d : Nat) (h : d + 1 < buf.length) :
    ∃ v, get_two buf d = .ok v := by
  unfold get_two
  rw [read_byte_of_lt buf d (by omega), read_byte_of_lt buf (d + 1) h]
  exact ⟨_, rfl⟩

theorem get_mac_of_le (buf : List Nat) (d : Nat) (h : buf.length ≤ d + 5) :
    get_mac buf d = .error .out_of_bounds_read := by
  unfold get_mac
  by_cases h0 : d + 1 < buf.length
  · obtain ⟨t0, e0⟩ := get_two_of_lt buf d h0
    rw [e0]
    by_cases h2 : d + 2 + 1 < buf.length
    · obtain ⟨t1, e1⟩ := get_two_of_lt buf (d + 2) h2
      rw [e1]
      simp only []
      rw [get_two_of_le buf (d + 4) (by omega)]
    · simp only []
      rw [get_two_of_le buf (d + 2) (by omega)]
  · rw [get_two_of_le buf d (by omega)]

theorem get_mac_of_lt (buf : List Nat) (d : Nat) (h : d + 5 < buf.length) :
    ∃ v, get_mac buf d = .ok v := by
  unfold get_mac
  obtain ⟨t0, e0⟩ := get_two_of_lt buf d (by omega)
  obtain ⟨t1, e1⟩ := get_two_of_lt buf (d + 2) (by omega)
  obtain ⟨t2, e2⟩ := get_two_of_lt buf (d + 4) (by omega)
  rw [e0]; simp only []; rw [e1]; simp only []; rw [e2]
  exact ⟨_, rfl⟩

/-- The header fields are read without fault exactly from frames of at least 23 bytes that
hold 16 bytes behind the declared radiotap length. -/
theorem frame_fields_ok_of_long (packet : List Nat) (h23 : 23 ≤ packet.length)
    (hl : packet[2]?.getD 0 % 256 + 16 ≤ packet.length) :
    ∃ f, frame_fields packet = .ok f := by
  unfold frame_fields
  have h2 : 2 < packet.length := by omega
  rw [List.getElem?_eq_getElem h2, Option.getD_some] at hl
  rw [read_byte_of_lt packet 2 h2, read_byte_of_lt packet 22 (by omega)]
  simp only []
  rw [read_byte_of_lt packet (packet[2] % 256) (by omega)]
  simp only []
  obtain ⟨da, eda⟩ := get_mac_of_lt packet (packet[2] % 256 + 4) (by omega)
  obtain ⟨sa, esa⟩ := get_mac_of_lt packet (packet[2] % 256 + 10) (by omega)
  rw [eda]; simp only []; rw [esa]
  exact ⟨_, rfl⟩

theorem frame_fields_of_short (packet : List Nat)
    (h : packet.length < 23 ∨ packet.length < packet[2]?.getD 0 % 256 + 16) :
    frame_fields packet = .error .out_of_bounds_read := by
  unfold frame_fields
  by_cases h2 : 2 < packet.length
  · rw [read_byte_of_lt packet 2 h2]
    simp only []
    by_cases h22 : 22 < packet.length
    · rw [read_byte_of_lt packet 22 h22]
      simp only []
      have hl : packet.length < packet[2] % 256 + 16 := by
        rcases h with h | h
        · omega
        · simpa [List.getElem?_eq_getElem h2] using h
      by_cases h0 : packet[2] % 256 < packet.length
      · rw [read_byte_of_lt packet _ h0]
        simp only []
        by_cases h4 : packet[2] % 256 + 4 + 5 < packet.length
        · obtain ⟨da, eda⟩ := get_mac_of_lt packet (packet[2] % 256 + 4) h4
          rw [eda]
          simp only []
          rw [get_mac_of_le packet (packet[2] % 256 + 10) (by omega)]
        · rw [get_mac_of_le packet (packet[2] % 256 + 4) (by omega)]
      · rw [read_byte_of_le packet _ (by omega)]
    · rw [read_byte_of_le packet 22 (by omega)]
  · rw [read_byte_of_le packet 2 (by omega)]

/-- C19 (counterexample): a frame of 48 bytes that declares a header of 200 bytes, and a frame
that ends 6 bytes into its MAC header: `handle_packet` reports nothing and reads outside the
captured bytes. -/
theorem C19_short_frame_counterexample :
    handle_packet init truncated_frame.header truncated_frame.packet
      = .error .out_of_bounds_read ∧
    handle_packet init short_mac_frame.header short_mac_frame.packet
      = .error .out_of_bounds_read :=
  ⟨by rfl, by rfl⟩

/-- C19 (amended): `handle_packet` has no length check.  For every frame whose captured bytes
are fewer than 23, or fewer than the declared radiotap length (byte 2) plus the 16 bytes of
MAC header it reads, `handle_packet` reads outside the captured bytes, whatever the state. -/
theorem C19_short_frame_read_outside (s : state) (header : pcap_pkthdr) (packet : List Nat)
    (h : packet.length < 23 ∨ packet.length < packet[2]?.getD 0 % 256 + 16) :
    handle_packet s header packet = .error .out_of_bounds_read := by
  unfold handle_packet
  rw [frame_fields_of_short packet h]

/-- Witness for C19 (amended): 200 declared header bytes in a frame of 48 bytes, processed with
one access point registered. -/
theorem C19_short_frame_read_outside_witness :
    truncated_frame.packet.length = 48 ∧ truncated_frame.packet[2]?.getD 0 = 200 ∧
    handle_packet state_ap_X truncated_frame.header truncated_frame.packet
      = .error .out_of_bounds_read :=
  ⟨by decide, by decide,
    C19_short_frame_read_outside state_ap_X truncated_frame.header truncated_frame.packet
      (Or.inr (by decide))⟩

/-! ## The index of the promoting frame (C17) -/

theorem users_from_refl (P : Nat → Prop) (en : List entity) : users_from P en en :=
  fun _ h => Or.inl ⟨h, rfl⟩

theorem users_from_trans {P : Nat → Prop} {a b c : List entity}
    (h1 : users_from P a b) (h2 : users_from P b c) : users_from P a c := by
  intro i hc
  rcases h2 i hc with ⟨hb, hp⟩ | hP
  · rcases h1 i hb with ⟨ha, hq⟩ | hP
    · exact Or.inl ⟨ha, by rw [hp, hq]⟩
    · exact Or.inr (by rw [hp]; exact hP)
  · exact Or.inr hP

/-- Reading through any pointer after an assignment through `p`. -/
theorem deref_modify_at_any (f : entity → entity) (en : List entity) (p i : Nat) :
    deref (modify_at f en p) i = if i = p ∧ p < en.length then f (deref en i) else deref en i := by
  by_cases hi : i < en.length
  · rw [deref_modify_at f en p i hi]
    by_cases h : i = p
    · subst h; simp [hi]
    · simp [h]
  · have h1 : deref (modify_at f en p) i = zero_entity := by
      simp [deref, List.getElem?_eq_none (by rw [length_modify_at]; omega : (modify_at f en p).length ≤ i)]
    have h2 : deref en i = zero_entity := by
      simp [deref, List.getElem?_eq_none (by omega : en.length ≤ i)]
    rw [h1, h2]
    have : ¬ (i = p ∧ p < en.length) := fun h => hi (h.1 ▸ h.2)
    simp [this]

theorem users_from_modify_at (P : Nat → Prop) (f : entity → entity) (en : List entity) (p : Nat)
    (hf : (f (deref en p)).type = (deref en p).type ∧ (f (deref en p)).pktidx = (deref en p).pktidx ∨
      (f (deref en p)).type ≠ TYPE_USER ∨ P (f (deref en p)).pktidx) :
    users_from P en (modify_at f en p) := by
  intro i hu
  by_cases hc : i = p ∧ p < en.length
  · rw [deref_modify_at_any, if_pos hc] at hu ⊢
    obtain ⟨rfl, _⟩ := hc
    rcases hf with ⟨ht, hp⟩ | hn | hP
    · exact Or.inl ⟨by rw [← ht]; exact hu, hp⟩
    · exact absurd hu hn
    · exact Or.inr hP
  · rw [deref_modify_at_any, if_neg hc] at hu ⊢
    exact Or.inl ⟨hu, rfl⟩

theorem users_from_append (P : Nat → Prop) (en : List entity) (e : entity)
    (he : e.type ≠ TYPE_USER) : users_from P en (en ++ [e]) := by
  intro i hu
  by_cases hi : i < en.length
  · rw [deref_append_left _ _ _ hi] at hu ⊢
    exact Or.inl ⟨hu, rfl⟩
  · exfalso
    by_cases hl : i = en.length
    · subst hl
      rw [deref_append_length] at hu
      exact he hu
    · have : deref (en ++ [e]) i = zero_entity := by
        simp [deref, List.getElem?_eq_none (by simp; omega : (en ++ [e]).length ≤ i)]
      rw [this] at hu
      simp [zero_entity] at hu

theorem users_from_find_or_add_unknown (P : Nat → Prop) (en en1 : List entity) (mac : Nat)
    (r : Option Nat) (h : find_or_add_unknown en mac = (en1, r)) : users_from P en en1 := by
  rcases find_or_add_unknown_cases en mac with ⟨q, _, he⟩ | ⟨_, _, he⟩ | ⟨_, _, he⟩ <;>
    rw [he] at h <;> simp only [Prod.mk.injEq] at h <;> obtain ⟨rfl, _⟩ := h
  · exact users_from_refl _ _
  · exact users_from_append _ _ _ (by simp)
  · exact users_from_refl _ _

theorem users_from_handle_no_sa (en : List entity) (len da : Nat) :
    users_from (fun _ => False) en (handle_no_sa en len da) := by
  cases h : find_or_add_unknown en da with
  | mk en1 r =>
    have hk := users_from_find_or_add_unknown (fun _ => False) _ _ _ _ h
    cases r with
    | none => simpa only [handle_no_sa, h] using hk
    | some dst =>
      simp only [handle_no_sa, h]
      exact users_from_trans hk (users_from_modify_at _ _ _ _ (Or.inl ⟨rfl, rfl⟩))

theorem users_from_classify (en : List entity) (pcount src dst : Nat) :
    users_from (fun k => k = pcount % 256) en (classify en pcount src dst) := by
  unfold classify
  simp only [confirm_user]
  split
  · exact users_from_refl _ _
  · rename_i h1
    split
    · rename_i h2
      exact absurd (Or.inr (Or.inl h2.1)) h1
    · split
      · rw [modify_at_modify_at]
        exact users_from_modify_at _ _ _ _ (Or.inr (Or.inr rfl))
      · exact users_from_refl _ _

theorem users_from_handle_other (en : List entity) (pcount len sa da : Nat) :
    users_from (fun k => k = pcount % 256) en (handle_other en pcount len sa da) := by
  cases h1 : find_or_add_unknown en sa with
  | mk en1 src =>
    cases h2 : find_or_add_unknown en1 da with
    | mk en2 dst =>
      have hk := users_from_trans (users_from_find_or_add_unknown (fun k => k = pcount % 256) _ _ _ _ h1)
        (users_from_find_or_add_unknown _ _ _ _ _ h2)
      cases src with
      | none => simpa only [handle_other, h1, h2] using hk
      | some src =>
        cases dst with
        | none => simpa only [handle_other, h1, h2] using hk
        | some dst =>
          simp only [handle_other, h1, h2]
          refine users_from_trans hk (users_from_trans (users_from_classify _ pcount src dst) ?_)
          refine users_from_trans (b := modify_at (fun e =>
            { e with txtraffic := (e.txtraffic + len) % 2 ^ 64 }) (classify en2 pcount src dst) src) ?_ ?_
          · exact users_from_modify_at _ _ _ _ (Or.inl ⟨rfl, rfl⟩)
          · exact users_from_modify_at _ _ _ _ (Or.inl ⟨rfl, rfl⟩)

theorem users_from_handle_beacon (en en2 : List entity) (buf : List Nat) (pkt mac : Nat)
    (rssi : Int) (h : handle_beacon en buf pkt mac rssi = .ok en2) :
    users_from (fun _ => False) en en2 := by
  obtain ⟨en1, p, g, hcase, hp, hmac, rfl, hg⟩ := handle_beacon_ok _ _ _ _ _ _ h
  have h1 : users_from (fun _ => False) en en1 := by
    rcases hcase with ⟨_, rfl⟩ | ⟨_, _, _, rfl⟩
    · exact users_from_refl _ _
    · exact users_from_append _ _ _ (by simp)
  refine users_from_trans h1 (users_from_modify_at _ _ _ _ (Or.inr (Or.inl ?_)))
  rw [(hg _).2.1]
  decide

/-- Whenever a frame that `handle_packet` processes turns an entity into a user, the frame is a
data/other frame, the frame counter `pcount` has been incremented for it, and the entity's
`pktidx`, an 8-bit member, is that counter modulo 256; so it equals the counter for frames
numbered up to 255. -/
theorem promotion_sets_pktidx_mod_256 (s s1 : state) (header : pcap_pkthdr) (packet : List Nat)
    (h : handle_packet s header packet = .ok s1) (i : Nat)
    (hnew : (deref s.en i).type ≠ TYPE_USER) (hu : (deref s1.en i).type = TYPE_USER) :
    s1.pcount = (s.pcount + 1) % 2 ^ 64 ∧
    (deref s1.en i).pktidx = s1.pcount % 256 ∧
    (s1.pcount < 256 → (deref s1.en i).pktidx = s1.pcount) ∧
    ∃ f, frame_fields packet = .ok f ∧ f.no_sa = false ∧ ¬ (f.wtype = 0 ∧ f.wsubtype = 8) := by
  unfold handle_packet at h
  cases hf : frame_fields packet with
  | error e => rw [hf] at h; simp at h
  | ok f =>
    rw [hf] at h
    simp only [] at h
    by_cases hno : f.no_sa = true
    · simp only [hno, if_true, Except.ok.injEq] at h
      subst h
      rcases users_from_handle_no_sa _ _ _ i hu with ⟨h1, _⟩ | h1
      · exact absurd h1 hnew
      · exact False.elim h1
    · simp only [hno, Bool.false_eq_true, if_false] at h
      by_cases hb : f.wtype = 0 ∧ f.wsubtype = 8
      · simp only [hb, and_self, if_true] at h
        cases hhb : handle_beacon s.en packet f.pkt_ptr f.sa f.rssi with
        | error e => rw [hhb] at h; simp at h
        | ok en2 =>
          rw [hhb] at h
          simp only [Except.ok.injEq] at h
          subst h
          rcases users_from_handle_beacon _ _ _ _ _ _ hhb i hu with ⟨h1, _⟩ | h1
          · exact absurd h1 hnew
          · exact False.elim h1
      · simp only [hb, if_false, Except.ok.injEq] at h
        subst h
        rcases users_from_handle_other _ _ _ _ _ i hu with ⟨h1, _⟩ | h1
        · exact absurd h1 hnew
        · have h2 : (deref (handle_other s.en ((s.pcount + 1) % 2 ^ 64) (hdr_len header) f.sa
              f.da) i).pktidx = (s.pcount + 1) % 2 ^ 64 % 256 := h1
          exact ⟨rfl, h2, fun hlt => by rw [h2]; exact Nat.mod_eq_of_lt hlt, f, rfl,
            by simpa using hno, hb⟩

set_option maxRecDepth 1000000 in
/-- C17 (evaluation at the failing input): 255 beacons from X and then a data frame from Y to
X.  The data frame is frame 256 (`pcount` is 256 after it) and makes Y a user; the assignment
`src->pktidx = pcount` to the `u_int8_t` member leaves `pktidx` 0, not 256. -/
theorem C17_pktidx_wraps_at_frame_256 :
    (run init (List.replicate 255 (beacon_frame addr_X home_tags) ++
        [data_frame addr_Y addr_X])).toOption.map
      (fun s => (s.pcount, (deref s.en 1).mac, (deref s.en 1).type, (deref s.en 1).pktidx))
      = some (256, 0xaabbccddeeff, TYPE_USER, 0) := by
  decide

/-! ## Ranking by signal strength (C13, C14) -/

theorem perm_exchange_head (a : Nat) (t : List Nat) (k : Nat) (hk : k < t.length) :
    (t[k]?.getD 0 :: t.set k a).Perm (a :: t) := by
  induction t generalizing k with
  | nil => simp at hk
  | cons b t ih =>
    cases k with
    | zero => simpa using List.Perm.swap a b t
    | succ k =>
      have h := ih k (by simpa using hk)
      simp only [List.getElem?_cons_succ, List.set_cons_succ]
      exact ((List.Perm.swap b (t[k]?.getD 0) (t.set k a)).trans (h.cons b)).trans
        (List.Perm.swap a b t)

/-- Exchanging two elements of a list gives a permutation of it. -/
theorem perm_exchange (out : List Nat) (i m : Nat) (him : i ≤ m) (hm : m < out.length) :
    ((out.set m (out[i]?.getD 0)).set i (out[m]?.getD 0)).Perm out := by
  induction out generalizing i m with
  | nil => simp at hm
  | cons a t ih =>
    cases i with
    | zero =>
      cases m with
      | zero => simp
      | succ k =>
        simp only [List.getElem?_cons_zero, Option.getD_some, List.set_cons_succ,
          List.set_cons_zero, List.getElem?_cons_succ]
        exact perm_exchange_head a t k (by simpa using hm)
    | succ i =>
      cases m with
      | zero => omega
      | succ k =>
        simp only [List.getElem?_cons_succ, List.set_cons_succ]
        exact (ih i k (by omega) (by simpa using hm)).cons a

/-- The elements of a list after two of them were exchanged. -/
theorem getD_exchange (out : List Nat) (i m k x y : Nat) (hi : i < out.length)
    (hm : m < out.length) :
    ((out.set m x).set i y)[k]?.getD 0 =
      if k = i then y else if k = m then x else out[k]?.getD 0 := by
  rw [List.getElem?_set]
  by_cases h1 : i = k
  · subst h1
    simp [hi]
  · rw [if_neg h1, List.getElem?_set]
    have h1' : ¬ k = i := fun h => h1 h.symm
    by_cases h2 : m = k
    · subst h2
      simp [h1', hm]
    · have h2' : ¬ k = m := fun h => h2 h.symm
      simp [h1', h2, h2']

/-- The inner loop returns the first position from `i` on that holds the greatest signal
strength, and that position is inside the block. -/
theorem grade_inner_spec (en : List entity) (out : List Nat) (i : Nat) (n j m : Nat)
    (him : i ≤ m) (hmj : m < j)
    (hmax : ∀ k, i ≤ k → k < j → rssi_at en out k ≤ rssi_at en out m)
    (hfirst : ∀ k, i ≤ k → k < m → rssi_at en out k < rssi_at en out m) :
    i ≤ grade_inner en out n j m ∧ grade_inner en out n j m < j + n ∧
    (∀ k, i ≤ k → k < j + n → rssi_at en out k ≤ rssi_at en out (grade_inner en out n j m)) ∧
    (∀ k, i ≤ k → k < grade_inner en out n j m →
      rssi_at en out k < rssi_at en out (grade_inner en out n j m)) := by
  induction n generalizing j m with
  | zero => exact ⟨him, by simpa [grade_inner] using hmj, by simpa [grade_inner] using hmax,
      by simpa [grade_inner] using hfirst⟩
  | succ n ih =>
    simp only [grade_inner]
    have hj : j + (n + 1) = j + 1 + n := by omega
    rw [hj]
    by_cases hgt : rssi_at en out j > rssi_at en out m
    · rw [if_pos hgt]
      refine ih (j + 1) j (by omega) (by omega) ?_ ?_
      · intro k hk1 hk2
        by_cases hkj : k = j
        · rw [hkj]
        · have := hmax k hk1 (by omega)
          omega
      · intro k hk1 hk2
        have := hmax k hk1 hk2
        omega
    · rw [if_neg hgt]
      refine ih (j + 1) m him (by omega) ?_ hfirst
      intro k hk1 hk2
      by_cases hkj : k = j
      · rw [hkj]; omega
      · exact hmax k hk1 (by omega)

/-- One round of the outer loop: what the positions hold afterwards, and the invariant. -/
theorem grade_body_spec (en : List entity) (i : Nat) (out : List Nat)
    (hN : en.length ≤ 256) (hi : i < en.length) (hinv : graded_upto en i out) :
    graded_upto en (i + 1) (grade_body en i out) ∧
    (∀ k, k < i → (grade_body en i out)[k]? = out[k]?) ∧
    ∃ m, i ≤ m ∧ m < en.length ∧ (grade_body en i out)[i]? = out[m]? ∧
      (∀ k, i ≤ k → k < en.length → rssi_at en out k ≤ rssi_at en out m) ∧
      (∀ k, i ≤ k → k < m → rssi_at en out k < rssi_at en out m) := by
  obtain ⟨hlen, hperm, hsorted⟩ := hinv
  obtain ⟨hm1, hm2, hmax, hfirst⟩ := grade_inner_spec en out i (en.length - (i + 1)) (i + 1) i
    (Nat.le_refl _) (by omega)
    (fun k hk1 hk2 => by have : k = i := by omega
                         rw [this])
    (fun k hk1 hk2 => by omega)
  generalize hm : grade_inner en out (en.length - (i + 1)) (i + 1) i = m at hm1 hm2 hmax hfirst
  have hmN : m < en.length := by omega
  have hreach : i + 1 + (en.length - (i + 1)) = en.length := by omega
  rw [hreach] at hmax
  -- the element moved to position `i` is a `u_int8_t` already
  have hswp : out[m]?.getD 0 % 256 = out[m]?.getD 0 := by
    have hmem : out[m]?.getD 0 ∈ out := by
      rw [List.getElem?_eq_getElem (by omega), Option.getD_some]
      exact List.getElem_mem _
    have := (hperm.mem_iff).mp hmem
    rw [List.mem_range] at this
    exact Nat.mod_eq_of_lt (by omega)
  have hbody : grade_body en i out = (out.set m (out[i]?.getD 0)).set i (out[m]?.getD 0) := by
    simp only [grade_body, hm, hswp]
  rw [hbody]
  have hget : ∀ k, ((out.set m (out[i]?.getD 0)).set i (out[m]?.getD 0))[k]?.getD 0 =
      if k = i then out[m]?.getD 0 else if k = m then out[i]?.getD 0 else out[k]?.getD 0 :=
    fun k => getD_exchange out i m k _ _ (by omega) (by omega)
  have hr : ∀ k, rssi_at en ((out.set m (out[i]?.getD 0)).set i (out[m]?.getD 0)) k =
      rssi_at en out (if k = i then m else if k = m then i else k) := by
    intro k
    unfold rssi_at
    rw [hget k]
    by_cases h1 : k = i
    · simp [h1]
    · by_cases h2 : k = m
      · subst h2
        simp [h1]
      · simp [h1, h2]
  refine ⟨⟨by simp [hlen], (perm_exchange out i m hm1 (by omega)).trans hperm, ?_⟩, ?_, ?_⟩
  · intro a b ha hab hb
    rw [hr a, hr b]
    by_cases hai : a = i
    · subst hai
      rw [if_pos rfl]
      apply hmax
      · split
        · omega
        · split <;> omega
      · split
        · omega
        · split <;> omega
    · have ha' : a < i := by omega
      have ham : ¬ a = m := by omega
      rw [if_neg hai, if_neg ham]
      apply hsorted a _ ha'
      · split
        · omega
        · split <;> omega
      · split
        · omega
        · split <;> omega
  · intro k hk
    rw [List.getElem?_set, if_neg (by omega), List.getElem?_set, if_neg (by omega)]
  · refine ⟨m, hm1, hmN, ?_, hmax, hfirst⟩
    rw [List.getElem?_set, if_pos rfl, if_pos (by simp; omega),
      List.getElem?_eq_getElem (by omega : m < out.length), Option.getD_some]

/-- The outer loop from round `i` on: the result is graded throughout and the positions below
`i` are left alone. -/
theorem grade_outer_spec (en : List entity) (hN : en.length ≤ 256) (n i : Nat) (out : List Nat)
    (hni : i + n = en.length) (hinv : graded_upto en i out) :
    graded_upto en en.length (grade_outer en n i out) ∧
    ∀ k, k < i → (grade_outer en n i out)[k]? = out[k]? := by
  induction n generalizing i out with
  | zero =>
    have : i = en.length := by omega
    subst this
    exact ⟨hinv, fun _ _ => rfl⟩
  | succ n ih =>
    simp only [grade_outer]
    obtain ⟨h1, h2, _⟩ := grade_body_spec en i out hN (by omega) hinv
    obtain ⟨h3, h4⟩ := ih (i + 1) (grade_body en i out) (by omega) h1
    exact ⟨h3, fun k hk => by rw [h4 k (by omega), h2 k hk]⟩

/-- The start of `grade_aps_by_rssi`: `out[i] = i`. -/
theorem graded_upto_start (en : List entity) (hN : en.length ≤ 256) :
    (List.range en.length).map (fun i => i % 256) = List.range en.length ∧
    graded_upto en 0 (List.range en.length) := by
  have h : (List.range en.length).map (fun i => i % 256) = List.range en.length := by
    apply List.ext_getElem (by simp)
    intro k h1 h2
    simp only [List.getElem_map, List.getElem_range]
    exact Nat.mod_eq_of_lt (by simp at h2; omega)
  exact ⟨h, by simp, List.Perm.refl _, fun a b ha => by omega⟩

/-- C13: for a table of at most 250 entities, `grade_aps_by_rssi` returns a list of `nent`
indices that is a permutation of `0 .. nent-1`, and along it the signal strength of the
entities does not increase. -/
theorem C13_grade_is_descending_permutation (en : List entity) (h : en.length ≤ MAX_ENTITIES) :
    (grade_aps_by_rssi en).length = en.length ∧
    (grade_aps_by_rssi en).Perm (List.range en.length) ∧
    ∀ a b, a < b → b < en.length →
      (deref en ((grade_aps_by_rssi en)[b]?.getD 0)).rssi ≤
        (deref en ((grade_aps_by_rssi en)[a]?.getD 0)).rssi := by
  have hN : en.length ≤ 256 := by simp only [MAX_ENTITIES] at h; omega
  obtain ⟨hs, h0⟩ := graded_upto_start en hN
  unfold grade_aps_by_rssi
  rw [hs]
  obtain ⟨⟨h1, h2, h3⟩, _⟩ := grade_outer_spec en hN en.length 0 _ (by omega) h0
  exact ⟨h1, h2, fun a b hab hb => h3 a b (by omega) hab hb⟩

/-- Witness for C13: six entities with signal strengths -60, -40, -70, -40, -90, -60. -/
theorem C13_grade_is_descending_permutation_witness :
    (table_of_rssi [-60, -40, -70, -40, -90, -60]).length ≤ MAX_ENTITIES ∧
    grade_aps_by_rssi (table_of_rssi [-60, -40, -70, -40, -90, -60]) = [1, 3, 0, 5, 2, 4] ∧
    (grade_aps_by_rssi (table_of_rssi [-60, -40, -70, -40, -90, -60])).Perm (List.range 6) :=
  ⟨by decide, by decide,
    (C13_grade_is_descending_permutation (table_of_rssi [-60, -40, -70, -40, -90, -60])
      (by decide)).2.1⟩

/-- C14 (counterexample): three entities with signal strengths 5, 5 and 9.  The first round
exchanges `out[0]` and `out[2]`, and the result lists entity 1 before entity 0 although both
have signal strength 5 and entity 0 was registered first. -/
theorem C14_grade_not_stable_counterexample :
    grade_aps_by_rssi (table_of_rssi [5, 5, 9]) = [2, 1, 0] ∧
    (deref (table_of_rssi [5, 5, 9]) 0).rssi = (deref (table_of_rssi [5, 5, 9]) 1).rssi := by
  decide

/-- C14 (amended): `grade_aps_by_rssi` breaks ties by registration order only for the first
entry.  For a table of 1 to 250 entities the first index returned is that of the entity
registered first among those of greatest signal strength: no entity has a greater signal
strength and every entity registered before it has a smaller one. -/
theorem C14_first_entry_is_earliest_greatest (en : List entity) (h0 : 0 < en.length)
    (h : en.length ≤ MAX_ENTITIES) :
    ∃ m, (grade_aps_by_rssi en)[0]? = some m ∧ m < en.length ∧
      (∀ k, k < en.length → (deref en k).rssi ≤ (deref en m).rssi) ∧
      (∀ k, k < m → (deref en k).rssi < (deref en m).rssi) := by
  have hN : en.length ≤ 256 := by simp only [MAX_ENTITIES] at h; omega
  obtain ⟨hs, hstart⟩ := graded_upto_start en hN
  obtain ⟨n, hn⟩ : ∃ n, en.length = n + 1 := ⟨en.length - 1, by omega⟩
  have hr : ∀ k, k < en.length → rssi_at en (List.range en.length) k = (deref en k).rssi := by
    intro k hk
    unfold rssi_at
    rw [List.getElem?_eq_getElem (by simpa using hk), Option.getD_some, List.getElem_range]
  obtain ⟨h1, _, m, _, hm, hget, hmax, hfirst⟩ :=
    grade_body_spec en 0 (List.range en.length) hN h0 hstart
  obtain ⟨_, hkeep⟩ := grade_outer_spec en hN n 1 (grade_body en 0 (List.range en.length))
    (by omega) h1
  refine ⟨m, ?_, hm, ?_, ?_⟩
  · unfold grade_aps_by_rssi
    rw [hs]
    have : grade_outer en en.length 0 (List.range en.length)
        = grade_outer en n 1 (grade_body en 0 (List.range en.length)) := by
      rw [hn]
      rfl
    rw [this, hkeep 0 (by omega), hget, List.getElem?_eq_getElem (by simpa using hm),
      List.getElem_range]
  · intro k hk
    have := hmax k (Nat.zero_le _) hk
    rwa [hr k hk, hr m hm] at this
  · intro k hk
    have := hfirst k (Nat.zero_le _) hk
    rwa [hr k (by omega), hr m hm] at this

/-- Witness for C14 (amended): signal strengths -60, -40, -70, -40: entity 1 comes first. -/
theorem C14_first_entry_is_earliest_greatest_witness :
    (grade_aps_by_rssi (table_of_rssi [-60, -40, -70, -40]))[0]? = some 1 ∧
    ∃ m, (grade_aps_by_rssi (table_of_rssi [-60, -40, -70, -40]))[0]? = some m ∧
      m < (table_of_rssi [-60, -40, -70, -40]).length ∧
      (∀ k, k < (table_of_rssi [-60, -40, -70, -40]).length →
        (deref (table_of_rssi [-60, -40, -70, -40]) k).rssi ≤
          (deref (table_of_rssi [-60, -40, -70, -40]) m).rssi) ∧
      (∀ k, k < m → (deref (table_of_rssi [-60, -40, -70, -40]) k).rssi <
        (deref (table_of_rssi [-60, -40, -70, -40]) m).rssi) :=
  ⟨by decide,
    C14_first_entry_is_earliest_greatest (table_of_rssi [-60, -40, -70, -40]) (by decide)
      (by decide)⟩

/-! ## Beacons from one sender (C15) -/

theorem _find_loop_modify_at (f : entity → entity) (hf : ∀ e, (f e).mac = e.mac)
    (en : List entity) (p mac i : Nat) :
    _find_loop mac (-1) (modify_at f en p) i = _find_loop mac (-1) en i := by
  induction en generalizing p i with
  | nil => rfl
  | cons e es ih =>
    cases p with
    | zero => simp [modify_at, _find_loop, hf]
    | succ p => simp [modify_at, _find_loop, ih]

/-- An assignment that keeps the address does not change what `find_any` returns. -/
theorem find_any_modify_at (f : entity → entity) (hf : ∀ e, (f e).mac = e.mac)
    (en : List entity) (p mac : Nat) :
    find_any (modify_at f en p) mac = find_any en mac :=
  _find_loop_modify_at f hf en p mac 0

/-- The entity `handle_beacon` starts from: the sender is in slot `p` already, or is appended
there by `add_ap`; in both cases the slot holds the members of `deref en p` and the address
`mac`. -/
theorem find_or_add_ap_slot (en : List entity) (mac p : Nat)
    (hp : find_any en mac = some p ∨
      (find_any en mac = none ∧ en.length < MAX_ENTITIES ∧ p = en.length)) :
    ∃ en1, find_or_add_ap en mac = (en1, some p) ∧ p < en1.length ∧
      find_any en1 mac = some p ∧ en.length ≤ en1.length ∧
      (deref en1 p).mac = mac ∧
      (deref en1 p).channel = (deref en p).channel ∧
      (deref en1 p).ssid = (deref en p).ssid ∧
      (deref en1 p).beacons = (deref en p).beacons ∧
      ((deref en1 p).type = TYPE_AP ∨ (deref en1 p).type = (deref en p).type) := by
  rcases hp with hp | ⟨hp, hroom, rfl⟩
  · obtain ⟨h1, h2⟩ := find_any_some _ _ _ hp
    exact ⟨en, by simp [find_or_add_ap, hp], h1, hp, Nat.le_refl _, h2, rfl, rfl, rfl, Or.inr rfl⟩
  · have h1 : find_or_add_ap en mac =
        (en ++ [{ zero_entity with mac := mac, channel := 0, rxtraffic := 0, txtraffic := 0,
                                   type := TYPE_AP }], some en.length) := by
      unfold find_or_add_ap add_ap
      rw [hp]
      simp only [hroom, if_true]
    refine ⟨_, h1, by simp, ?_, by simp, ?_⟩
    · rw [find_any_append_singleton_of_none _ _ _ hp]
      simp
    · have hz : deref en en.length = zero_entity := by
        simp [deref]
      rw [deref_append_length, hz]
      exact ⟨rfl, rfl, rfl, rfl, Or.inl rfl⟩

/-- A beacon frame is handed to `handle_beacon`. -/
theorem handle_packet_beacon (s : state) (fr : frame) (f : fields)
    (hf : frame_fields fr.packet = .ok f) (hn : f.no_sa = false) (hw : f.wtype = 0)
    (hs : f.wsubtype = 8) (en : List entity)
    (hb : handle_beacon s.en fr.packet f.pkt_ptr f.sa f.rssi = .ok en) :
    handle_packet s fr.header fr.packet = .ok { en := en, pcount := (s.pcount + 1) % 2 ^ 64 } := by
  unfold handle_packet
  rw [hf]
  simp only [hn, hw, hs, and_self, if_true, hb]
  rfl

/-- The body of `handle_beacon` for a sender whose channel is not yet set (in slot `p` already,
or appended there by `add_ap`): the SSID and the channel are decoded from the frame, and the
entity is rewritten in a table `l` that holds it as an access point. -/
theorem handle_beacon_unset (en : List entity) (buf : List Nat) (pkt mac p : Nat) (rssi : Int)
    (hp : find_any en mac = some p ∨
      (find_any en mac = none ∧ en.length < MAX_ENTITIES ∧ p = en.length))
    (hch0 : (deref en p).channel = 0) :
    ∃ l : List entity, p < l.length ∧ find_any l mac = some p ∧
      (deref l p).type = TYPE_AP ∧ (deref l p).beacons = (deref en p).beacons ∧
      handle_beacon en buf pkt mac rssi =
        match set_ap_ssid (deref en p).ssid buf (pkt + 36) with
        | .error e => .error e
        | .ok ssid =>
          match find_tag buf (pkt + 36) 3 with
          | .error e => .error e
          | .ok (tag_ptr, _) =>
            match read_byte buf tag_ptr with
            | .error e => .error e
            | .ok ch =>
              .ok (modify_at (fun e => { e with ssid := ssid, channel := (ch : Int), rssi := rssi,
                                                beacons := wrap_int (e.beacons + 1) }) l p) := by
  obtain ⟨en1, h1, hlt, hfind, _, hmac, hc, hs, hb, _⟩ := find_or_add_ap_slot en mac p hp
  have hconf : ∀ (l : List entity), l = (if (deref en1 p).type ≠ TYPE_AP then
      confirm_ap en1 (some p) else en1) →
      l.length = en1.length ∧ find_any l mac = some p ∧ (deref l p).type = TYPE_AP ∧
      (deref l p).channel = (deref en1 p).channel ∧ (deref l p).ssid = (deref en1 p).ssid ∧
      (deref l p).beacons = (deref en1 p).beacons := by
    intro l hl
    by_cases ht : (deref en1 p).type ≠ TYPE_AP
    · rw [if_pos ht] at hl
      subst hl
      simp only [confirm_ap]
      rw [length_modify_at, find_any_modify_at _ (by intro _; rfl), deref_modify_at_same _ _ _ hlt]
      exact ⟨rfl, hfind, rfl, rfl, rfl, rfl⟩
    · rw [if_neg ht] at hl
      subst hl
      exact ⟨rfl, hfind, by simpa using ht, rfl, rfl, rfl⟩
  unfold handle_beacon
  rw [h1]
  simp only []
  generalize hl : (if (deref en1 p).type ≠ TYPE_AP then confirm_ap en1 (some p) else en1) = l
  obtain ⟨hl1, hl2, hl3, hl4, hl5, hl6⟩ := hconf l hl.symm
  have hz : (deref l p).channel = 0 := by rw [hl4, hc, hch0]
  rw [if_pos hz, hl5, hs]
  exact ⟨l, by rw [hl1]; exact hlt, hl2, hl3, by rw [hl6, hb], rfl⟩

/-- A beacon from a sender whose channel is not yet set and whose SSID and channel decode:
what `handle_beacon` leaves in the sender's slot. -/
theorem handle_beacon_first (en : List entity) (buf : List Nat) (pkt mac p : Nat) (rssi : Int)
    (ssid1 : List Nat) (tp sz ch : Nat)
    (hp : find_any en mac = some p ∨
      (find_any en mac = none ∧ en.length < MAX_ENTITIES ∧ p = en.length))
    (hch0 : (deref en p).channel = 0)
    (hssid : set_ap_ssid (deref en p).ssid buf (pkt + 36) = .ok ssid1)
    (htag : find_tag buf (pkt + 36) 3 = .ok (tp, sz))
    (hrd : read_byte buf tp = .ok ch) :
    ∃ en2, handle_beacon en buf pkt mac rssi = .ok en2 ∧
      find_any en2 mac = some p ∧ p < en2.length ∧
      (deref en2 p).type = TYPE_AP ∧
      (deref en2 p).channel = (ch : Int) ∧
      (deref en2 p).ssid = ssid1 ∧
      (deref en2 p).rssi = rssi ∧
      (deref en2 p).beacons = wrap_int ((deref en p).beacons + 1) := by
  obtain ⟨l, hlt, hfind, ht, hb, h⟩ := handle_beacon_unset en buf pkt mac p rssi hp hch0
  rw [hssid] at h
  simp only [] at h
  rw [htag] at h
  simp only [] at h
  rw [hrd] at h
  simp only [] at h
  refine ⟨_, h, ?_, by rw [length_modify_at]; exact hlt, ?_⟩
  · rw [find_any_modify_at _ (by intro _; rfl)]
    exact hfind
  · rw [deref_modify_at_same _ _ _ hlt]
    exact ⟨ht, rfl, rfl, rfl, by simp only []; rw [hb]⟩

theorem encode_tags_append (a b : List (Nat × List Nat)) :
    encode_tags (a ++ b) = encode_tags a ++ encode_tags b := by
  induction a with
  | nil => rfl
  | cons r rs ih =>
    obtain ⟨t, w⟩ := r
    simp [encode_tags, ih]

/-- The bytes `strncpy` stores when the source is the value `v` and the count is its length:
`v` up to its first zero byte, then zeros. -/
theorem strncpy_bytes_value (v : List Nat) (hv : ∀ b ∈ v, b < 256) :
    ∀ (front rest : List Nat),
      strncpy_bytes (front ++ v ++ rest) front.length v.length =
        .ok (v.takeWhile (fun c => c ≠ 0) ++
          List.replicate (v.length - (v.takeWhile (fun c => c ≠ 0)).length) 0) := by
  induction v with
  | nil => intro front rest; rfl
  | cons c cs ih =>
    intro front rest
    have hc : c < 256 := hv c (List.mem_cons_self _ _)
    have hr : read_byte (front ++ c :: cs ++ rest) front.length = .ok c := by
      have := read_byte_append front (cs ++ rest) c
      rw [Nat.mod_eq_of_lt hc] at this
      simpa using this
    simp only [List.length_cons, strncpy_bytes]
    rw [hr]
    simp only []
    by_cases h0 : c = 0
    · subst h0
      simp [List.takeWhile]
    · rw [if_neg h0]
      have h2 := ih (fun b hb => hv b (List.mem_cons_of_mem _ hb)) (front ++ [c]) rest
      have e1 : front ++ [c] ++ cs ++ rest = front ++ c :: cs ++ rest := by simp
      have e2 : (front ++ [c]).length = front.length + 1 := by simp
      rw [e1, e2] at h2
      rw [h2]
      simp [List.takeWhile, h0]

/-- What `set_ap_ssid` leaves in the `ssid` array when the first record of type 0 has the
value `v` of at most 254 bytes: `v` up to its first zero byte, zeros up to the length of `v`,
the terminating zero, and the old bytes behind it. -/
theorem set_ap_ssid_value (ssid : List Nat) (hlen : ssid.length = SSID_LENGTH) (v : List Nat)
    (pre post : List (Nat × List Nat)) (front : List Nat)
    (hpre : ∀ r, r ∈ pre → r.1 ≠ 0)
    (hwf : tags_wf (pre ++ (0, v) :: post))
    (hv : ∀ b ∈ v, b < 256) (hn : v.length < SSID_LENGTH) :
    set_ap_ssid ssid (front ++ encode_tags (pre ++ (0, v) :: post)) front.length =
      .ok (v.takeWhile (fun c => c ≠ 0) ++
          List.replicate (v.length - (v.takeWhile (fun c => c ≠ 0)).length) 0 ++
          0 :: ssid.drop (v.length + 1)) := by
  unfold set_ap_ssid
  rw [find_tag_first_match 0 (by decide) v pre post front hpre hwf]
  simp only []
  have e1 : front ++ encode_tags (pre ++ (0, v) :: post) =
      (front ++ encode_tags pre ++ [0, v.length]) ++ v ++ encode_tags post := by
    simp [encode_tags_append, encode_tags]
  have e2 : front.length + (encode_tags pre).length + 2 =
      (front ++ encode_tags pre ++ [0, v.length]).length := by
    simp only [List.length_append, List.length_cons, List.length_nil]
  rw [e1, e2, strncpy_bytes_value v hv]
  simp only []
  have hle : (v.takeWhile (fun c => c ≠ 0)).length ≤ v.length :=
    (List.takeWhile_sublist _).length_le
  have hn2 : v.length < ssid.length := by rw [hlen]; exact hn
  rw [if_pos (Nat.le_of_lt hn2)]
  unfold write_byte
  have hl : (v.takeWhile (fun c => c ≠ 0) ++
      List.replicate (v.length - (v.takeWhile (fun c => c ≠ 0)).length) 0).length = v.length := by
    simp only [List.length_append, List.length_replicate]
    omega
  rw [if_pos (by rw [List.length_append, hl, List.length_drop]; omega)]
  rw [List.set_append, if_neg (by rw [hl]; omega), hl, Nat.sub_self]
  rw [List.drop_eq_getElem_cons hn2]
  rfl

/-- With a value of 255 bytes the terminating zero of `set_ap_ssid` goes to `ssid[255]`, one
past the array. -/
theorem set_ap_ssid_255 (ssid : List Nat) (hlen : ssid.length = SSID_LENGTH) (v : List Nat)
    (pre post : List (Nat × List Nat)) (front : List Nat)
    (hpre : ∀ r, r ∈ pre → r.1 ≠ 0)
    (hwf : tags_wf (pre ++ (0, v) :: post))
    (hv : ∀ b ∈ v, b < 256) (hn : v.length = SSID_LENGTH) :
    set_ap_ssid ssid (front ++ encode_tags (pre ++ (0, v) :: post)) front.length =
      .error .out_of_bounds_write := by
  unfold set_ap_ssid
  rw [find_tag_first_match 0 (by decide) v pre post front hpre hwf]
  simp only []
  have e1 : front ++ encode_tags (pre ++ (0, v) :: post) =
      (front ++ encode_tags pre ++ [0, v.length]) ++ v ++ encode_tags post := by
    simp [encode_tags_append, encode_tags]
  have e2 : front.length + (encode_tags pre).length + 2 =
      (front ++ encode_tags pre ++ [0, v.length]).length := by
    simp only [List.length_append, List.length_cons, List.length_nil]
  rw [e1, e2, strncpy_bytes_value v hv]
  simp only []
  have hle : (v.takeWhile (fun c => c ≠ 0)).length ≤ v.length :=
    (List.takeWhile_sublist _).length_le
  rw [if_pos (by rw [hlen, hn])]
  unfold write_byte
  rw [if_neg]
  simp only [List.length_append, List.length_replicate, List.length_drop]
  omega

/-- The C string of an array that starts with `v` up to its first zero byte followed by a
zero byte. -/
theorem takeWhile_value (v rest : List Nat) (k : Nat) :
    (v.takeWhile (fun c => c ≠ 0) ++ List.replicate k 0 ++ 0 :: rest).takeWhile
      (fun c => c ≠ 0) = v.takeWhile (fun c => c ≠ 0) := by
  rw [List.append_assoc, List.takeWhile_append_of_pos]
  · cases k with
    | zero => simp
    | succ k => simp [List.replicate_succ]
  · intro a ha
    exact List.mem_takeWhile_imp (p := fun c => decide (c ≠ 0)) ha

set_option maxRecDepth 1000000 in
/-- C16, the claim as stated fails twice.  A beacon whose SSID is the three bytes 65, 0, 66 is
stored as 65 followed by zeros: `strncpy` stops at the zero byte, and the name held is the one
byte 65.  A beacon whose SSID has 255 bytes makes `set_ap_ssid` store the terminating zero at
`ssid[255]`, outside the array of 255 bytes. -/
theorem C16_ssid_not_stored_counterexample :
    (∃ s1, handle_packet init (beacon_frame addr_X nul_ssid_tags).header
        (beacon_frame addr_X nul_ssid_tags).packet = .ok s1 ∧
      (deref s1.en 0).ssid.take 4 = [65, 0, 0, 0] ∧
      ssid_bytes (deref s1.en 0) = [65]) ∧
    handle_packet init (beacon_frame addr_X long_ssid_tags).header
        (beacon_frame addr_X long_ssid_tags).packet = .error .out_of_bounds_write :=
  ⟨⟨_, rfl, by decide, by decide⟩, by rfl⟩

/-- C16 (amended): a beacon that first populates an access point (the sender X is new and
there is room, or X is in the table with channel 0) and whose tagged parameters hold a first
record of type 0 with a value `v` of at most 254 bytes, the channel record decoding as well:
the frame is processed without a store outside the `ssid` array, which keeps its 255 bytes,
and the name held afterwards is `v` up to its first zero byte, so all of `v` when `v` has no
zero byte. -/
theorem C16_ssid_stored_up_to_first_zero (s : state) (fr : frame) (f : fields) (X p : Nat)
    (front : List Nat) (pre post : List (Nat × List Nat)) (v : List Nat) (tp sz ch : Nat)
    (hf : frame_fields fr.packet = .ok f)
    (hb : f.no_sa = false ∧ f.wtype = 0 ∧ f.wsubtype = 8 ∧ f.sa = X)
    (hp : find_any s.en X = some p ∨
      (find_any s.en X = none ∧ s.en.length < MAX_ENTITIES ∧ p = s.en.length))
    (hch0 : (deref s.en p).channel = 0)
    (hlen : (deref s.en p).ssid.length = SSID_LENGTH)
    (hpkt : fr.packet = front ++ encode_tags (pre ++ (0, v) :: post))
    (hfront : front.length = f.pkt_ptr + 36)
    (hpre : ∀ r, r ∈ pre → r.1 ≠ 0)
    (hwf : tags_wf (pre ++ (0, v) :: post))
    (hv : ∀ b ∈ v, b < 256) (hn : v.length < SSID_LENGTH)
    (htag : find_tag fr.packet (f.pkt_ptr + 36) 3 = .ok (tp, sz))
    (hrd : read_byte fr.packet tp = .ok ch) :
    ∃ s1, handle_packet s fr.header fr.packet = .ok s1 ∧
      (deref s1.en p).ssid.length = SSID_LENGTH ∧
      ssid_bytes (deref s1.en p) = v.takeWhile (fun c => c ≠ 0) ∧
      ((∀ b ∈ v, b ≠ 0) → ssid_bytes (deref s1.en p) = v) := by
  obtain ⟨hn1, hw, hs, hsa⟩ := hb
  subst hsa
  have hssid := set_ap_ssid_value (deref s.en p).ssid hlen v pre post front hpre hwf hv hn
  rw [← hpkt, hfront] at hssid
  obtain ⟨en2, h2, _, _, _, _, g5, _, _⟩ :=
    handle_beacon_first s.en fr.packet f.pkt_ptr f.sa p f.rssi _ tp sz ch hp hch0 hssid htag hrd
  have h1 := handle_packet_beacon s fr f hf hn1 hw hs en2 h2
  have hle : (v.takeWhile (fun c => c ≠ 0)).length ≤ v.length :=
    (List.takeWhile_sublist _).length_le
  have hname : ssid_bytes (deref en2 p) = v.takeWhile (fun c => c ≠ 0) := by
    unfold ssid_bytes
    rw [g5]
    exact takeWhile_value v _ _
  refine ⟨_, h1, ?_, hname, ?_⟩
  · simp only []
    rw [g5]
    simp only [List.length_append, List.length_replicate, List.length_cons, List.length_drop, hlen]
    omega
  · intro hnz
    simp only []
    rw [hname]
    exact List.takeWhile_eq_self_iff.mpr (fun a ha => by simpa using hnz a ha)

set_option maxRecDepth 100000 in
/-- Witness for C16 (amended): the beacon from X with SSID "Home" on the empty table. -/
theorem C16_ssid_stored_up_to_first_zero_witness :
    ∃ s1, handle_packet init (beacon_frame addr_X home_tags).header
        (beacon_frame addr_X home_tags).packet = .ok s1 ∧
      (deref s1.en 0).ssid.length = SSID_LENGTH ∧
      ssid_bytes (deref s1.en 0) = [72, 111, 109, 101] := by
  obtain ⟨s1, h1, h2, _, h4⟩ := C16_ssid_stored_up_to_first_zero init
    (beacon_frame addr_X home_tags)
    { rssi := -60, pkt_ptr := 24, wtype := 0, wsubtype := 8, no_sa := false,
      da := 0xffffffffffff, sa := 0x001122334455 }
    0x001122334455 0
    (radiotap 196 ++ mac_header 0x80 addr_broadcast addr_X ++ List.replicate 12 0)
    [] [(3, [11])] [72, 111, 109, 101] 68 1 11
    (by rfl) (by decide) (Or.inr ⟨by rfl, by decide, by rfl⟩) (by rfl) (by rfl) (by rfl)
    (by rfl) (by decide) (by unfold tags_wf; decide) (by decide) (by decide) (by rfl) (by rfl)
  exact ⟨s1, h1, h2, h4 (by decide)⟩

/-! ## The first beacon of a sender (C15) -/

/-- A beacon frame in which `handle_beacon` faults. -/
theorem handle_packet_beacon_error (s : state) (fr : frame) (f : fields)
    (hf : frame_fields fr.packet = .ok f) (hn : f.no_sa = false) (hw : f.wtype = 0)
    (hs : f.wsubtype = 8) (e : Fault)
    (hb : handle_beacon s.en fr.packet f.pkt_ptr f.sa f.rssi = .error e) :
    handle_packet s fr.header fr.packet = .error e := by
  unfold handle_packet
  rw [hf]
  simp only [hn, hw, hs, and_self, if_true, hb]
  rfl

/-- A beacon that would populate its sender and has no record of type 0, or a storable SSID
and no record of type 3: `handle_beacon` reads at the end of the frame. -/
theorem handle_beacon_absent (en : List entity) (mac p : Nat) (rssi : Int) (pkt : Nat)
    (front : List Nat) (rs : List (Nat × List Nat))
    (hp : find_any en mac = some p ∨
      (find_any en mac = none ∧ en.length < MAX_ENTITIES ∧ p = en.length))
    (hch0 : (deref en p).channel = 0)
    (hfront : front.length = pkt + 36) (hwf : tags_wf rs)
    (h : (∀ r, r ∈ rs → r.1 ≠ 0) ∨
      ((∀ r, r ∈ rs → r.1 ≠ 3) ∧ ∃ v, first_value rs 0 v ∧ (∀ b ∈ v, b < 256) ∧
        v.length < SSID_LENGTH ∧ (deref en p).ssid.length = SSID_LENGTH)) :
    handle_beacon en (front ++ encode_tags rs) pkt mac rssi = .error .out_of_bounds_read := by
  obtain ⟨l, _, _, _, _, hh⟩ := handle_beacon_unset en (front ++ encode_tags rs) pkt mac p rssi
    hp hch0
  rw [hh, ← hfront]
  rcases h with h0 | ⟨h3, v, ⟨pre, post, hrs, hpre⟩, hv, hn, hlen⟩
  · have : set_ap_ssid (deref en p).ssid (front ++ encode_tags rs) front.length
        = .error .out_of_bounds_read := by
      unfold set_ap_ssid
      rw [find_tag_absent 0 (by decide) rs front h0 hwf]
    rw [this]
  · have hs := set_ap_ssid_value (deref en p).ssid hlen v pre post front hpre
      (by rw [← hrs]; exact hwf) hv hn
    rw [← hrs] at hs
    rw [hs]
    simp only []
    rw [find_tag_absent 3 (by decide) rs front h3 hwf]

set_option maxRecDepth 100000 in
/-- C8 (counterexample): on the bounded buffer `[(0,3,"AAA"),(3,1,[6])]`, which has no record
of tag 7, `find_tag` does not report that the tag is missing: it reads at the end of the
buffer.  The same happens in `handle_packet` for a beacon on the empty table that carries an
SSID but no tag 3, and for one that carries a channel but no tag 0. -/
theorem C8_find_tag_absent_counterexample :
    find_tag (encode_tags [(0, [65, 65, 65]), (3, [6])]) 0 7 = .error .out_of_bounds_read ∧
    handle_packet init (beacon_frame addr_X (encode_tags [(0, [72, 111, 109, 101])])).header
      (beacon_frame addr_X (encode_tags [(0, [72, 111, 109, 101])])).packet
      = .error .out_of_bounds_read ∧
    handle_packet init (beacon_frame addr_X (encode_tags [(3, [11])])).header
      (beacon_frame addr_X (encode_tags [(3, [11])])).packet
      = .error .out_of_bounds_read :=
  ⟨by rfl, by rfl, by rfl⟩

/-- C8 (amended): `find_tag` has no bound on its scan and no result that reports a missing
tag.  On a buffer that ends after well-formed records none of which has the requested tag id
(other than 255): the scan reads outside the buffer; as many iterations as there are records
stay inside it, so the read that leaves the buffer is the one at its end; what lies there
decides the result, a record of the requested type placed behind the buffer is found.  A
beacon that would populate its sender and whose tagged parameters are such records makes
`handle_packet` read outside the frame in the same way, when the requested tag is 0, or when
it is 3 and the SSID record holds at most 254 bytes. -/
theorem C8_find_tag_absent_reads_past_end (tag_id : Nat) (htag : tag_id ≠ 255)
    (rs : List (Nat × List Nat)) (front : List Nat)
    (hrs : ∀ r, r ∈ rs → r.1 ≠ tag_id) (hwf : tags_wf rs) :
    find_tag (front ++ encode_tags rs) front.length tag_id = .error .out_of_bounds_read ∧
    find_tag_loop (front ++ encode_tags rs) tag_id rs.length front.length 255 0
      = .error .out_of_fuel ∧
    (∀ v : List Nat, tag_id < 256 → v.length < 256 →
      find_tag (front ++ encode_tags rs ++ encode_tags [(tag_id, v)]) front.length tag_id
        = .ok ((front ++ encode_tags rs).length + 2, v.length)) ∧
    (∀ (s : state) (fr : frame) (f : fields) (p : Nat),
      frame_fields fr.packet = .ok f → f.no_sa = false → f.wtype = 0 → f.wsubtype = 8 →
      (find_any s.en f.sa = some p ∨
        (find_any s.en f.sa = none ∧ s.en.length < MAX_ENTITIES ∧ p = s.en.length)) →
      (deref s.en p).channel = 0 →
      fr.packet = front ++ encode_tags rs → front.length = f.pkt_ptr + 36 →
      (tag_id = 0 ∨ (tag_id = 3 ∧ ∃ v, first_value rs 0 v ∧ (∀ b ∈ v, b < 256) ∧
        v.length < SSID_LENGTH ∧ (deref s.en p).ssid.length = SSID_LENGTH)) →
      handle_packet s fr.header fr.packet = .error .out_of_bounds_read) := by
  refine ⟨find_tag_absent tag_id htag rs front hrs hwf,
    find_tag_loop_inside tag_id rs front 255 0 (Ne.symm htag) hrs hwf, ?_, ?_⟩
  · intro v ht hv
    have h := find_tag_first_match tag_id htag v rs [] front hrs (by
      intro r hr
      rcases List.mem_append.mp hr with h1 | h1
      · exact hwf r h1
      · simp only [List.mem_singleton] at h1
        subst h1
        exact ⟨ht, hv⟩)
    rw [encode_tags_append, ← List.append_assoc] at h
    rw [h]
    simp only [List.length_append, Nat.add_assoc]
  · intro s fr f p hf hn hw hs hp hch0 hpkt hfront hcase
    apply handle_packet_beacon_error s fr f hf hn hw hs
    rw [hpkt]
    apply handle_beacon_absent s.en f.sa p f.rssi f.pkt_ptr front rs hp hch0 hfront hwf
    rcases hcase with h0 | ⟨h3, hv⟩
    · subst h0
      exact Or.inl hrs
    · subst h3
      exact Or.inr ⟨hrs, hv⟩

set_option maxRecDepth 100000 in
/-- Witness for C8 (amended): the SSID record "Home" alone, searched for tag 3, as a buffer and
as the tagged parameters of a beacon from X on the empty table. -/
theorem C8_find_tag_absent_reads_past_end_witness :
    find_tag (encode_tags [(0, [72, 111, 109, 101])]) 0 3 = .error .out_of_bounds_read ∧
    find_tag (encode_tags [(0, [72, 111, 109, 101])] ++ encode_tags [(3, [11])]) 0 3
      = .ok (8, 1) ∧
    handle_packet init (beacon_frame addr_X (encode_tags [(0, [72, 111, 109, 101])])).header
      (beacon_frame addr_X (encode_tags [(0, [72, 111, 109, 101])])).packet
      = .error .out_of_bounds_read := by
  have h := C8_find_tag_absent_reads_past_end 3 (by decide) [(0, [72, 111, 109, 101])] []
    (by decide) (by unfold tags_wf; decide)
  have h2 := C8_find_tag_absent_reads_past_end 3 (by decide) [(0, [72, 111, 109, 101])]
    (radiotap 196 ++ mac_header 0x80 addr_broadcast addr_X ++ List.replicate 12 0)
    (by decide) (by unfold tags_wf; decide)
  exact ⟨h.1, h.2.2.1 [11] (by decide) (by decide),
    h2.2.2.2 init (beacon_frame addr_X (encode_tags [(0, [72, 111, 109, 101])]))
      { rssi := -60, pkt_ptr := 24, wtype := 0, wsubtype := 8, no_sa := false,
        da := 0xffffffffffff, sa := 0x001122334455 } 0
      (by rfl) rfl rfl rfl (Or.inr ⟨by rfl, by decide, by rfl⟩) (by rfl) (by rfl) (by rfl)
      (Or.inr ⟨rfl, [72, 111, 109, 101], ⟨[], [], rfl, by simp⟩, by decide, by decide, by rfl⟩)⟩

/-- C7 (counterexample): on the single record (255, 1, [7]), whose bytes are `[255, 1, 7]`,
`find_tag` for tag id 255 returns position 0 with size 0, not the position 2 of the value with
size 1: the loop is not entered, `tag_type` starts as `(u_int8_t) -1 = 255`. -/
theorem C7_find_tag_255_counterexample :
    encode_tags [(255, [7])] = [255, 1, 7] ∧
    find_tag (encode_tags [(255, [7])]) 0 255 = .ok (0, 0) ∧
    find_tag (encode_tags [(255, [7])]) 0 255 ≠ .ok (2, 1) :=
  ⟨by rfl, by rfl, by
    rw [show find_tag (encode_tags [(255, [7])]) 0 255 = .ok (0, 0) from by rfl]
    intro h
    simp only [Except.ok.injEq, Prod.mk.injEq] at h
    omega⟩

/-- C7 (amended): for well-formed records and a tag id other than 255 that is the type of a
record, `find_tag` returns the position of the value of the first record of that type and
sets the size to the length of that value: the bytes of the buffer at that position, in that
number, are the value. -/
theorem C7_find_tag_returns_first_match (tag_id : Nat) (htag : tag_id ≠ 255) (v : List Nat)
    (pre post : List (Nat × List Nat)) (front : List Nat)
    (hpre : ∀ r, r ∈ pre → r.1 ≠ tag_id)
    (hwf : tags_wf (pre ++ (tag_id, v) :: post)) :
    find_tag (front ++ encode_tags (pre ++ (tag_id, v) :: post)) front.length tag_id
      = .ok (front.length + (encode_tags pre).length + 2, v.length) ∧
    ((front ++ encode_tags (pre ++ (tag_id, v) :: post)).drop
      (front.length + (encode_tags pre).length + 2)).take v.length = v := by
  refine ⟨find_tag_first_match tag_id htag v pre post front hpre hwf, ?_⟩
  have e1 : front ++ encode_tags (pre ++ (tag_id, v) :: post) =
      (front ++ encode_tags pre ++ [tag_id, v.length]) ++ (v ++ encode_tags post) := by
    simp [encode_tags_append, encode_tags]
  have e2 : front.length + (encode_tags pre).length + 2 =
      (front ++ encode_tags pre ++ [tag_id, v.length]).length := by
    simp only [List.length_append, List.length_cons, List.length_nil]
  rw [e1, e2, List.drop_left, List.take_left]

/-- Witness for C7 (amended): on `[(0,3,"AAA"),(3,1,[6])]` tag 3 is found at position 7 with
size 1, where the buffer holds the byte 6. -/
theorem C7_find_tag_returns_first_match_witness :
    find_tag (encode_tags [(0, [65, 65, 65]), (3, [6])]) 0 3 = .ok (7, 1) ∧
    ((encode_tags [(0, [65, 65, 65]), (3, [6])]).drop 7).take 1 = [6] :=
  C7_find_tag_returns_first_match 3 (by decide) [6] [(0, [65, 65, 65])] [] []
    (by decide) (by unfold tags_wf; decide)

/-! ## Roles over a run (C3) -/

/-- With unique addresses `find_any` on the address of slot `i` returns slot `i`. -/
theorem find_any_of_nodup (en : List entity) (i : Nat) (hn : (macs en).Nodup)
    (hi : i < en.length) : find_any en (deref en i).mac = some i := by
  cases h : find_any en (deref en i).mac with
  | none =>
    rw [find_any_none] at h
    have hm : en[i] ∈ en := List.getElem_mem hi
    have := h en[i] hm
    simp [deref, hi] at this
  | some p =>
    obtain ⟨hp, hmac⟩ := find_any_some _ _ _ h
    have e1 : (macs en)[p]? = some (deref en p).mac := by
      simp [macs, deref, hp]
    have e2 : (macs en)[i]? = some (deref en i).mac := by
      simp [macs, deref, hi]
    by_cases hpi : p = i
    · rw [hpi]
    · exfalso
      rw [List.nodup_iff_getElem?_ne_getElem?] at hn
      rcases Nat.lt_or_gt_of_ne hpi with hlt | hgt
      · have := hn p i hlt (by simpa [macs] using hi)
        rw [e1, e2, hmac] at this
        exact this rfl
      · have := hn i p hgt (by simpa [macs] using hp)
        rw [e1, e2, hmac] at this
        exact this rfl

/-- One frame that is a beacon sent from the address of slot `i`: the entity is an access
point afterwards, whatever it was. -/
theorem handle_packet_own_beacon (s s1 : state) (fr : frame)
    (h : handle_packet s fr.header fr.packet = .ok s1) (hn : (macs s.en).Nodup)
    (i : Nat) (hi : i < s.en.length) (hb : is_beacon_from fr (deref s.en i).mac) :
    (deref s1.en i).type = TYPE_AP := by
  obtain ⟨f, hf, hno, hw, hs, hsa⟩ := hb
  cases hhb : handle_beacon s.en fr.packet f.pkt_ptr f.sa f.rssi with
  | error e =>
    rw [handle_packet_beacon_error s fr f hf hno hw hs e hhb] at h
    simp at h
  | ok en2 =>
    rw [handle_packet_beacon s fr f hf hno hw hs en2 hhb] at h
    simp only [Except.ok.injEq] at h
    subst h
    obtain ⟨en1, p, g, hcase, hp, hmac, rfl, hg⟩ := handle_beacon_ok _ _ _ _ _ _ hhb
    have hfind := find_any_of_nodup s.en i hn hi
    rw [← hsa] at hfind
    rcases hcase with ⟨h1, rfl⟩ | ⟨h1, _⟩
    · rw [hfind] at h1
      simp only [Option.some.injEq] at h1
      subst h1
      simp only []
      rw [deref_modify_at_same _ _ _ hi]
      exact (hg _).2.1
    · rw [hfind] at h1
      simp at h1

/-- Roles over a run that starts with unique addresses: an access point stays one; a user
becomes an access point when one of the frames is a beacon sent from its address, and stays a
user otherwise. -/
theorem run_roles (frames : List frame) :
    ∀ (s s1 : state), run s frames = .ok s1 → (macs s.en).Nodup → ∀ i, i < s.en.length →
      (deref s1.en i).mac = (deref s.en i).mac ∧
      ((deref s.en i).type = TYPE_AP → (deref s1.en i).type = TYPE_AP) ∧
      ((deref s.en i).type = TYPE_USER →
        ((∃ fr, fr ∈ frames ∧ is_beacon_from fr (deref s.en i).mac) →
          (deref s1.en i).type = TYPE_AP) ∧
        ((¬ ∃ fr, fr ∈ frames ∧ is_beacon_from fr (deref s.en i).mac) →
          (deref s1.en i).type = TYPE_USER)) := by
  induction frames with
  | nil =>
    intro s s1 h _ i _
    simp only [run, Except.ok.injEq] at h
    subst h
    refine ⟨rfl, id, fun hu => ⟨fun hex => ?_, fun _ => hu⟩⟩
    obtain ⟨fr, hmem, _⟩ := hex
    simp at hmem
  | cons fr frs ih =>
    intro s s1 h hn i hi
    simp only [run] at h
    cases hp : handle_packet s fr.header fr.packet with
    | error e => rw [hp] at h; simp at h
    | ok s2 =>
      rw [hp] at h
      simp only [] at h
      obtain ⟨hlen, hstep⟩ := handle_packet_roles s s2 fr hp
      obtain ⟨m1, a1, u1⟩ := hstep i hi
      have hn2 := handle_packet_nodup s s2 fr.header fr.packet hp hn
      obtain ⟨m2, a2, u2⟩ := ih s2 s1 h hn2 i (Nat.lt_of_lt_of_le hi hlen)
      refine ⟨by rw [m2, m1], fun ha => a2 (a1 ha), fun hu => ?_⟩
      by_cases hown : is_beacon_from fr (deref s.en i).mac
      · have hap := handle_packet_own_beacon s s2 fr hp hn i hi hown
        exact ⟨fun _ => a2 hap, fun hne => absurd ⟨fr, List.mem_cons_self _ _, hown⟩ hne⟩
      · have hu2 : (deref s2.en i).type = TYPE_USER := by
          rcases u1 hu with h1 | ⟨_, h1⟩
          · exact h1
          · exact absurd h1 hown
        obtain ⟨b1, b2⟩ := u2 hu2
        rw [m1] at b1 b2
        constructor
        · rintro ⟨g, hg, hgb⟩
          rcases List.mem_cons.mp hg with rfl | hg
          · exact absurd hgb hown
          · exact b1 ⟨g, hg, hgb⟩
        · intro hne
          exact b2 (fun ⟨g, hg, hgb⟩ => hne ⟨g, List.mem_cons_of_mem _ hg, hgb⟩)

/-- C3 (amended): a table reached from the empty table by frames that `handle_packet`
processes, and any further frames it processes.  Every entity keeps its address.  An entity
that is an AccessPoint stays an AccessPoint.  An entity that is a User becomes an AccessPoint
when one of the further frames is a beacon sent from its own address, and is a User afterwards
when none of them is: no other frame changes its role. -/
theorem C3_roles_change_only_by_own_beacon (pre frames : List frame) (s s1 : state)
    (h0 : run init pre = .ok s) (h : run s frames = .ok s1) (i : Nat) (hi : i < s.en.length) :
    (deref s1.en i).mac = (deref s.en i).mac ∧
    ((deref s.en i).type = TYPE_AP → (deref s1.en i).type = TYPE_AP) ∧
    ((deref s.en i).type = TYPE_USER →
      ((∃ fr, fr ∈ frames ∧ is_beacon_from fr (deref s.en i).mac) →
        (deref s1.en i).type = TYPE_AP) ∧
      ((¬ ∃ fr, fr ∈ frames ∧ is_beacon_from fr (deref s.en i).mac) →
        (deref s1.en i).type = TYPE_USER)) :=
  run_roles frames s s1 h (run_nodup init s pre h0 (by simp [macs, init])) i hi

set_option maxRecDepth 100000 in
/-- Witness for C3 (amended): after a beacon from X and a data frame from Y to X the entity Y
in slot 1 is a User; a data frame from Y to X leaves it a User and a beacon sent by Y makes it
an AccessPoint. -/
theorem C3_roles_change_only_by_own_beacon_witness :
    ∃ s s1 s2, run init [beacon_frame addr_X home_tags, data_frame addr_Y addr_X] = .ok s ∧
      run s [data_frame addr_Y addr_X] = .ok s1 ∧
      run s [beacon_frame addr_Y home_tags] = .ok s2 ∧
      (deref s.en 1).type = TYPE_USER ∧ (deref s1.en 1).type = TYPE_USER ∧
      (deref s2.en 1).type = TYPE_AP :=
  ⟨_, _, _, rfl, rfl, rfl, by decide,
    ((C3_roles_change_only_by_own_beacon
      [beacon_frame addr_X home_tags, data_frame addr_Y addr_X] [data_frame addr_Y addr_X]
      _ _ rfl rfl 1 (by decide)).2.2 (by decide)).2 (by
        rintro ⟨g, hg, f, hf, _, hw, _⟩
        simp only [List.mem_singleton] at hg
        subst hg
        have hf2 : frame_fields (data_frame addr_Y addr_X).packet = .ok
            { rssi := -60, pkt_ptr := 24, wtype := 2, wsubtype := 0, no_sa := false,
              da := 0x001122334455, sa := 0xaabbccddeeff } := by rfl
        rw [hf2] at hf
        simp only [Except.ok.injEq] at hf
        subst hf
        simp at hw),
    ((C3_roles_change_only_by_own_beacon
      [beacon_frame addr_X home_tags, data_frame addr_Y addr_X] [beacon_frame addr_Y home_tags]
      _ _ rfl rfl 1 (by decide)).2.2 (by decide)).1
      ⟨beacon_frame addr_Y home_tags, List.mem_singleton.mpr rfl,
        { rssi := -60, pkt_ptr := 24, wtype := 0, wsubtype := 8, no_sa := false,
          da := 0xffffffffffff, sa := 0xaabbccddeeff }, by rfl, rfl, rfl, rfl, by rfl⟩⟩

/-! ## The access points of a channel (C18) -/

set_option maxRecDepth 1000000 in
/-- C18: twenty access points on channel 1 fill the `aps` array of that channel (slots 0 to 19
in table order, `naps` 20, traffic 200); with a twenty-first access point on channel 1 the
store `chans[chan].aps[chans[chan].naps] = &en[i]` goes to `aps[20]`, outside the array. -/
theorem C18_twenty_first_ap_leaves_aps_array :
    (∃ st, analyze_channels atten_one (List.replicate 20 (ap_on_channel 1 10)) = .ok st ∧
      (chan_record st 1).aps = (List.range 20).map some ∧
      (chan_record st 1).naps = 20 ∧
      (chan_record st 1).traffic = 200) ∧
    analyze_channels atten_one (List.replicate 21 (ap_on_channel 1 10)) =
      .error .out_of_bounds_write :=
  ⟨⟨_, rfl, by decide, by decide, by decide⟩, by rfl⟩

end AirQuality
